import Mathlib

/-! # sa4u: semantic-type inference and flow engine (`src/main.cpp`)

A shallow embedding of the per-function AST walk of `src/main.cpp`.

* `std::set<K>` is a strictly increasing `List K`; `std::map<K, V>` is a list of pairs
  with strictly increasing keys.  Insertion keeps the order, so iteration over the list is
  iteration over the container.  The unordered containers of the source are never
  iterated; they use the same representation.
* The AST provider (libclang) is external: a cursor is a tree of records holding what the
  source asks libclang about it.  `clang_visitChildren` is the pre-order traversal with the
  `Break` / `Continue` / `Recurse` protocol.
* Undefined behaviour and uncaught exceptions (`vector::back` on an empty vector, an index
  out of range, `map::at` on a missing key, a read of an uninitialised local) are `none`.
* The mutex is not modelled: the embedding is the walk of one worker.
-/

namespace SA4U

/-! ## Containers -/

/-- Key order of `std::set` / `std::map`: `std::less` on the key type. -/
class KeyOrd (κ : Type) where
  lt : κ → κ → Bool

/-- Order of `std::string`: lexicographic on the characters. -/
instance : KeyOrd String := ⟨fun a b => decide (a.data < b.data)⟩

instance : KeyOrd Int := ⟨fun a b => decide (a < b)⟩

instance : KeyOrd Nat := ⟨fun a b => decide (a < b)⟩

/-- Contents of a `std::set<κ>` in iteration order. -/
abbrev StdSet (κ : Type) := List κ

/-- Contents of a `std::map<κ, α>` in iteration order. -/
abbrev StdMap (κ : Type) (α : Type) := List (κ × α)

/-- Member function `std::set::insert(x)`. -/
def set_insert {κ : Type} [DecidableEq κ] [KeyOrd κ] (x : κ) : StdSet κ → StdSet κ
  | [] => [x]
  | y :: ys =>
    if x = y then y :: ys
    else if KeyOrd.lt x y then x :: y :: ys
    else y :: set_insert x ys

/-- Range insertion `dst.insert(src.begin(), src.end())`. -/
def set_insert_all {κ : Type} [DecidableEq κ] [KeyOrd κ] (dst : StdSet κ) (src : List κ) :
    StdSet κ :=
  src.foldl (fun acc x => set_insert x acc) dst

/-- Test `s.find(x) != s.end()`. -/
def set_contains {κ : Type} [DecidableEq κ] (x : κ) (s : StdSet κ) : Bool :=
  s.contains x

/-- Lookup `m.find(k)`: the mapped value, or `none` for `m.end()`. -/
def map_find {κ α : Type} [DecidableEq κ] (k : κ) : StdMap κ α → Option α
  | [] => none
  | (k', v) :: rest => if k = k' then some v else map_find k rest

/-- Assignment `m[k] = v`. -/
def map_set {κ α : Type} [DecidableEq κ] [KeyOrd κ] (k : κ) (v : α) : StdMap κ α → StdMap κ α
  | [] => [(k, v)]
  | (k', v') :: rest =>
    if k = k' then (k', v) :: rest
    else if KeyOrd.lt k k' then (k, v) :: (k', v') :: rest
    else (k', v') :: map_set k v rest

/-- Read of `m[k]`: the mapped value, value-initialised when the key is new. -/
def map_at_default {κ α : Type} [DecidableEq κ] (dflt : α) (k : κ) (m : StdMap κ α) : α :=
  (map_find k m).getD dflt

/-- Keys of a map in iteration order. -/
def map_keys {κ α : Type} (m : StdMap κ α) : List κ :=
  m.map Prod.fst

/-! ## Data model (`common.hpp`, `units.hpp`, known from their uses in `main.cpp`) -/

inductive TypeSourceKind where
  | SOURCE_INTRINSIC
  | SOURCE_PARAM
  | SOURCE_UNKNOWN
deriving DecidableEq, Repr

/-- Aggregate `TypeSource`, initialised in the source as `{kind, param_no, note}`. -/
structure TypeSource where
  kind : TypeSourceKind
  param_no : Int
  note : String
deriving DecidableEq, Repr

/-- Aggregate `Dimension`: seven base-unit exponents and a rational scalar. -/
structure Dimension where
  coefficients : List Int
  scalar_numerator : Int
  scalar_denominator : Int
deriving DecidableEq, Repr

/-- Aggregate `TypeInfo`. -/
structure TypeInfo where
  frames : StdSet Int
  units : StdSet Int
  source : List TypeSource
  dimension : Option Dimension
deriving DecidableEq, Repr

/-- Value-initialised `TypeInfo`. -/
def TypeInfo.empty : TypeInfo := ⟨[], [], [], none⟩

/-- What `main.cpp` uses from the headers that are not under `src/`: the two frame
constants of `mav.hpp` that bound the frame loops, `Dimension::operator*` of `units.hpp`
and the inequality test between TypeInfo values of `common.hpp`. -/
structure Headers where
  MAV_FRAME_GLOBAL : Int
  MAV_FRAME_NONE : Int
  dim_mul : Dimension → Dimension → Dimension
  typeinfo_ne : TypeInfo → TypeInfo → Bool

/-- Loop `for (int i = first; i < last; i++) s.insert(i);`. -/
def insert_range (first last : Int) (s : StdSet Int) : StdSet Int :=
  set_insert_all s ((List.range (last - first).toNat).map (fun k => first + (k : Int)))

/-! ## `merge_typeinfo`, `unify_scopes`, `get_var_typeinfo` -/

/-- Source function `merge_typeinfo(dst, src)`; the result is the new `dst`. -/
def merge_typeinfo (dst src : TypeInfo) : TypeInfo :=
  { dst with
    frames := set_insert_all dst.frames src.frames
    units := set_insert_all dst.units src.units
    source := dst.source ++ src.source }

/-- Source function `unify_scopes(old, latest)`; the result is the new `old`. -/
def unify_scopes (old latest : StdMap String TypeInfo) : StdMap String TypeInfo :=
  latest.foldl
    (fun acc p =>
      match map_find p.1 acc with
      | some v => map_set p.1 (merge_typeinfo v p.2) acc
      | none => acc)
    old

/-- Source function `get_var_typeinfo`: scopes are searched from the back of the vector. -/
def get_var_typeinfo (varname : String) (var_types : List (StdMap String TypeInfo)) :
    Option TypeInfo :=
  var_types.reverse.findSome? (fun m => map_find varname m)

/-! ## The AST as seen through libclang -/

inductive CXCursorKind where
  | FunctionDecl | CXXMethod | VarDecl | ParmDecl
  | DeclRefExpr | MemberRefExpr | CallExpr | BinaryOperator | IntegerLiteral
  | ArraySubscriptExpr | CXXThisExpr | UnexposedExpr
  | IfStmt | ForStmt | WhileStmt | DoStmt | CXXForRangeStmt | BreakStmt | SwitchStmt
  | CompoundStmt | DeclStmt | CaseStmt
  | Other
deriving DecidableEq, Repr

inductive CXChildVisitResult where
  | Break
  | Continue
  | Recurse
deriving DecidableEq, Repr

inductive CXLinkageKind where
  | Invalid | NoLinkage | Internal | UniqueExternal | External
deriving DecidableEq, Repr

/-- A libclang type: a pointer (`CXType_Pointer`) with its pointee, or any other type with
its spelling (`clang_getTypeSpelling`). -/
inductive CXType where
  | Pointer (pointee : CXType)
  | Spelled (spelling : String)
deriving DecidableEq, Repr

/-- A cursor reached through `clang_getCursorSemanticParent`: its kind and spelling. -/
structure CursorRef where
  kind : CXCursorKind
  spelling : String
deriving DecidableEq, Repr

/-- What the source asks libclang about one cursor. -/
structure CursorData where
  /-- Result of `clang_getCursorKind`. -/
  kind : CXCursorKind
  /-- Result of `clang_getCursorSpelling`. -/
  spelling : String := ""
  /-- Result of `clang_getCursorType`. -/
  type : CXType := CXType.Spelled ""
  /-- Result of `clang_getCursorUSR`. -/
  usr : String := ""
  /-- Spellings of the tokens `clang_tokenize` returns for `clang_getCursorExtent`. -/
  tokens : List String := []
  /-- Result of `clang_getCursorLinkage(clang_getCursorReferenced(c))`. -/
  referenced_linkage : CXLinkageKind := CXLinkageKind.Invalid
  /-- Successive results of `clang_getCursorSemanticParent`, up to the null cursor. -/
  semantic_parents : List CursorRef := []
  /-- Result of `clang_EvalResult_getAsInt(clang_Cursor_Evaluate(c))`. -/
  eval_as_int : Int := 0
  /-- File name of `clang_getSpellingLocation(clang_getCursorLocation(c))`. -/
  file : String := ""
  /-- Line of `clang_getSpellingLocation(clang_getCursorLocation(c))`. -/
  line : Nat := 0
  /-- Result of `get_fq_method(c)` (helper of `methods.hpp`). -/
  fq_method : String := ""
deriving DecidableEq, Repr

/-- A cursor with the cursors `clang_visitChildren` enumerates below it and the cursors
`clang_Cursor_getArgument(c, 0 .. clang_Cursor_getNumArguments(c) - 1)` returns. -/
inductive Cursor where
  | mk (data : CursorData) (children : List Cursor) (arguments : List Cursor)

def Cursor.data : Cursor → CursorData
  | .mk d _ _ => d

def Cursor.children : Cursor → List Cursor
  | .mk _ ch _ => ch

def Cursor.arguments : Cursor → List Cursor
  | .mk _ _ args => args

def Cursor.kind (c : Cursor) : CXCursorKind := c.data.kind

/-- Helper `get_cursor_spelling` of `util.hpp`: `clang_getCursorSpelling` as a string. -/
def get_cursor_spelling (c : Cursor) : String := c.data.spelling

/-- A visitor callback: the first argument stands for the traversal
`clang_visitChildren(cursor, <this visitor>, client_data)` of the cursor being visited,
for the callbacks that traverse recursively with themselves. -/
abbrev Visitor (σ : Type) :=
  (σ → Option (Bool × σ)) → Cursor → Cursor → σ → Option (CXChildVisitResult × σ)

mutual
/-- One step of `clang_visitChildren`: call the visitor on a child, then stop the whole
traversal (`true`), go on with the next sibling, or traverse the child's children. -/
def visit_node {σ : Type} (v : Visitor σ) (parent : Cursor) : Cursor → σ → Option (Bool × σ)
  | .mk d ch args, s =>
    match v (fun s' => visit_list v (.mk d ch args) ch s') (.mk d ch args) parent s with
    | none => none
    | some (CXChildVisitResult.Break, s1) => some (true, s1)
    | some (CXChildVisitResult.Continue, s1) => some (false, s1)
    | some (CXChildVisitResult.Recurse, s1) => visit_list v (.mk d ch args) ch s1
termination_by structural c => c
/-- The children of one cursor, in order, until a step stops the traversal. -/
def visit_list {σ : Type} (v : Visitor σ) (parent : Cursor) : List Cursor → σ → Option (Bool × σ)
  | [], s => some (false, s)
  | c :: cs, s =>
    match visit_node v parent c s with
    | none => none
    | some (true, s1) => some (true, s1)
    | some (false, s1) => visit_list v parent cs s1
termination_by structural cs => cs
end

/-- The libclang traversal `clang_visitChildren(parent, visitor, client_data)`; the Boolean
tells whether the traversal was stopped by `CXChildVisit_Break`. -/
def clang_visitChildren {σ : Type} (v : Visitor σ) (parent : Cursor) (s : σ) :
    Option (Bool × σ) :=
  visit_list v parent parent.children s

/-! ## Strings and small helpers -/

/-- Source function `trim(str)` with the default `whitespace = " "`. -/
def trim (str : String) : String :=
  let cs := str.data.dropWhile (fun c => c == ' ')
  if cs.isEmpty then "" else String.mk (cs.reverse.dropWhile (fun c => c == ' ')).reverse

/-- One round of `pos = result.find(pat); result.erase(pos, pat.size())`, or `none` when
`find` returns `npos`. -/
def erase_first (pat : List Char) : List Char → Option (List Char)
  | [] => if pat.isEmpty then some [] else none
  | c :: cs =>
    if (c :: cs).take pat.length = pat then some ((c :: cs).drop pat.length)
    else (erase_first pat cs).map (fun r => c :: r)

/-- Loop `while ((pos = result.find(pat)) != npos) result.erase(pos, pat.size())`, at most
`n` rounds. -/
def erase_all_loop (pat : List Char) : Nat → List Char → List Char
  | 0, s => s
  | n + 1, s =>
    match erase_first pat s with
    | none => s
    | some s' => erase_all_loop pat n s'

/-- The same loop run to its end: every round of a non-empty pattern shortens the string,
so `s.length` rounds are enough. -/
def erase_all (pat : List Char) (s : List Char) : List Char :=
  erase_all_loop pat s.length s

/-- Source function `get_object_typename`. -/
def get_object_typename : CXType → String
  | CXType.Pointer pointee => get_object_typename pointee
  | CXType.Spelled spelling =>
    trim (String.mk (erase_all "&".data (erase_all "const ".data spelling.data)))

/-- Source function `get_binary_operator`: `count_left_tokens` stores the token count of
the first child and stops; without a child `left_tokens` is read uninitialised. -/
def get_binary_operator (cursor : Cursor) : Option String :=
  match cursor.children with
  | [] => none
  | first :: _ =>
    let left_tokens := first.data.tokens.length
    if left_tokens < cursor.data.tokens.length then
      some (cursor.data.tokens.getD left_tokens "")
    else some ""

/-- Source function `get_initialization_decl`: the first cursor of kind `VarDecl` among `c`
and its semantic parents, or the null cursor (`none`). -/
def get_initialization_decl (c : Cursor) : Option CursorRef :=
  (⟨c.kind, get_cursor_spelling c⟩ :: c.data.semantic_parents).find?
    (fun r => r.kind == CXCursorKind.VarDecl)

/-- Spelling of a cursor that may be null. -/
def CursorRef.spelling_or_null : Option CursorRef → String
  | none => ""
  | some r => r.spelling

/-- Source function `get_smallest_context`. -/
def get_smallest_context (semantic_context : String) : String :=
  let cs := semantic_context.data
  if cs.length < 3 then semantic_context
  else
    let idx : Option Nat × Option Nat :=
      (List.range (cs.length - 1)).foldl
        (fun (st : Option Nat × Option Nat) i =>
          if cs.getD i ' ' = ':' ∧ cs.getD (i + 1) ' ' = ':' then (st.2, some i) else st)
        (none, none)
    match idx.1 with
    | some second_to_last_index => String.mk (cs.drop (second_to_last_index + 2))
    | none => semantic_context

/-! ## Analysis state -/

inductive ConstraintType where
  | UNCONSTRAINED
  | IFCONDITION
  | SWITCHSTMT
deriving DecidableEq, Repr

/-- One scope of `var_types`. -/
abbrev Scope := StdMap String TypeInfo

/-- Aggregate `FunctionSummary` (`common.hpp`). -/
structure FunctionSummary where
  num_params : Int
  param_to_typesource_kind : StdMap Int TypeSourceKind
  callees : StdSet String
  calling_context : StdMap String (List (List TypeInfo))
  store_to_typeinfo : StdMap String TypeInfo
deriving DecidableEq, Repr

/-- Value-initialised `FunctionSummary`, as created by `fn_summary[name]`. -/
def FunctionSummary.empty : FunctionSummary := ⟨0, [], [], [], []⟩

/-- The fields of `struct ASTContext` the walk reads or writes, followed by the thread-local
counter `ctaw_childno`, the lines written to `cout` and the lines appended to the side
file `/home/ardupilot/variables`. -/
structure ASTContext where
  types_to_frame_field : StdMap String String
  type_to_field_to_unit : StdMap String (StdMap String Int)
  num_units : Int
  constraint : ConstraintType
  in_mav_constraint : Bool
  had_mav_constraint : Bool
  had_taint : Bool
  var_types : List Scope
  fn_summary : StdMap String FunctionSummary
  current_fn : String
  current_usr : String
  current_fn_params : StdSet String
  param_to_number : StdMap String Int
  param_to_typesource_kind : StdMap Int TypeSourceKind
  total_params : Int
  name_to_tu : StdMap String (StdSet Nat)
  had_fn_definition : Bool
  translation_unit_no : Nat
  semantic_context : String
  writes_to_variables_with_known_types : StdSet String
  store_to_typeinfo : StdMap String TypeInfo
  functions_with_intrinsic_variables : StdSet String
  seen_definitions : StdSet String
  prior_var_to_typeinfo : StdMap String TypeInfo
  function_names_to_return_unit : StdMap String TypeInfo
  id_to_unitname : StdMap Int String
  ctaw_childno : Int
  cout : List String
  variables_file : List String
deriving DecidableEq, Repr

/-- Assignment `var_types.back()[name] = ti` on a non-empty vector. -/
def set_in_back (name : String) (ti : TypeInfo) : List Scope → List Scope
  | [] => []
  | [m] => [map_set name ti m]
  | m :: m' :: rest => m :: set_in_back name ti (m' :: rest)

/-- Replacement of `var_types.back()` on a non-empty vector. -/
def replace_back (m_new : Scope) : List Scope → List Scope
  | [] => []
  | [_] => [m_new]
  | m :: m' :: rest => m :: replace_back m_new (m' :: rest)

/-! ## Frame-constraint detection and name canonicalisation -/

/-- Source function `check_mavlink`. -/
def check_mavlink : Visitor ASTContext := fun _ cursor parent ctx =>
  let ctx := { ctx with in_mav_constraint := false }
  if cursor.kind = CXCursorKind.DeclRefExpr ∧ parent.kind = CXCursorKind.MemberRefExpr then
    let the_type := get_object_typename cursor.data.type
    let the_parent_member := parent.data.spelling
    if map_find the_type ctx.types_to_frame_field = some the_parent_member then
      some (CXChildVisitResult.Break,
        { ctx with in_mav_constraint := true, had_mav_constraint := true })
    else some (CXChildVisitResult.Break, ctx)
  else some (CXChildVisitResult.Recurse, ctx)

/-- Source function `pretty_print_memberRefExpr_walker`. -/
def pretty_print_memberRefExpr_walker : Visitor String := fun _ c _ sptr =>
  let cursor_str := c.data.spelling
  if c.kind = CXCursorKind.DeclRefExpr then
    some (CXChildVisitResult.Recurse, cursor_str ++ sptr)
  else if c.kind = CXCursorKind.MemberRefExpr then
    some (CXChildVisitResult.Recurse, "::" ++ cursor_str ++ sptr)
  else some (CXChildVisitResult.Recurse, sptr)

/-- Source function `pretty_print_memberRefExpr`. -/
def pretty_print_memberRefExpr (c : Cursor) : Option String :=
  (clang_visitChildren pretty_print_memberRefExpr_walker c "").map
    (fun r => r.2 ++ ("::" ++ c.data.spelling))

/-- Source function `pretty_print_store_walker`. -/
def pretty_print_store_walker : Visitor String := fun _ c _ sptr =>
  if c.kind = CXCursorKind.MemberRefExpr then
    (pretty_print_memberRefExpr c).map (fun r => (CXChildVisitResult.Break, r))
  else if c.kind = CXCursorKind.ArraySubscriptExpr then
    some (CXChildVisitResult.Recurse, sptr)
  else some (CXChildVisitResult.Break, c.data.spelling)

/-- Source function `pretty_print_store`. -/
def pretty_print_store (c : Cursor) : Option String :=
  (clang_visitChildren pretty_print_store_walker c "").map (fun r => r.2)

/-- Source function `contains_local_decl_ref_expr`. -/
def contains_local_decl_ref_expr (cursor : Cursor) : Option Bool :=
  (clang_visitChildren
    (fun _ c _ (con : Bool) =>
      if c.kind = CXCursorKind.DeclRefExpr ∧
          c.data.referenced_linkage = CXLinkageKind.NoLinkage then
        some (CXChildVisitResult.Break, true)
      else some (CXChildVisitResult.Recurse, con))
    cursor false).map (fun r => r.2)

/-- Source function `get_first_decl`. -/
def get_first_decl (c : Cursor) : Option (Option String) :=
  (clang_visitChildren
    (fun _ cursor _ (op : Option String) =>
      if cursor.kind = CXCursorKind.DeclRefExpr then
        some (CXChildVisitResult.Break, some (get_cursor_spelling cursor))
      else some (CXChildVisitResult.Recurse, op))
    c none).map (fun r => r.2)

/-- Source function `get_scope_resolution_operations`. -/
def get_scope_resolution_operations (cursor : Cursor) : Option String :=
  (clang_visitChildren
    (fun _ c _ (str : String) =>
      if c.kind = CXCursorKind.DeclRefExpr then
        if str.isEmpty then some (CXChildVisitResult.Break, get_cursor_spelling c)
        else some (CXChildVisitResult.Break, get_cursor_spelling c ++ "::" ++ str)
      else if c.kind = CXCursorKind.MemberRefExpr then
        let spelling := get_cursor_spelling c
        if str.isEmpty then some (CXChildVisitResult.Recurse, spelling)
        else some (CXChildVisitResult.Recurse, spelling ++ "::" ++ str)
      else some (CXChildVisitResult.Recurse, str))
    cursor "").map (fun r => r.2)

/-- Source function `is_global_access`: `result` is returned uninitialised (`none`) when no
`DeclRefExpr` is found. -/
def is_global_access (cursor : Cursor) : Option Bool :=
  match clang_visitChildren
    (fun _ c _ (b : Option Bool) =>
      if c.kind = CXCursorKind.DeclRefExpr then
        if c.data.referenced_linkage ≠ CXLinkageKind.NoLinkage then
          some (CXChildVisitResult.Break, some true)
        else some (CXChildVisitResult.Break, some false)
      else some (CXChildVisitResult.Recurse, b))
    cursor none with
  | some (_, result) => result
  | none => none

/-- Source function `get_member_access_str`. -/
def get_member_access_str (ctx : ASTContext) (cursor : Cursor) : Option String :=
  match get_scope_resolution_operations cursor with
  | none => none
  | some scope_ops =>
    if scope_ops.isEmpty then
      some (ctx.semantic_context ++ "::" ++ get_cursor_spelling cursor)
    else
      match is_global_access cursor with
      | none => none
      | some true => some (scope_ops ++ "::" ++ get_cursor_spelling cursor)
      | some false =>
        some (ctx.semantic_context ++ "::" ++ scope_ops ++ "::" ++ get_cursor_spelling cursor)

/-! ## Declarations -/

/-- Source function `add_inner_vars`; the result is the new `tinfo`. -/
def add_inner_vars (hdr : Headers) (t name : String)
    (type_to_field_to_unit : StdMap String (StdMap String Int)) (source : TypeSource)
    (tinfo : Scope) : Scope :=
  match map_find t type_to_field_to_unit with
  | none => tinfo
  | some fields =>
    fields.foldl
      (fun (tinfo : Scope) pair =>
        let varname := name ++ "::" ++ pair.1
        let ti := map_at_default TypeInfo.empty varname tinfo
        let ti := { ti with units := set_insert pair.2 ti.units }
        let ti := { ti with frames := insert_range hdr.MAV_FRAME_GLOBAL hdr.MAV_FRAME_NONE ti.frames }
        let ti := { ti with source := ti.source ++ [source] }
        map_set varname ti tinfo)
      tinfo

/-- Source function `add_unknown_param`. -/
def add_unknown_param (hdr : Headers) (name : String) (ctx : ASTContext) (source : TypeSource) :
    ASTContext :=
  let ti : TypeInfo :=
    { frames := insert_range 0 hdr.MAV_FRAME_NONE []
      units := insert_range 0 ctx.num_units []
      source := [source]
      dimension := none }
  if !ctx.var_types.isEmpty then { ctx with var_types := set_in_back name ti ctx.var_types }
  else ctx

/-- The TypeInfo both typers build for an integer literal. -/
def literal_typeinfo (c : Cursor) : TypeInfo :=
  { frames := []
    units := []
    source := []
    dimension := some
      { coefficients := [0, 0, 0, 0, 0, 0, 0]
        scalar_numerator := c.data.eval_as_int
        scalar_denominator := 1 } }

/-- The TypeInfo both typers build for a product whose operands both have a dimension. -/
def product_typeinfo (hdr : Headers) (lhs_p rhs_p : Option TypeInfo) : Option TypeInfo :=
  match lhs_p, rhs_p with
  | some lhs_ti, some rhs_ti =>
    match lhs_ti.dimension, rhs_ti.dimension with
    | some dl, some dr =>
      some
        { frames := set_insert_all (set_insert_all [] lhs_ti.frames) rhs_ti.frames
          units := set_insert_all (set_insert_all [] lhs_ti.units) rhs_ti.units
          source := []
          dimension := some (hdr.dim_mul dl dr) }
    | _, _ => none
  | _, _ => none

/-- Source function `type_check_rhs`; the state is the pair `(p->first, *p->second)`. -/
def type_check_rhs (hdr : Headers) : Visitor (Option TypeInfo × ASTContext) :=
  fun visit_c c _ p =>
  if p.2.ctaw_childno = 0 then
    some (CXChildVisitResult.Continue, (p.1, { p.2 with ctaw_childno := p.2.ctaw_childno + 1 }))
  else if c.kind = CXCursorKind.DeclRefExpr then
    let varname := get_cursor_spelling c
    let is_param := set_contains varname p.2.current_fn_params
    if is_param then
      let ti : TypeInfo :=
        { frames := insert_range hdr.MAV_FRAME_GLOBAL hdr.MAV_FRAME_NONE []
          units := insert_range 0 p.2.num_units []
          source :=
            [{ kind := TypeSourceKind.SOURCE_PARAM
               param_no := map_at_default 0 varname p.2.param_to_number
               note := "" }]
          dimension := none }
      let ctx :=
        match map_find varname p.2.param_to_number with
        | some _ => p.2
        | none => { p.2 with param_to_number := map_set varname 0 p.2.param_to_number }
      some (CXChildVisitResult.Break, (some ti, ctx))
    else if !varname.isEmpty ∧ !p.2.var_types.isEmpty then
      match get_var_typeinfo varname p.2.var_types with
      | some ti => some (CXChildVisitResult.Break, (some ti, p.2))
      | none => some (CXChildVisitResult.Recurse, p)
    else some (CXChildVisitResult.Recurse, p)
  else if c.kind = CXCursorKind.CallExpr then
    match map_find c.data.fq_method p.2.function_names_to_return_unit with
    | none => some (CXChildVisitResult.Recurse, p)
    | some ti => some (CXChildVisitResult.Break, (some ti, p.2))
  else if c.kind = CXCursorKind.BinaryOperator then
    match get_binary_operator c with
    | none => none
    | some spelling =>
      if spelling = "*" then
        match visit_c (none, p.2) with
        | none => none
        | some (_, (lhs_p, ctx1)) =>
          let old_ctaw := ctx1.ctaw_childno
          match visit_c (none, { ctx1 with ctaw_childno := 0 }) with
          | none => none
          | some (_, (rhs_p, ctx2)) =>
            let ctx3 := { ctx2 with ctaw_childno := old_ctaw }
            match product_typeinfo hdr lhs_p rhs_p with
            | some ti => some (CXChildVisitResult.Break, (some ti, ctx3))
            | none => some (CXChildVisitResult.Recurse, (p.1, ctx3))
      else some (CXChildVisitResult.Recurse, p)
  else if c.kind = CXCursorKind.IntegerLiteral then
    some (CXChildVisitResult.Break, (some (literal_typeinfo c), p.2))
  else some (CXChildVisitResult.Recurse, p)

/-- Tail of `check_tainted_decl_walker`, from `if (!varname.empty())` on. -/
def check_tainted_decl_walker_bind (c : Cursor) (varname : String) (ti : Option TypeInfo)
    (ctx : ASTContext) : CXChildVisitResult × ASTContext :=
  let ti := if !varname.isEmpty then get_var_typeinfo varname ctx.var_types else ti
  match ti with
  | some t =>
    if !ctx.var_types.isEmpty then
      let lhs := get_initialization_decl c
      let new_varname := CursorRef.spelling_or_null lhs
      (CXChildVisitResult.Break, { ctx with var_types := set_in_back new_varname t ctx.var_types })
    else (CXChildVisitResult.Recurse, ctx)
  | none => (CXChildVisitResult.Recurse, ctx)

/-- Source function `check_tainted_decl_walker`. -/
def check_tainted_decl_walker (hdr : Headers) : Visitor ASTContext := fun _ c _ ctx =>
  if c.kind = CXCursorKind.DeclRefExpr then
    some (check_tainted_decl_walker_bind c (get_cursor_spelling c) none ctx)
  else if c.kind = CXCursorKind.MemberRefExpr then
    match pretty_print_memberRefExpr c with
    | none => none
    | some varname => some (check_tainted_decl_walker_bind c varname none ctx)
  else if c.kind = CXCursorKind.CallExpr then
    match map_find c.data.fq_method ctx.function_names_to_return_unit with
    | none => some (CXChildVisitResult.Recurse, ctx)
    | some ti => some (check_tainted_decl_walker_bind c "" (some ti) ctx)
  else if c.kind = CXCursorKind.BinaryOperator then
    match get_binary_operator c with
    | none => none
    | some spelling =>
      if spelling = "*" then
        let old_ctaw := ctx.ctaw_childno
        match clang_visitChildren (type_check_rhs hdr) c (none, { ctx with ctaw_childno := 1 }) with
        | none => none
        | some (_, (lhs_p, ctx1)) =>
          match clang_visitChildren (type_check_rhs hdr) c
              (none, { ctx1 with ctaw_childno := 0 }) with
          | none => none
          | some (_, (rhs_p, ctx2)) =>
            let ctx3 := { ctx2 with ctaw_childno := old_ctaw }
            some (check_tainted_decl_walker_bind c "" (product_typeinfo hdr lhs_p rhs_p) ctx3)
      else some (check_tainted_decl_walker_bind c "" none ctx)
  else if c.kind = CXCursorKind.IntegerLiteral then
    some (check_tainted_decl_walker_bind c "" (some (literal_typeinfo c)) ctx)
  else some (CXChildVisitResult.Recurse, ctx)

/-- Source function `check_tainted_decl`. -/
def check_tainted_decl (hdr : Headers) (cursor : Cursor) (ctx : ASTContext) : Option ASTContext :=
  let cursor_typename := get_object_typename cursor.data.type
  let is_known_type := (map_find cursor_typename ctx.types_to_frame_field).isSome
  if is_known_type ∧ !ctx.var_types.isEmpty then
    let source : TypeSource := ⟨TypeSourceKind.SOURCE_INTRINSIC, 0, ""⟩
    match ctx.var_types.getLast? with
    | none => none
    | some back =>
      some { ctx with
        var_types :=
          replace_back
            (add_inner_vars hdr cursor_typename (get_cursor_spelling cursor)
              ctx.type_to_field_to_unit source back)
            ctx.var_types }
  else
    (clang_visitChildren (check_tainted_decl_walker hdr) cursor ctx).map (fun r => r.2)

/-! ## Stores -/

/-- Source function `check_tainted_assgn_walker`; the state is `(p->first, *p->second)`. -/
def check_tainted_assgn_walker : Visitor (Option TypeInfo × ASTContext) := fun _ c _ p =>
  if p.2.ctaw_childno = 0 then
    some (CXChildVisitResult.Continue, (p.1, { p.2 with ctaw_childno := p.2.ctaw_childno + 1 }))
  else
    let lookup (varname : String) (p : Option TypeInfo × ASTContext) :
        CXChildVisitResult × (Option TypeInfo × ASTContext) :=
      if varname = "" then (CXChildVisitResult.Recurse, p)
      else
        let first := get_var_typeinfo varname p.2.var_types
        let first :=
          match first with
          | some ti => some ti
          | none => map_find varname p.2.prior_var_to_typeinfo
        if first.isSome then (CXChildVisitResult.Break, (first, p.2))
        else (CXChildVisitResult.Recurse, (first, p.2))
    if c.kind = CXCursorKind.MemberRefExpr then
      match get_member_access_str p.2 c with
      | none => none
      | some varname => some (lookup varname p)
    else if c.kind = CXCursorKind.DeclRefExpr then
      some (lookup (get_cursor_spelling c) p)
    else if c.kind = CXCursorKind.CallExpr then
      match map_find c.data.fq_method p.2.function_names_to_return_unit with
      | none => some (CXChildVisitResult.Recurse, p)
      | some ti => some (lookup "" (some ti, p.2))
    else some (lookup "" p)

/-- First part of `check_tainted_store`: the right-hand side is typed by `type_check_rhs`
and, when that yields nothing, by `check_tainted_assgn_walker`. -/
def store_rhs_type (hdr : Headers) (cursor : Cursor) (ctx : ASTContext) :
    Option (Option TypeInfo × ASTContext) :=
  match clang_visitChildren (type_check_rhs hdr) cursor (none, { ctx with ctaw_childno := 0 }) with
  | none => none
  | some (_, (some ti, ctx1)) => some (some ti, ctx1)
  | some (_, (none, ctx1)) =>
    (clang_visitChildren check_tainted_assgn_walker cursor
      (none, { ctx1 with ctaw_childno := 0 })).map (fun r => r.2)

/-- The callback `check_tainted_store` runs on the first child of the assignment; the
state is `(data.first, *data.second)`. -/
def store_lhs_walker : Visitor (Option String × ASTContext) := fun _ c _ data =>
  if c.kind = CXCursorKind.MemberRefExpr ∨ c.kind = CXCursorKind.CXXThisExpr then
    match contains_local_decl_ref_expr c with
    | none => none
    | some true => some (CXChildVisitResult.Break, data)
    | some false =>
      match get_member_access_str data.2 c with
      | none => none
      | some access =>
        some (CXChildVisitResult.Break,
          (some access, { data.2 with variables_file := data.2.variables_file ++ [access] }))
  else some (CXChildVisitResult.Break, data)

/-- Second part of `check_tainted_store`: the canonical name of the left-hand side
(`data.first` after `if (!data.first) data.first = varname`). -/
def store_lhs_name (cursor : Cursor) (ctx : ASTContext) : Option (String × ASTContext) :=
  match pretty_print_store cursor with
  | none => none
  | some varname =>
    match clang_visitChildren store_lhs_walker cursor (none, ctx) with
    | none => none
    | some (_, (some access, ctx1)) => some (access, ctx1)
    | some (_, (none, ctx1)) => some (varname, ctx1)

/-- Loop `int t = 0; for (const int type_id : units) t = type_id;`. -/
def last_unit (units : StdSet Int) : Int :=
  units.foldl (fun _ type_id => type_id) 0

/-- The diagnostic line of `check_tainted_store`. -/
def incorrect_store_line (name filename : String) (line : Nat) (rhs_type_name lhs_type_name : String) :
    String :=
  "Incorrect store to variable " ++ name ++ " in " ++ filename ++ " line " ++ toString line ++
    ". Got type " ++ rhs_type_name ++ ", expected type " ++ lhs_type_name ++ "."

/-- Source function `check_tainted_store`. -/
def check_tainted_store (hdr : Headers) (cursor : Cursor) (ctx : ASTContext) : Option ASTContext :=
  match store_rhs_type hdr cursor ctx with
  | none => none
  | some (none, ctx1) => some ctx1
  | some (some rhs, ctx1) =>
    if ctx1.var_types.isEmpty then some ctx1
    else
      match store_lhs_name cursor ctx1 with
      | none => none
      | some (name, ctx2) =>
        if set_contains name ctx2.writes_to_variables_with_known_types then
          match map_find name ctx2.prior_var_to_typeinfo with
          | none => none
          | some lhs_type_info =>
            let printed : Option ASTContext :=
              if hdr.typeinfo_ne rhs lhs_type_info then
                match map_find (last_unit rhs.units) ctx2.id_to_unitname,
                    map_find (last_unit lhs_type_info.units) ctx2.id_to_unitname with
                | some rhs_type_name, some lhs_type_name =>
                  some { ctx2 with
                    cout := ctx2.cout ++
                      [incorrect_store_line name cursor.data.file cursor.data.line
                        rhs_type_name lhs_type_name] }
                | _, _ => none
              else some ctx2
            match printed with
            | none => none
            | some ctx3 =>
              some { ctx3 with
                functions_with_intrinsic_variables :=
                  set_insert ctx3.current_fn ctx3.functions_with_intrinsic_variables
                store_to_typeinfo :=
                  map_set name
                    (merge_typeinfo (map_at_default TypeInfo.empty name ctx3.store_to_typeinfo) rhs)
                    ctx3.store_to_typeinfo
                var_types := set_in_back name rhs ctx3.var_types }
        else some { ctx2 with var_types := set_in_back name rhs ctx2.var_types }

/-! ## Call arguments -/

/-- The universal type `type_cursor_walker` adds to `p->first`. -/
def add_universal (hdr : Headers) (num_units : Int) (ti : TypeInfo) : TypeInfo :=
  { ti with
    frames := insert_range 0 hdr.MAV_FRAME_NONE ti.frames
    units := insert_range 0 num_units ti.units
    source := ti.source ++ [⟨TypeSourceKind.SOURCE_UNKNOWN, 0, ""⟩] }

/-- Source function `type_cursor_walker`; the state is `p->first`, the context is only
read. -/
def type_cursor_walker (hdr : Headers) (ctx : ASTContext) : Visitor TypeInfo := fun _ cursor _ first =>
  if cursor.kind = CXCursorKind.DeclRefExpr then
    match get_var_typeinfo (get_cursor_spelling cursor) ctx.var_types with
    | some ti => some (CXChildVisitResult.Break, ti)
    | none => some (CXChildVisitResult.Break, add_universal hdr ctx.num_units first)
  else if cursor.kind = CXCursorKind.MemberRefExpr then
    match pretty_print_memberRefExpr cursor with
    | none => none
    | some access =>
      match get_var_typeinfo access ctx.var_types with
      | some ti => some (CXChildVisitResult.Break, ti)
      | none =>
        match get_first_decl cursor with
        | none => none
        | some (some _) => some (CXChildVisitResult.Recurse, first)
        | some none => some (CXChildVisitResult.Recurse, add_universal hdr ctx.num_units first)
  else some (CXChildVisitResult.Recurse, first)

/-- Source function `type_cursor`. -/
def type_cursor (hdr : Headers) (c : Cursor) (ctx : ASTContext) : Option TypeInfo :=
  (clang_visitChildren (type_cursor_walker hdr ctx) c TypeInfo.empty).map (fun r => r.2)

/-- Loop of the `CallExpr` case: `call_info.push_back(type_cursor(arg, ctx))` for every
argument. -/
def type_arguments (hdr : Headers) (ctx : ASTContext) : List Cursor → Option (List TypeInfo)
  | [] => some []
  | arg :: rest =>
    match type_cursor hdr arg ctx with
    | none => none
    | some t => (type_arguments hdr ctx rest).map (fun ts => t :: ts)

/-! ## The function walker -/

/-- Call `unify_scopes(var_types[var_types.size() - 2], var_types.back())`; the index is
out of range when fewer than two scopes are on the stack. -/
def unify_back_into_parent : List Scope → Option (List Scope)
  | [] => none
  | [_] => none
  | [old, latest] => some [unify_scopes old latest, latest]
  | m :: m' :: m'' :: rest => (unify_back_into_parent (m' :: m'' :: rest)).map (fun r => m :: r)

/-- Call `unify_scopes(var_types[var_types.size() - 1], var_types.back())`: both arguments
are the same map, every entry is merged with the value it holds at its turn. -/
def unify_back_into_itself (var_types : List Scope) : Option (List Scope) :=
  match var_types.getLast? with
  | none => none
  | some back => some (replace_back (unify_scopes back back) var_types)

/-- Member function `var_types.pop_back()`. -/
def pop_back (var_types : List Scope) : Option (List Scope) :=
  if var_types.isEmpty then none else some var_types.dropLast

/-- Test `is_mav_type` of the `VarDecl` and `ParmDecl` cases. -/
def is_mav_type (ctx : ASTContext) (t_type : String) : Bool :=
  (map_find t_type ctx.types_to_frame_field).isSome ||
    (map_find t_type ctx.type_to_field_to_unit).isSome

/-- The line the walker prints for a switch on a frame field. -/
def frame_switch_line : String := "Found a MAVLink frame switch!"

/-- In `function_ast_walker`, the branch `ctx->constraint == IFCONDITION`: the cursor is
taken for the predicate of the if statement just entered. -/
def walk_if_condition (cursor : Cursor) (ctx : ASTContext) :
    Option (CXChildVisitResult × ASTContext) :=
  let ctx := { ctx with constraint := ConstraintType.UNCONSTRAINED }
  if cursor.kind = CXCursorKind.BinaryOperator then
    match get_binary_operator cursor with
    | none => none
    | some op =>
      if op = "==" then
        (clang_visitChildren check_mavlink cursor ctx).map
          (fun r => (CXChildVisitResult.Continue, r.2))
      else some (CXChildVisitResult.Continue, ctx)
  else some (CXChildVisitResult.Continue, ctx)

/-- In `function_ast_walker`, the branch `ctx->constraint == SWITCHSTMT`: the cursor is
taken for the control expression of the switch statement just entered. -/
def walk_switch_selector (cursor : Cursor) (ctx : ASTContext) :
    Option (CXChildVisitResult × ASTContext) :=
  let ctx := { ctx with constraint := ConstraintType.UNCONSTRAINED }
  (clang_visitChildren check_mavlink cursor ctx).map (fun r => (CXChildVisitResult.Break, r.2))

/-- The end of the `IfStmt`, `ForStmt` and `WhileStmt` branches: unify the scope of the
statement into the one below it and pop it. -/
def close_scope (ctx : ASTContext) : Option (CXChildVisitResult × ASTContext) :=
  match unify_back_into_parent ctx.var_types with
  | none => none
  | some unified =>
    match pop_back unified with
    | none => none
    | some popped => some (CXChildVisitResult.Continue, { ctx with var_types := popped })

/-- In `function_ast_walker`, the branch `kind == CXCursor_IfStmt`. -/
def walk_if_stmt (visit_cursor : ASTContext → Option (Bool × ASTContext)) (ctx : ASTContext) :
    Option (CXChildVisitResult × ASTContext) :=
  let ctx := { ctx with constraint := ConstraintType.IFCONDITION }
  let ctx := { ctx with var_types := ctx.var_types ++ [[]] }
  match visit_cursor ctx with
  | none => none
  | some (_, ctx) => close_scope ctx

/-- In `function_ast_walker`, the branch for `CXCursor_ForStmt` and `CXCursor_WhileStmt`. -/
def walk_loop_stmt (visit_cursor : ASTContext → Option (Bool × ASTContext)) (ctx : ASTContext) :
    Option (CXChildVisitResult × ASTContext) :=
  let ctx := { ctx with var_types := ctx.var_types ++ [[]] }
  match visit_cursor ctx with
  | none => none
  | some (_, ctx) => close_scope ctx

/-- In `function_ast_walker`, the branch `kind == CXCursor_BreakStmt`. -/
def walk_break_stmt (ctx : ASTContext) : Option (CXChildVisitResult × ASTContext) :=
  match unify_back_into_parent ctx.var_types with
  | none => none
  | some unified => some (CXChildVisitResult.Recurse, { ctx with var_types := unified })

/-- In the `SwitchStmt` branch, the line printed after the first traversal. -/
def print_frame_switch (ctx : ASTContext) : ASTContext :=
  if ctx.in_mav_constraint then { ctx with cout := ctx.cout ++ [frame_switch_line] } else ctx

/-- In the `SwitchStmt` branch, the end: the scope is unified with itself and popped. -/
def close_switch_scope (ctx : ASTContext) : Option (CXChildVisitResult × ASTContext) :=
  match unify_back_into_itself ctx.var_types with
  | none => none
  | some unified =>
    match pop_back unified with
    | none => none
    | some popped => some (CXChildVisitResult.Continue, { ctx with var_types := popped })

/-- In `function_ast_walker`, the branch `kind == CXCursor_SwitchStmt`. -/
def walk_switch_stmt (visit_cursor : ASTContext → Option (Bool × ASTContext)) (ctx : ASTContext) :
    Option (CXChildVisitResult × ASTContext) :=
  match visit_cursor { ctx with constraint := ConstraintType.SWITCHSTMT } with
  | none => none
  | some (_, ctx) =>
    let ctx := print_frame_switch ctx
    match visit_cursor { ctx with var_types := ctx.var_types ++ [[]] } with
    | none => none
    | some (_, ctx) => close_switch_scope ctx

/-- In the `VarDecl` branch, the statements after `check_tainted_decl`. -/
def mark_var_decl (cursor : Cursor) (ctx : ASTContext) : ASTContext :=
  let t_type := get_object_typename cursor.data.type
  if is_mav_type ctx t_type then
    let ctx :=
      { ctx with
        functions_with_intrinsic_variables :=
          set_insert ctx.current_fn ctx.functions_with_intrinsic_variables }
    if (map_find t_type ctx.types_to_frame_field).isSome then { ctx with had_taint := true }
    else ctx
  else ctx

/-- In `function_ast_walker`, the branch `kind == CXCursor_VarDecl`. -/
def walk_var_decl (hdr : Headers) (cursor : Cursor) (ctx : ASTContext) :
    Option (CXChildVisitResult × ASTContext) :=
  match check_tainted_decl hdr cursor ctx with
  | none => none
  | some ctx => some (CXChildVisitResult.Recurse, mark_var_decl cursor ctx)

/-- In `function_ast_walker`, the branch `kind == CXCursor_BinaryOperator`. -/
def walk_binary_operator (hdr : Headers) (cursor : Cursor) (ctx : ASTContext) :
    Option (CXChildVisitResult × ASTContext) :=
  match get_binary_operator cursor with
  | none => none
  | some op =>
    if op = "=" then
      let ctx :=
        if ctx.current_fn = "InitialiseVariables" then
          { ctx with cout := ctx.cout ++ ["checking taint in InitialiseVariables"] }
        else ctx
      (check_tainted_store hdr cursor ctx).map (fun c => (CXChildVisitResult.Recurse, c))
    else some (CXChildVisitResult.Recurse, ctx)

/-- In the `CallExpr` branch, the update of the summary of the current function. -/
def record_call (spelling : String) (call_info : List TypeInfo) (ctx : ASTContext) : ASTContext :=
  let this_fn := ctx.current_fn
  let summary := map_at_default FunctionSummary.empty this_fn ctx.fn_summary
  let summary := { summary with callees := set_insert spelling summary.callees }
  let summary :=
    { summary with
      calling_context :=
        map_set spelling (map_at_default [] spelling summary.calling_context ++ [call_info])
          summary.calling_context }
  { ctx with fn_summary := map_set this_fn summary ctx.fn_summary }

/-- In `function_ast_walker`, the branch `kind == CXCursor_CallExpr`. -/
def walk_call_expr (hdr : Headers) (cursor : Cursor) (ctx : ASTContext) :
    Option (CXChildVisitResult × ASTContext) :=
  let spelling := get_cursor_spelling cursor
  if spelling = "operator=" then
    (check_tainted_store hdr cursor ctx).map (fun c => (CXChildVisitResult.Recurse, c))
  else if !spelling.isEmpty then
    match type_arguments hdr ctx cursor.arguments with
    | none => none
    | some call_info => some (CXChildVisitResult.Recurse, record_call spelling call_info ctx)
  else some (CXChildVisitResult.Recurse, ctx)

/-- In the `ParmDecl` branch, the case of a message type. -/
def add_intrinsic_param (hdr : Headers) (t_type param_name : String) (ctx : ASTContext) :
    Option ASTContext :=
  let source : TypeSource := ⟨TypeSourceKind.SOURCE_INTRINSIC, ctx.total_params, ""⟩
  match ctx.var_types.getLast? with
  | none => none
  | some back =>
    some
      { ctx with
        var_types :=
          replace_back
            (add_inner_vars hdr t_type param_name ctx.type_to_field_to_unit source back)
            ctx.var_types
        param_to_typesource_kind :=
          map_set ctx.total_params TypeSourceKind.SOURCE_INTRINSIC ctx.param_to_typesource_kind
        functions_with_intrinsic_variables :=
          set_insert ctx.current_fn ctx.functions_with_intrinsic_variables }

/-- In the `ParmDecl` branch, the case of any other type. -/
def add_plain_param (hdr : Headers) (param_name : String) (ctx : ASTContext) : ASTContext :=
  let ctx :=
    { ctx with
      param_to_typesource_kind :=
        map_set ctx.total_params TypeSourceKind.SOURCE_UNKNOWN ctx.param_to_typesource_kind
      current_fn_params := set_insert param_name ctx.current_fn_params }
  let source : TypeSource := ⟨TypeSourceKind.SOURCE_PARAM, ctx.total_params, ""⟩
  add_unknown_param hdr param_name ctx source

/-- In `function_ast_walker`, the branch `kind == CXCursor_ParmDecl`. -/
def walk_parm_decl (hdr : Headers) (cursor : Cursor) (ctx : ASTContext) :
    Option (CXChildVisitResult × ASTContext) :=
  let t_type := get_object_typename cursor.data.type
  let param_name := get_cursor_spelling cursor
  let ctx := { ctx with param_to_number := map_set param_name ctx.total_params ctx.param_to_number }
  let declared : Option ASTContext :=
    if is_mav_type ctx t_type then add_intrinsic_param hdr t_type param_name ctx
    else some (add_plain_param hdr param_name ctx)
  match declared with
  | none => none
  | some ctx => some (CXChildVisitResult.Recurse, { ctx with total_params := ctx.total_params + 1 })

/-- In `function_ast_walker`, the branch `kind == CXCursor_CompoundStmt`. -/
def walk_compound_stmt (ctx : ASTContext) : ASTContext :=
  if !ctx.had_fn_definition then
    let ctx :=
      if !set_contains ctx.current_usr ctx.seen_definitions then
        { ctx with seen_definitions := set_insert ctx.current_usr ctx.seen_definitions }
      else { ctx with had_fn_definition := true }
    { ctx with had_fn_definition := !ctx.had_fn_definition }
  else ctx

/-- In `function_ast_walker`, the dispatch on the cursor kind, reached when `constraint` is
neither `IFCONDITION` nor `SWITCHSTMT`. -/
def walk_statement (hdr : Headers) (visit_cursor : ASTContext → Option (Bool × ASTContext))
    (cursor : Cursor) (ctx : ASTContext) : Option (CXChildVisitResult × ASTContext) :=
  if cursor.kind = CXCursorKind.IfStmt then walk_if_stmt visit_cursor ctx
  else if cursor.kind = CXCursorKind.ForStmt ∨ cursor.kind = CXCursorKind.WhileStmt then
    walk_loop_stmt visit_cursor ctx
  else if cursor.kind = CXCursorKind.BreakStmt then walk_break_stmt ctx
  else if cursor.kind = CXCursorKind.SwitchStmt then walk_switch_stmt visit_cursor ctx
  else if cursor.kind = CXCursorKind.VarDecl then walk_var_decl hdr cursor ctx
  else if cursor.kind = CXCursorKind.BinaryOperator then walk_binary_operator hdr cursor ctx
  else if cursor.kind = CXCursorKind.CallExpr then walk_call_expr hdr cursor ctx
  else if cursor.kind = CXCursorKind.ParmDecl then walk_parm_decl hdr cursor ctx
  else if cursor.kind = CXCursorKind.CompoundStmt then
    some (CXChildVisitResult.Recurse, walk_compound_stmt ctx)
  else some (CXChildVisitResult.Recurse, ctx)

/-- Source function `function_ast_walker`; every branch is one of the functions above. -/
def function_ast_walker (hdr : Headers) : Visitor ASTContext := fun visit_cursor cursor _ ctx =>
  if ctx.constraint = ConstraintType.IFCONDITION then walk_if_condition cursor ctx
  else if ctx.constraint = ConstraintType.SWITCHSTMT then walk_switch_selector cursor ctx
  else walk_statement hdr visit_cursor cursor ctx

/-- The line `ast_walker` prints for a function whose frame is not constrained. -/
def bug_line (fn : String) : String :=
  "BUG: unconstrained MAV frame used in: " ++ fn

/-- In `ast_walker`, the statements before the traversal of the function. -/
def ast_walker_enter (cursor : Cursor) (ctx : ASTContext) : ASTContext :=
  let ctx :=
    { ctx with
      had_mav_constraint := false
      had_taint := false
      current_fn := get_cursor_spelling cursor
      current_usr := cursor.data.usr }
  let ctx := { ctx with var_types := ctx.var_types ++ [[]], had_fn_definition := false }
  let ctx :=
    if ctx.current_fn = "InitialiseVariables" then
      { ctx with cout := ctx.cout ++ ["working in InitialiseVariables"] }
    else ctx
  if cursor.kind = CXCursorKind.CXXMethod then
    let semantic_spelling := CursorRef.spelling_or_null cursor.data.semantic_parents.head?
    if ctx.semantic_context.isEmpty then { ctx with semantic_context := semantic_spelling }
    else { ctx with semantic_context := ctx.semantic_context ++ "::" ++ semantic_spelling }
  else ctx

/-- In `ast_walker`, the statements after the traversal of the function; `old_ctx_len` is
the length of `semantic_context` on entry. -/
def ast_walker_exit (cursor : Cursor) (old_ctx_len : Nat) (ctx : ASTContext) :
    Option ASTContext :=
  let ctx :=
    if ctx.had_taint ∧ ctx.had_fn_definition ∧ !ctx.had_mav_constraint then
      { ctx with cout := ctx.cout ++ [bug_line cursor.data.spelling] }
    else ctx
  let ctx :=
    if ctx.had_fn_definition then
      let name := get_cursor_spelling cursor
      let summary := map_at_default FunctionSummary.empty name ctx.fn_summary
      let swapped_kinds := summary.param_to_typesource_kind
      let swapped_stores := summary.store_to_typeinfo
      let summary :=
        { summary with
          num_params := ctx.total_params
          param_to_typesource_kind := ctx.param_to_typesource_kind
          store_to_typeinfo := ctx.store_to_typeinfo }
      { ctx with
        fn_summary := map_set name summary ctx.fn_summary
        param_to_typesource_kind := swapped_kinds
        name_to_tu :=
          map_set name (set_insert ctx.translation_unit_no (map_at_default [] name ctx.name_to_tu))
            ctx.name_to_tu
        store_to_typeinfo := swapped_stores }
    else ctx
  match pop_back ctx.var_types with
  | none => none
  | some popped =>
    some { ctx with
      var_types := popped
      current_fn_params := []
      param_to_number := []
      param_to_typesource_kind := []
      total_params := 0
      semantic_context :=
        if cursor.kind = CXCursorKind.CXXMethod then
          String.mk (ctx.semantic_context.data.take old_ctx_len)
        else ctx.semantic_context
      store_to_typeinfo := [] }

/-- Source function `ast_walker`. -/
def ast_walker (hdr : Headers) : Visitor ASTContext := fun _ cursor _ ctx =>
  if cursor.kind = CXCursorKind.FunctionDecl ∨ cursor.kind = CXCursorKind.CXXMethod then
    let usr := cursor.data.usr
    if set_contains usr ctx.seen_definitions then some (CXChildVisitResult.Continue, ctx)
    else
      let old_ctx_len := ctx.semantic_context.length
      match clang_visitChildren (function_ast_walker hdr) cursor (ast_walker_enter cursor ctx) with
      | none => none
      | some (_, walked) =>
        (ast_walker_exit cursor old_ctx_len walked).map (fun c => (CXChildVisitResult.Continue, c))
  else some (CXChildVisitResult.Recurse, ctx)

/-! ## The worker loop -/

/-- Loop `for (auto i = thread_no; i < num_cmds; i += stride)` of `do_work`; the counter is
an `unsigned` (32 bits), so `i += stride` is taken modulo `2 ^ 32`. The result is the list
of the values of `i` for which the body runs, in order, or `none` when the loop is still
running after `fuel` rounds. -/
def do_work_loop (num_cmds stride : Nat) : Nat → Nat → Option (List Nat)
  | 0, i => if i < num_cmds then none else some []
  | fuel + 1, i =>
    if i < num_cmds then
      (do_work_loop num_cmds stride fuel ((i + stride) % 2 ^ 32)).map (fun l => i :: l)
    else some []

/-- Source function `do_work`, reduced to the command indices it processes when started
with `thread_no` and `stride` on `num_cmds` compile commands. -/
def do_work_indices (fuel num_cmds thread_no stride : Nat) : Option (List Nat) :=
  do_work_loop num_cmds stride fuel thread_no

/-! ## Prior types of variables (`vars_to_typeinfo`) -/

/-- What `vars_to_typeinfo` reads of the member `semantic_info` of a `VariableEntry`
(`common.hpp`); both containers in iteration order. -/
structure SemanticInfo where
  coordinate_frames : List String
  units : List String
deriving DecidableEq, Repr

/-- What `vars_to_typeinfo` reads of a `VariableEntry` (`common.hpp`). -/
structure VariableEntry where
  variable_name : String
  semantic_info : SemanticInfo
deriving DecidableEq, Repr

/-- The enumerators of `MAVFrame` (`mav.hpp`) that `vars_to_typeinfo` names besides
`MAV_FRAME_GLOBAL` and `MAV_FRAME_NONE`. -/
structure MAVFrame where
  MAV_FRAME_LOCAL_NED : Int
  MAV_FRAME_MISSION : Int
  MAV_FRAME_GLOBAL_RELATIVE_ALT : Int
  MAV_FRAME_LOCAL_ENU : Int
  MAV_FRAME_GLOBAL_INT : Int
  MAV_FRAME_GLOBAL_RELATIVE_ALT_INT : Int
  MAV_FRAME_LOCAL_OFFSET_NED : Int
  MAV_FRAME_BODY_NED : Int
  MAV_FRAME_BODY_OFFSET_NED : Int
  MAV_FRAME_GLOBAL_TERRAIN_ALT : Int
  MAV_FRAME_GLOBAL_TERRAIN_ALT_INT : Int
  MAV_FRAME_BODY_FRD : Int
  MAV_FRAME_LOCAL_FRD : Int
  MAV_FRAME_LOCAL_FLU : Int

/-- The local table `frame_to_field` of `vars_to_typeinfo`, as a list of its initialisers. -/
def frame_to_field_entries (hdr : Headers) (fr : MAVFrame) : List (String × Int) :=
  [("MAV_FRAME_GLOBAL", hdr.MAV_FRAME_GLOBAL),
   ("MAV_FRAME_LOCAL_NED", fr.MAV_FRAME_LOCAL_NED),
   ("MAV_FRAME_MISSION", fr.MAV_FRAME_MISSION),
   ("MAV_FRAME_GLOBAL_RELATIVE_ALT", fr.MAV_FRAME_GLOBAL_RELATIVE_ALT),
   ("MAV_FRAME_LOCAL_ENU", fr.MAV_FRAME_LOCAL_ENU),
   ("MAV_FRAME_GLOBAL_INT", fr.MAV_FRAME_GLOBAL_INT),
   ("MAV_FRAME_GLOBAL_RELATIVE_ALT_INT", fr.MAV_FRAME_GLOBAL_RELATIVE_ALT_INT),
   ("MAV_FRAME_LOCAL_OFFSET_NED", fr.MAV_FRAME_LOCAL_OFFSET_NED),
   ("MAV_FRAME_BODY_NED", fr.MAV_FRAME_BODY_NED),
   ("MAV_FRAME_BODY_OFFSET_NED", fr.MAV_FRAME_BODY_OFFSET_NED),
   ("MAV_FRAME_GLOBAL_TERRAIN_ALT", fr.MAV_FRAME_GLOBAL_TERRAIN_ALT),
   ("MAV_FRAME_GLOBAL_TERRAIN_ALT_INT", fr.MAV_FRAME_GLOBAL_TERRAIN_ALT_INT),
   ("MAV_FRAME_BODY_FRD", fr.MAV_FRAME_BODY_FRD),
   ("MAV_FRAME_LOCAL_FRD", fr.MAV_FRAME_LOCAL_FRD),
   ("MAV_FRAME_LOCAL_FLU", fr.MAV_FRAME_LOCAL_FLU),
   ("MAV_FRAME_NONE", hdr.MAV_FRAME_NONE)]

/-- The local table `frame_to_field` of `vars_to_typeinfo` (the sixteen names are
distinct, so every initialiser is kept). -/
def frame_to_field (hdr : Headers) (fr : MAVFrame) : StdMap String Int :=
  (frame_to_field_entries hdr fr).foldl (fun m p => map_set p.1 p.2 m) []

/-- In `vars_to_typeinfo`, the loop over `ve.semantic_info.coordinate_frames`. -/
def vars_to_typeinfo_frames (hdr : Headers) (fr : MAVFrame) (coordinate_frames : List String)
    (ti : TypeInfo) : TypeInfo :=
  coordinate_frames.foldl
    (fun ti name =>
      match map_find name (frame_to_field hdr fr) with
      | none => { ti with frames := set_insert hdr.MAV_FRAME_NONE ti.frames }
      | some v => { ti with frames := set_insert v ti.frames })
    ti

/-- In `vars_to_typeinfo`, one pass of the loop over `ve.semantic_info.units`; the state is
`(ti, unit_to_id, type_id)`. `type_id++` on the largest `int` is undefined. -/
def vars_to_typeinfo_unit (string_to_dimension : String → Option Dimension)
    (st : TypeInfo × StdMap String Int × Int) (unit_name : String) :
    Option (TypeInfo × StdMap String Int × Int) :=
  match map_find unit_name st.2.1 with
  | none =>
    if st.2.2 = 2147483647 then none
    else
      some ({ st.1 with units := set_insert st.2.2 st.1.units
                        dimension := string_to_dimension unit_name },
            map_set unit_name st.2.2 st.2.1, st.2.2 + 1)
  | some id =>
    some ({ st.1 with units := set_insert id st.1.units
                      dimension := string_to_dimension unit_name },
          st.2.1, st.2.2)

/-- In `vars_to_typeinfo`, the loop over `ve.semantic_info.units`. -/
def vars_to_typeinfo_units (string_to_dimension : String → Option Dimension) :
    List String → TypeInfo × StdMap String Int × Int → Option (TypeInfo × StdMap String Int × Int)
  | [], st => some st
  | unit_name :: rest, st =>
    match vars_to_typeinfo_unit string_to_dimension st unit_name with
    | none => none
    | some st1 => vars_to_typeinfo_units string_to_dimension rest st1

/-- In `vars_to_typeinfo`, the body of the loop over `vars`; the state is
`(results, unit_to_id, type_id)`. -/
def vars_to_typeinfo_entry (hdr : Headers) (fr : MAVFrame)
    (string_to_dimension : String → Option Dimension) (ve : VariableEntry)
    (st : StdMap String TypeInfo × StdMap String Int × Int) :
    Option (StdMap String TypeInfo × StdMap String Int × Int) :=
  let ti := vars_to_typeinfo_frames hdr fr ve.semantic_info.coordinate_frames TypeInfo.empty
  match vars_to_typeinfo_units string_to_dimension ve.semantic_info.units (ti, st.2.1, st.2.2) with
  | none => none
  | some (ti, unit_to_id, type_id) =>
    let ti := { ti with source := ti.source ++ [⟨TypeSourceKind.SOURCE_INTRINSIC, -1, ""⟩] }
    some (map_set ve.variable_name ti st.1, unit_to_id, type_id)

/-- The loop of `vars_to_typeinfo` over `vars`. -/
def vars_to_typeinfo_loop (hdr : Headers) (fr : MAVFrame)
    (string_to_dimension : String → Option Dimension) :
    List VariableEntry → StdMap String TypeInfo × StdMap String Int × Int →
      Option (StdMap String TypeInfo × StdMap String Int × Int)
  | [], st => some st
  | ve :: rest, st =>
    match vars_to_typeinfo_entry hdr fr string_to_dimension ve st with
    | none => none
    | some st1 => vars_to_typeinfo_loop hdr fr string_to_dimension rest st1

/-- Source function `vars_to_typeinfo`; `string_to_dimension` is the function of
`units.hpp`. The result is `(results, unit_to_id, type_id)` with the two reference
parameters as they are on return. -/
def vars_to_typeinfo (hdr : Headers) (fr : MAVFrame)
    (string_to_dimension : String → Option Dimension) (vars : List VariableEntry)
    (unit_to_id : StdMap String Int) (type_id : Int) :
    Option (StdMap String TypeInfo × StdMap String Int × Int) :=
  vars_to_typeinfo_loop hdr fr string_to_dimension vars ([], unit_to_id, type_id)

/-! ## Vocabulary of the statements -/

/-- The context without the fields the expression typers and the name canonicalisation may
write: the scope stack, `ctaw_childno`, `param_to_number` and the side file. -/
def ASTContext.typer_frame (ctx : ASTContext) : ASTContext :=
  { ctx with var_types := [], ctaw_childno := 0, param_to_number := [], variables_file := [] }

/-- The context without the fields a store or a declaration may write. -/
def ASTContext.store_frame (ctx : ASTContext) : ASTContext :=
  { ctx.typer_frame with
    cout := [], functions_with_intrinsic_variables := [], store_to_typeinfo := [] }

/-- The context without the two flags `check_mavlink` writes. -/
def ASTContext.mav_frame (ctx : ASTContext) : ASTContext :=
  { ctx with in_mav_constraint := false, had_mav_constraint := false }

/-- The fields of the context the statements about a whole function walk are about. -/
structure WalkView where
  types_to_frame_field : StdMap String String
  current_usr : String
  current_fn : String
  had_mav_constraint : Bool
  seen_definitions : StdSet String
  had_fn_definition : Bool
  cout : List String

def ASTContext.walk_view (ctx : ASTContext) : WalkView :=
  { types_to_frame_field := ctx.types_to_frame_field
    current_usr := ctx.current_usr
    current_fn := ctx.current_fn
    had_mav_constraint := ctx.had_mav_constraint
    seen_definitions := ctx.seen_definitions
    had_fn_definition := ctx.had_fn_definition
    cout := ctx.cout }

/-- A line `function_ast_walker` may write to `cout`. -/
def walker_line (x : String) : Prop :=
  x = frame_switch_line ∨ x = "checking taint in InitialiseVariables" ∨
    ∃ name file line n1 n2, x = incorrect_store_line name file line n1 n2

/-- What every step of the function walk respects: the frame-field table, the current
function and its USR stay; `had_mav_constraint` is never reset; `seen_definitions` only
grows; `had_fn_definition` becomes true only with the USR in `seen_definitions`; `cout`
only grows, by lines of the walker. -/
structure ViewRel (a b : WalkView) : Prop where
  tables : b.types_to_frame_field = a.types_to_frame_field
  usr : b.current_usr = a.current_usr
  fn : b.current_fn = a.current_fn
  mav : a.had_mav_constraint = true → b.had_mav_constraint = true
  seen : ∀ u, u ∈ a.seen_definitions → u ∈ b.seen_definitions
  defn : b.had_fn_definition = true →
    a.had_fn_definition = true ∨ a.current_usr ∈ b.seen_definitions
  cout : ∃ l, b.cout = a.cout ++ l ∧ ∀ x ∈ l, walker_line x

def WalkRel (a b : ASTContext) : Prop := ViewRel a.walk_view b.walk_view

/-- The flags `had_taint`, `had_fn_definition` and `had_mav_constraint` at the end of the
traversal `ast_walker` runs over a function. -/
def walk_flags (hdr : Headers) (cursor : Cursor) (ctx : ASTContext) : Option (Bool × Bool × Bool) :=
  (clang_visitChildren (function_ast_walker hdr) cursor (ast_walker_enter cursor ctx)).map
    (fun w => (w.2.had_taint, w.2.had_fn_definition, w.2.had_mav_constraint))

/-- A step of the walker that opens no scope: it respects `WalkRel`, keeps `constraint` and
prints no frame-switch line. -/
def PlainStep (a b : ASTContext) : Prop :=
  WalkRel a b ∧ b.constraint = a.constraint ∧
    ∃ l, b.cout = a.cout ++ l ∧ frame_switch_line ∉ l

mutual
/-- Every `IfStmt` and every `SwitchStmt` of the tree has at least one child (clang gives
both a condition). -/
def Cursor.control_wf : Cursor → Bool
  | .mk d ch _ =>
    (!(decide (d.kind = CXCursorKind.IfStmt ∨ d.kind = CXCursorKind.SwitchStmt)) || !ch.isEmpty) &&
      control_wf_list ch
/-- The same for every tree of a list. -/
def control_wf_list : List Cursor → Bool
  | [] => true
  | c :: cs => c.control_wf && control_wf_list cs
end

mutual
/-- Number of `SwitchStmt` cursors in the tree. -/
def Cursor.switch_count : Cursor → Nat
  | .mk d ch _ => (if d.kind = CXCursorKind.SwitchStmt then 1 else 0) + switch_count_list ch
/-- Number of `SwitchStmt` cursors in the trees of a list. -/
def switch_count_list : List Cursor → Nat
  | [] => 0
  | c :: cs => c.switch_count + switch_count_list cs
end

/-- The cursor is a member access `p.f` on the frame field: a `MemberRefExpr` spelled `f`
whose first child is a `DeclRefExpr` `p`, the stripped type name of `p` being mapped to `f`
by the frame-field table; or such an access below unexposed wrapper cursors (implicit
casts). -/
inductive FrameAccess (tbl : StdMap String String) : Cursor → Prop where
  | direct (m obj : Cursor) (rest : List Cursor) :
      m.kind = CXCursorKind.MemberRefExpr → m.children = obj :: rest →
      obj.kind = CXCursorKind.DeclRefExpr →
      map_find (get_object_typename obj.data.type) tbl = some m.data.spelling →
      FrameAccess tbl m
  | wrapped (w inner : Cursor) (rest : List Cursor) :
      w.kind = CXCursorKind.UnexposedExpr → w.children = inner :: rest →
      FrameAccess tbl inner → FrameAccess tbl w

/-- The statement `T` is contained in the trees `cs`, at any depth, on a path that does not
go through the first child of an `IfStmt` (what the walker takes for its predicate). -/
inductive InWalk (T : Cursor) : List Cursor → Prop where
  | here (cs : List Cursor) : InWalk T (T :: cs)
  | later (c : Cursor) (cs : List Cursor) : InWalk T cs → InWalk T (c :: cs)
  | inside (c : Cursor) (cs : List Cursor) :
      c.kind ≠ CXCursorKind.IfStmt → InWalk T c.children → InWalk T (c :: cs)
  | inside_if (c p : Cursor) (rest cs : List Cursor) :
      c.kind = CXCursorKind.IfStmt → c.children = p :: rest → InWalk T rest →
      InWalk T (c :: cs)

/-- The type C6 states for a product `v * n` of a variable of type `T` with dimension `D`
and the integer literal `value`. -/
def scaled_typeinfo (hdr : Headers) (T : TypeInfo) (D : Dimension) (value : Int) : TypeInfo :=
  { frames := T.frames
    units := T.units
    source := []
    dimension := some (hdr.dim_mul D ⟨[0, 0, 0, 0, 0, 0, 0], value, 1⟩) }

/-- The expression is a reference to the variable `n`: a `DeclRefExpr` spelled `n`, possibly
below unexposed wrapper cursors (implicit casts). -/
inductive VarRef (n : String) : Cursor → Prop where
  | direct (c : Cursor) :
      c.kind = CXCursorKind.DeclRefExpr → get_cursor_spelling c = n → VarRef n c
  | wrapped (w inner : Cursor) (rest : List Cursor) :
      w.kind = CXCursorKind.UnexposedExpr → w.children = inner :: rest →
      VarRef n inner → VarRef n w

/-- The visitor with the precondition "the scope stack is not empty" made explicit: a call
with an empty `var_types` fails. -/
def with_scope_check (v : Visitor ASTContext) : Visitor ASTContext := fun self c parent ctx =>
  if ctx.var_types.isEmpty then none else v self c parent ctx

/-- The loop of `get_smallest_context` read as a scan of the characters: `off` is the index
of the first character of the list, the state is `(second_to_last_index, last_index)`. -/
def scan_separators : List Char → Nat → Option Nat × Option Nat → Option Nat × Option Nat
  | a :: b :: rest, off, st =>
    scan_separators (b :: rest) (off + 1) (if a = ':' ∧ b = ':' then (st.2, some off) else st)
  | _, _, st => st

/-- The cursor is the AST spine of the chain `x.f1. ... .fk` with `fs = [f1, ..., fk]`:
a `DeclRefExpr` spelled `x` without children for `k = 0`, a `MemberRefExpr` spelled `fk`
whose only child is the spine of `x.f1. ... .f(k-1)`, or an unexposed wrapper cursor
(implicit cast) around a spine. -/
inductive Spine (x : String) : List String → Cursor → Prop where
  | base (c : Cursor) :
      c.kind = CXCursorKind.DeclRefExpr → c.data.spelling = x → c.children = [] → Spine x [] c
  | member (c inner : Cursor) (fs : List String) :
      c.kind = CXCursorKind.MemberRefExpr → c.children = [inner] → Spine x fs inner →
      Spine x (fs ++ [c.data.spelling]) c
  | wrapped (c inner : Cursor) (fs : List String) :
      c.kind = CXCursorKind.UnexposedExpr → c.children = [inner] → Spine x fs inner →
      Spine x fs c

/-- The map `unit_to_id` is injective and its image is exactly `[0, type_id)`. -/
def unit_ids_dense (unit_to_id : StdMap String Int) (type_id : Int) : Prop :=
  (∀ k1 k2 v, map_find k1 unit_to_id = some v → map_find k2 unit_to_id = some v → k1 = k2) ∧
  (∀ k v, map_find k unit_to_id = some v → 0 ≤ v ∧ v < type_id) ∧
  (∀ v, 0 ≤ v → v < type_id → ∃ k, map_find k unit_to_id = some v)

/-- From `(m, n)` to `(m1, n1)` the map was only extended, by IDs from `n` on. -/
def unit_ids_extended (m : StdMap String Int) (n : Int) (m1 : StdMap String Int) (n1 : Int) :
    Prop :=
  n ≤ n1 ∧ (∀ k v, map_find k m = some v → map_find k m1 = some v) ∧
    (∀ k v, map_find k m1 = some v → map_find k m = some v ∨ (n ≤ v ∧ v < n1))

/-- Number of unit names in the entries. -/
def unit_name_count (vars : List VariableEntry) : Nat :=
  (vars.map (fun ve => ve.semantic_info.units.length)).sum

/-- The frames of the TypeInfo lie in `[0, MAV_FRAME_NONE]` and its units in
`[0, num_units)`. -/
def TypeInfo.in_range (hdr : Headers) (num_units : Int) (ti : TypeInfo) : Prop :=
  (∀ f ∈ ti.frames, 0 ≤ f ∧ f ≤ hdr.MAV_FRAME_NONE) ∧ (∀ u ∈ ti.units, 0 ≤ u ∧ u < num_units)

/-- Every TypeInfo of the map is in range. -/
def scope_in_range (hdr : Headers) (num_units : Int) (m : StdMap String TypeInfo) : Prop :=
  ∀ p ∈ m, p.2.in_range hdr num_units

/-- Every TypeInfo of every scope of the stack is in range. -/
def scopes_in_range (hdr : Headers) (num_units : Int) (var_types : List Scope) : Prop :=
  ∀ m ∈ var_types, scope_in_range hdr num_units m

/-- The state of a typer traversal holds TypeInfo values in range only: in the scopes, in
the function-return table and in the result so far. -/
def typer_in_range (hdr : Headers) (n : Int) (p : Option TypeInfo × ASTContext) : Prop :=
  scopes_in_range hdr n p.2.var_types ∧
    scope_in_range hdr n p.2.function_names_to_return_unit ∧ p.2.num_units = n ∧
    ∀ t, p.1 = some t → t.in_range hdr n

/-- The name of the current function with the summary entries of all other functions. -/
def ASTContext.summary_view (ctx : ASTContext) : String × (String → Option FunctionSummary) :=
  (ctx.current_fn, fun k => if k = ctx.current_fn then none else map_find k ctx.fn_summary)

/-- The fields only the `VarDecl` and `CompoundStmt` branches of the function walker write,
with the USR of the current function and the frame-field table. -/
def ASTContext.flag_view (ctx : ASTContext) :
    Bool × Bool × StdSet String × String × StdMap String String :=
  (ctx.had_taint, ctx.had_fn_definition, ctx.seen_definitions, ctx.current_usr,
    ctx.types_to_frame_field)

/-- A step that leaves the summaries of the other functions and the flags as they are. -/
def SideKeep (a b : ASTContext) : Prop :=
  b.summary_view = a.summary_view ∧ b.flag_view = a.flag_view

/-- A `VarDecl` whose stripped type name is a key of the frame-field table. -/
def is_frame_var_decl (tbl : StdMap String String) (T : Cursor) : Prop :=
  T.kind = CXCursorKind.VarDecl ∧ (map_find (get_object_typename T.data.type) tbl).isSome = true

/-- The cursor `c` is the expression `core`, possibly below unexposed wrapper cursors
(implicit casts). -/
inductive BelowCasts (core : Cursor) : Cursor → Prop where
  | direct : BelowCasts core core
  | wrapped (w inner : Cursor) (rest : List Cursor) :
      w.kind = CXCursorKind.UnexposedExpr → w.children = inner :: rest →
      BelowCasts core inner → BelowCasts core w

/-! ## Sample inputs -/

/-- A possible `Dimension::operator*`: exponents added, scalars multiplied and reduced. -/
def sample_dim_mul (a b : Dimension) : Dimension :=
  let n := a.scalar_numerator * b.scalar_numerator
  let d := a.scalar_denominator * b.scalar_denominator
  let g : Int := Int.gcd n d
  { coefficients := List.zipWith (fun x y => x + y) a.coefficients b.coefficients
    scalar_numerator := if g = 0 then n else n / g
    scalar_denominator := if g = 0 then d else d / g }

/-- A possible content of the headers: `MAV_FRAME_GLOBAL = 0`, `MAV_FRAME_NONE = 4`,
structural inequality of TypeInfo values. -/
def sample_headers : Headers :=
  { MAV_FRAME_GLOBAL := 0
    MAV_FRAME_NONE := 4
    dim_mul := sample_dim_mul
    typeinfo_ne := fun a b => decide (a ≠ b) }

/-- The type of a variable holding metres in frames 0 and 1 (unit ID 0). -/
def sample_meter : TypeInfo :=
  { frames := [0, 1]
    units := [0]
    source := [⟨TypeSourceKind.SOURCE_INTRINSIC, -1, ""⟩]
    dimension := some ⟨[1, 0, 0, 0, 0, 0, 0], 1, 1⟩ }

/-- The type of a variable holding centimetres in frame 2 (unit ID 1). -/
def sample_centimeter : TypeInfo :=
  { frames := [2]
    units := [1]
    source := [⟨TypeSourceKind.SOURCE_INTRINSIC, -1, ""⟩]
    dimension := some ⟨[1, 0, 0, 0, 0, 0, 0], 1, 100⟩ }

/-- An enclosing scope binding `alt` and `speed`. -/
def sample_parent_scope : Scope :=
  [("alt", sample_meter), ("speed", sample_centimeter)]

/-- An inner scope binding `alt` again and a local `tmp`. -/
def sample_child_scope : Scope :=
  [("alt", sample_centimeter), ("tmp", sample_meter)]

/-- A context at the start of a translation unit: message type `mavlink_msg_t` with frame
field `frame` and unit fields `x` (metre) and `z` (centimetre), message type `gps_raw_t`
with a unit field only, and the prior type of `Class::altitude_cm`. -/
def sample_ctx : ASTContext :=
  { types_to_frame_field := [("mavlink_msg_t", "frame")]
    type_to_field_to_unit := [("gps_raw_t", [("alt", 0)]), ("mavlink_msg_t", [("x", 0), ("z", 1)])]
    num_units := 2
    constraint := ConstraintType.UNCONSTRAINED
    in_mav_constraint := false
    had_mav_constraint := false
    had_taint := false
    var_types := []
    fn_summary := []
    current_fn := ""
    current_usr := ""
    current_fn_params := []
    param_to_number := []
    param_to_typesource_kind := []
    total_params := 0
    name_to_tu := []
    had_fn_definition := false
    translation_unit_no := 0
    semantic_context := ""
    writes_to_variables_with_known_types := ["Class::altitude_cm"]
    store_to_typeinfo := []
    functions_with_intrinsic_variables := []
    seen_definitions := []
    prior_var_to_typeinfo := [("Class::altitude_cm", sample_centimeter)]
    function_names_to_return_unit := []
    id_to_unitname := [(0, "meter"), (1, "centimeter")]
    ctaw_childno := 0
    cout := []
    variables_file := [] }

/-- The context inside a method of `Class` in which the local `meters_value` holds metres. -/
def sample_method_ctx : ASTContext :=
  { sample_ctx with
    var_types := [[("meters_value", sample_meter)]]
    current_fn := "update"
    current_usr := "c:@S@Class@F@update#"
    semantic_context := "Class" }

/-- The assignment `altitude_cm = meters_value;` at line 12 of `foo.cpp`. -/
def sample_store : Cursor :=
  Cursor.mk
    { kind := CXCursorKind.BinaryOperator, tokens := ["altitude_cm", "=", "meters_value", ";"]
      file := "foo.cpp", line := 12 }
    [Cursor.mk { kind := CXCursorKind.MemberRefExpr, spelling := "altitude_cm"
                 tokens := ["altitude_cm"] } [] [],
     Cursor.mk { kind := CXCursorKind.UnexposedExpr, spelling := "meters_value"
                 tokens := ["meters_value"] }
       [Cursor.mk { kind := CXCursorKind.DeclRefExpr, spelling := "meters_value"
                    tokens := ["meters_value"]
                    referenced_linkage := CXLinkageKind.NoLinkage } [] []] []]
    []

/-- The assignment `altitude_cm = 100;` at line 13 of `foo.cpp`. -/
def sample_literal_store : Cursor :=
  Cursor.mk
    { kind := CXCursorKind.BinaryOperator, tokens := ["altitude_cm", "=", "100", ";"]
      file := "foo.cpp", line := 13 }
    [Cursor.mk { kind := CXCursorKind.MemberRefExpr, spelling := "altitude_cm"
                 tokens := ["altitude_cm"] } [] [],
     Cursor.mk { kind := CXCursorKind.IntegerLiteral, tokens := ["100"], eval_as_int := 100 } [] []]
    []

/-- The literal `100`. -/
def sample_hundred : Cursor :=
  Cursor.mk { kind := CXCursorKind.IntegerLiteral, tokens := ["100"], eval_as_int := 100
              semantic_parents := [⟨CXCursorKind.VarDecl, "x"⟩] } [] []

/-- The literal `100` below the implicit cast that converts it to `double`. -/
def sample_cast_hundred : Cursor :=
  Cursor.mk { kind := CXCursorKind.UnexposedExpr, tokens := ["100"]
              semantic_parents := [⟨CXCursorKind.VarDecl, "x"⟩] } [sample_hundred] []

/-- The read of `meters_value`: the reference below the implicit cast that loads the
value. -/
def sample_read_meters_value : Cursor :=
  Cursor.mk { kind := CXCursorKind.UnexposedExpr, spelling := "meters_value"
              tokens := ["meters_value"]
              semantic_parents := [⟨CXCursorKind.VarDecl, "x"⟩] }
    [Cursor.mk { kind := CXCursorKind.DeclRefExpr, spelling := "meters_value"
                 tokens := ["meters_value"]
                 referenced_linkage := CXLinkageKind.NoLinkage
                 semantic_parents := [⟨CXCursorKind.VarDecl, "x"⟩] } [] []]
    []

/-- The product `meters_value * 100`, `meters_value` being a `double`. -/
def sample_cast_product : Cursor :=
  Cursor.mk { kind := CXCursorKind.BinaryOperator, tokens := ["meters_value", "*", "100"]
              semantic_parents := [⟨CXCursorKind.VarDecl, "x"⟩] }
    [sample_read_meters_value, sample_cast_hundred] []

/-- The declaration `auto x = meters_value * 100;`. -/
def sample_product_decl : Cursor :=
  Cursor.mk { kind := CXCursorKind.VarDecl, spelling := "x", type := CXType.Spelled "double" }
    [sample_cast_product] []

/-- The function `void f(const mavlink_msg_t &p) { double a = p.x; }`: a parameter of a
framed message type, no test of `p.frame`. -/
def sample_fn_param : Cursor :=
  Cursor.mk { kind := CXCursorKind.FunctionDecl, spelling := "f", usr := "c:@F@f#" }
    [Cursor.mk { kind := CXCursorKind.ParmDecl, spelling := "p"
                 type := CXType.Spelled "const mavlink_msg_t &" } [] [],
     Cursor.mk { kind := CXCursorKind.CompoundStmt }
       [Cursor.mk { kind := CXCursorKind.DeclStmt }
         [Cursor.mk { kind := CXCursorKind.VarDecl, spelling := "a", type := CXType.Spelled "double" }
           [Cursor.mk { kind := CXCursorKind.UnexposedExpr, spelling := "x"
                        semantic_parents := [⟨CXCursorKind.VarDecl, "a"⟩] }
             [Cursor.mk { kind := CXCursorKind.MemberRefExpr, spelling := "x"
                          semantic_parents := [⟨CXCursorKind.VarDecl, "a"⟩] }
               [Cursor.mk { kind := CXCursorKind.DeclRefExpr, spelling := "p"
                            type := CXType.Spelled "const mavlink_msg_t"
                            referenced_linkage := CXLinkageKind.NoLinkage
                            semantic_parents := [⟨CXCursorKind.VarDecl, "a"⟩] } [] []] []] []]
           []] []] []]
    []

/-- The function `void h() { gps_raw_t g; }`: a local of a message type that has unit
fields but no frame field. -/
def sample_fn_units_only : Cursor :=
  Cursor.mk { kind := CXCursorKind.FunctionDecl, spelling := "h", usr := "c:@F@h#" }
    [Cursor.mk { kind := CXCursorKind.CompoundStmt }
       [Cursor.mk { kind := CXCursorKind.DeclStmt }
         [Cursor.mk { kind := CXCursorKind.VarDecl, spelling := "g"
                      type := CXType.Spelled "gps_raw_t" } [] []] []] []]
    []

/-- The function `void g() { mavlink_msg_t m; }`: a local of a framed message type, no test
of `m.frame`. -/
def sample_fn_tainted : Cursor :=
  Cursor.mk { kind := CXCursorKind.FunctionDecl, spelling := "g", usr := "c:@F@g#" }
    [Cursor.mk { kind := CXCursorKind.CompoundStmt }
       [Cursor.mk { kind := CXCursorKind.DeclStmt }
         [Cursor.mk { kind := CXCursorKind.VarDecl, spelling := "m"
                      type := CXType.Spelled "mavlink_msg_t" } [] []] []] []]
    []

/-- The context after `ast_walker` has walked `sample_fn_param` from `sample_ctx`. -/
def sample_after_first_walk : ASTContext :=
  match ast_walker sample_headers (fun _ => none) sample_fn_param sample_fn_param sample_ctx with
  | some r => r.2
  | none => sample_ctx

/-- The expression `m.frame` below an implicit cast, `m` being a local of type
`mavlink_msg_t`. -/
def sample_frame_access : Cursor :=
  Cursor.mk { kind := CXCursorKind.UnexposedExpr, spelling := "frame", tokens := ["m", ".", "frame"] }
    [Cursor.mk { kind := CXCursorKind.MemberRefExpr, spelling := "frame"
                 tokens := ["m", ".", "frame"] }
      [Cursor.mk { kind := CXCursorKind.DeclRefExpr, spelling := "m"
                   type := CXType.Spelled "mavlink_msg_t", tokens := ["m"]
                   referenced_linkage := CXLinkageKind.NoLinkage } [] []] []]
    []

/-- The predicate `m.frame == MAV_FRAME_GLOBAL`. -/
def sample_frame_test : Cursor :=
  Cursor.mk { kind := CXCursorKind.BinaryOperator
              tokens := ["m", ".", "frame", "==", "MAV_FRAME_GLOBAL"] }
    [sample_frame_access,
     Cursor.mk { kind := CXCursorKind.UnexposedExpr, spelling := "MAV_FRAME_GLOBAL"
                 tokens := ["MAV_FRAME_GLOBAL"] }
       [Cursor.mk { kind := CXCursorKind.DeclRefExpr, spelling := "MAV_FRAME_GLOBAL"
                    tokens := ["MAV_FRAME_GLOBAL"]
                    referenced_linkage := CXLinkageKind.External } [] []] []]
    []

/-- The statement `if (m.frame == MAV_FRAME_GLOBAL) { }`. -/
def sample_frame_if : Cursor :=
  Cursor.mk { kind := CXCursorKind.IfStmt }
    [sample_frame_test, Cursor.mk { kind := CXCursorKind.CompoundStmt } [] []] []

/-- The function `void guarded() { mavlink_msg_t m; if (m.frame == MAV_FRAME_GLOBAL) { } }`. -/
def sample_fn_if : Cursor :=
  Cursor.mk { kind := CXCursorKind.FunctionDecl, spelling := "guarded", usr := "c:@F@guarded#" }
    [Cursor.mk { kind := CXCursorKind.CompoundStmt }
       [Cursor.mk { kind := CXCursorKind.DeclStmt }
         [Cursor.mk { kind := CXCursorKind.VarDecl, spelling := "m"
                      type := CXType.Spelled "mavlink_msg_t" } [] []] [],
        sample_frame_if] []]
    []

/-- The product `meters_value * gain`, `gain` being a variable no scope binds; the cursors
have the declaration of `x` as semantic parent. -/
def sample_untyped_product : Cursor :=
  Cursor.mk { kind := CXCursorKind.BinaryOperator, tokens := ["meters_value", "*", "gain"]
              semantic_parents := [⟨CXCursorKind.VarDecl, "x"⟩] }
    [Cursor.mk { kind := CXCursorKind.DeclRefExpr, spelling := "meters_value"
                 tokens := ["meters_value"], referenced_linkage := CXLinkageKind.NoLinkage
                 semantic_parents := [⟨CXCursorKind.VarDecl, "x"⟩] } [] [],
     Cursor.mk { kind := CXCursorKind.DeclRefExpr, spelling := "gain"
                 tokens := ["gain"], referenced_linkage := CXLinkageKind.External
                 semantic_parents := [⟨CXCursorKind.VarDecl, "x"⟩] } [] []]
    []

/-- The assignment `y = meters_value * gain;`. -/
def sample_untyped_product_store : Cursor :=
  Cursor.mk { kind := CXCursorKind.BinaryOperator
              tokens := ["y", "=", "meters_value", "*", "gain", ";"] }
    [Cursor.mk { kind := CXCursorKind.DeclRefExpr, spelling := "y", tokens := ["y"]
                 referenced_linkage := CXLinkageKind.NoLinkage } [] [],
     sample_untyped_product]
    []

/-- The declaration `auto x = meters_value * gain;`. -/
def sample_untyped_product_decl : Cursor :=
  Cursor.mk { kind := CXCursorKind.VarDecl, spelling := "x", type := CXType.Spelled "double" }
    [sample_untyped_product] []


/-- The context of `sample_method_ctx` with a prior type for the global `g_alt`. -/
def sample_prior_ctx : ASTContext :=
  { sample_method_ctx with prior_var_to_typeinfo := [("g_alt", sample_centimeter)] }

/-- The declaration `auto x = g_alt;`. -/
def sample_prior_decl : Cursor :=
  Cursor.mk { kind := CXCursorKind.VarDecl, spelling := "x", type := CXType.Spelled "double" }
    [Cursor.mk { kind := CXCursorKind.UnexposedExpr, spelling := "g_alt", tokens := ["g_alt"]
                 semantic_parents := [⟨CXCursorKind.VarDecl, "x"⟩] }
      [Cursor.mk { kind := CXCursorKind.DeclRefExpr, spelling := "g_alt", tokens := ["g_alt"]
                   referenced_linkage := CXLinkageKind.External
                   semantic_parents := [⟨CXCursorKind.VarDecl, "x"⟩] } [] []] []]
    []

/-- The assignment `y = g_alt;`. -/
def sample_prior_store : Cursor :=
  Cursor.mk { kind := CXCursorKind.BinaryOperator, tokens := ["y", "=", "g_alt", ";"] }
    [Cursor.mk { kind := CXCursorKind.DeclRefExpr, spelling := "y", tokens := ["y"]
                 referenced_linkage := CXLinkageKind.NoLinkage } [] [],
     Cursor.mk { kind := CXCursorKind.UnexposedExpr, spelling := "g_alt", tokens := ["g_alt"] }
       [Cursor.mk { kind := CXCursorKind.DeclRefExpr, spelling := "g_alt", tokens := ["g_alt"]
                    referenced_linkage := CXLinkageKind.External } [] []] []]
    []


/-- A context inside a function body whose scope binds `a` to metres and `b` to
centimetres. -/
def sample_body_ctx : ASTContext :=
  { sample_ctx with
    var_types := [[("a", sample_meter), ("b", sample_centimeter)]]
    current_fn := "step"
    current_usr := "c:@F@step#"
    had_fn_definition := true
    seen_definitions := ["c:@F@step#"] }

/-- The assignment `a = b;`. -/
def sample_local_store : Cursor :=
  Cursor.mk { kind := CXCursorKind.BinaryOperator, tokens := ["a", "=", "b", ";"] }
    [Cursor.mk { kind := CXCursorKind.DeclRefExpr, spelling := "a", tokens := ["a"]
                 referenced_linkage := CXLinkageKind.NoLinkage } [] [],
     Cursor.mk { kind := CXCursorKind.UnexposedExpr, spelling := "b", tokens := ["b"] }
       [Cursor.mk { kind := CXCursorKind.DeclRefExpr, spelling := "b", tokens := ["b"]
                    referenced_linkage := CXLinkageKind.NoLinkage } [] []] []]
    []

/-- The selector `mode` of the sample switch and condition of the sample loop. -/
def sample_mode : Cursor :=
  Cursor.mk { kind := CXCursorKind.UnexposedExpr, spelling := "mode", tokens := ["mode"] }
    [Cursor.mk { kind := CXCursorKind.DeclRefExpr, spelling := "mode", tokens := ["mode"]
                 type := CXType.Spelled "int"
                 referenced_linkage := CXLinkageKind.External } [] []] []

/-- The statement `switch (mode) { case 0: a = b; }`. -/
def sample_switch_store : Cursor :=
  Cursor.mk { kind := CXCursorKind.SwitchStmt }
    [sample_mode,
     Cursor.mk { kind := CXCursorKind.CompoundStmt }
       [Cursor.mk { kind := CXCursorKind.CaseStmt }
         [Cursor.mk { kind := CXCursorKind.IntegerLiteral, tokens := ["0"] } [] [],
          sample_local_store] []] []]
    []

/-- The statement `while (mode) { a = b; }`. -/
def sample_while_store : Cursor :=
  Cursor.mk { kind := CXCursorKind.WhileStmt }
    [sample_mode, Cursor.mk { kind := CXCursorKind.CompoundStmt } [sample_local_store] []] []


/-- The function `void spin() { do { break; } while (0); }`. -/
def sample_fn_do_break : Cursor :=
  Cursor.mk { kind := CXCursorKind.FunctionDecl, spelling := "spin", usr := "c:@F@spin#" }
    [Cursor.mk { kind := CXCursorKind.CompoundStmt }
       [Cursor.mk { kind := CXCursorKind.DoStmt }
         [Cursor.mk { kind := CXCursorKind.CompoundStmt }
            [Cursor.mk { kind := CXCursorKind.BreakStmt } [] []] [],
          Cursor.mk { kind := CXCursorKind.IntegerLiteral, tokens := ["0"] } [] []] []] []]
    []

/-- The function `void spin() { while (1) { break; } }`. -/
def sample_fn_while_break : Cursor :=
  Cursor.mk { kind := CXCursorKind.FunctionDecl, spelling := "spin", usr := "c:@F@spin#" }
    [Cursor.mk { kind := CXCursorKind.CompoundStmt }
       [Cursor.mk { kind := CXCursorKind.WhileStmt }
         [Cursor.mk { kind := CXCursorKind.IntegerLiteral, tokens := ["1"], eval_as_int := 1 } [] [],
          Cursor.mk { kind := CXCursorKind.CompoundStmt }
            [Cursor.mk { kind := CXCursorKind.BreakStmt } [] []] []] []] []]
    []

/-- The parameter `double v`. -/
def sample_parm_v : Cursor :=
  Cursor.mk { kind := CXCursorKind.ParmDecl, spelling := "v", type := CXType.Spelled "double" } [] []

/-- The reference to `v` on the right of an assignment. -/
def sample_ref_v : Cursor :=
  Cursor.mk { kind := CXCursorKind.UnexposedExpr, spelling := "v", tokens := ["v"] }
    [Cursor.mk { kind := CXCursorKind.DeclRefExpr, spelling := "v", tokens := ["v"]
                 referenced_linkage := CXLinkageKind.NoLinkage } [] []] []

/-- The assignment `altitude_cm = v;`. -/
def sample_param_store : Cursor :=
  Cursor.mk { kind := CXCursorKind.BinaryOperator, tokens := ["altitude_cm", "=", "v", ";"]
              file := "foo.cpp", line := 14 }
    [Cursor.mk { kind := CXCursorKind.MemberRefExpr, spelling := "altitude_cm"
                 tokens := ["altitude_cm"] } [] [],
     sample_ref_v]
    []

/-- The method `void Class::set(int u, double v) { altitude_cm = v; }`. -/
def sample_fn_set : Cursor :=
  Cursor.mk { kind := CXCursorKind.CXXMethod, spelling := "set", usr := "c:@S@Class@F@set#I#d#"
              semantic_parents := [⟨CXCursorKind.Other, "Class"⟩] }
    [Cursor.mk { kind := CXCursorKind.ParmDecl, spelling := "u", type := CXType.Spelled "int" } [] [],
     sample_parm_v,
     Cursor.mk { kind := CXCursorKind.CompoundStmt } [sample_param_store] []]
    []

/-- The context of the walk of `sample_fn_set` after the visit of its first parameter. -/
def sample_after_parm_u : ASTContext :=
  match visit_list (function_ast_walker sample_headers) sample_fn_set (sample_fn_set.children.take 1)
      (ast_walker_enter sample_fn_set sample_ctx) with
  | some r => r.2
  | none => sample_ctx

/-- The context of the walk of `sample_fn_set` after the visit of both parameters. -/
def sample_after_parm_v : ASTContext :=
  match visit_list (function_ast_walker sample_headers) sample_fn_set (sample_fn_set.children.take 2)
      (ast_walker_enter sample_fn_set sample_ctx) with
  | some r => r.2
  | none => sample_ctx

/-- The declaration `mavlink_msg_t m;`. -/
def sample_msg_decl : Cursor :=
  Cursor.mk { kind := CXCursorKind.VarDecl, spelling := "m"
              type := CXType.Spelled "mavlink_msg_t" } [] []

/-- The statement `switch (0) { }`: the selector is a literal and has no child cursor. -/
def sample_literal_switch : Cursor :=
  Cursor.mk { kind := CXCursorKind.SwitchStmt }
    [Cursor.mk { kind := CXCursorKind.IntegerLiteral, tokens := ["0"] } [] [],
     Cursor.mk { kind := CXCursorKind.CompoundStmt } [] []] []

/-- The function
`void cycle() { mavlink_msg_t m; if (m.frame == MAV_FRAME_GLOBAL) { } switch (0) { } }`. -/
def sample_fn_stale_switch : Cursor :=
  Cursor.mk { kind := CXCursorKind.FunctionDecl, spelling := "cycle", usr := "c:@F@cycle#" }
    [Cursor.mk { kind := CXCursorKind.CompoundStmt }
       [Cursor.mk { kind := CXCursorKind.DeclStmt } [sample_msg_decl] [],
        sample_frame_if,
        sample_literal_switch] []]
    []

/-- The function `void cycle() { mavlink_msg_t m; switch (0) { } }`. -/
def sample_fn_literal_switch : Cursor :=
  Cursor.mk { kind := CXCursorKind.FunctionDecl, spelling := "cycle", usr := "c:@F@cycle#" }
    [Cursor.mk { kind := CXCursorKind.CompoundStmt }
       [Cursor.mk { kind := CXCursorKind.DeclStmt } [sample_msg_decl] [],
        sample_literal_switch] []]
    []

/-- The product `gain * meters_value`, `gain` being a variable no scope binds. -/
def sample_product_untyped_left : Cursor :=
  Cursor.mk { kind := CXCursorKind.BinaryOperator, tokens := ["gain", "*", "meters_value"]
              semantic_parents := [⟨CXCursorKind.VarDecl, "x"⟩] }
    [Cursor.mk { kind := CXCursorKind.DeclRefExpr, spelling := "gain"
                 tokens := ["gain"], referenced_linkage := CXLinkageKind.External
                 semantic_parents := [⟨CXCursorKind.VarDecl, "x"⟩] } [] [],
     Cursor.mk { kind := CXCursorKind.DeclRefExpr, spelling := "meters_value"
                 tokens := ["meters_value"], referenced_linkage := CXLinkageKind.NoLinkage
                 semantic_parents := [⟨CXCursorKind.VarDecl, "x"⟩] } [] []]
    []

/-- The assignment `y = gain * meters_value;`. -/
def sample_product_untyped_left_store : Cursor :=
  Cursor.mk { kind := CXCursorKind.BinaryOperator
              tokens := ["y", "=", "gain", "*", "meters_value", ";"] }
    [Cursor.mk { kind := CXCursorKind.DeclRefExpr, spelling := "y", tokens := ["y"]
                 referenced_linkage := CXLinkageKind.NoLinkage } [] [],
     sample_product_untyped_left]
    []

/-- The declaration `auto x = gain * meters_value;`. -/
def sample_product_untyped_left_decl : Cursor :=
  Cursor.mk { kind := CXCursorKind.VarDecl, spelling := "x", type := CXType.Spelled "double" }
    [sample_product_untyped_left] []

/-- The predicate `cfg.mode == m.frame`: a member access on another object on the left,
the frame field of `m` on the right. -/
def sample_frame_test_right : Cursor :=
  Cursor.mk { kind := CXCursorKind.BinaryOperator
              tokens := ["cfg", ".", "mode", "==", "m", ".", "frame"] }
    [Cursor.mk { kind := CXCursorKind.UnexposedExpr, spelling := "mode"
                 tokens := ["cfg", ".", "mode"] }
       [Cursor.mk { kind := CXCursorKind.MemberRefExpr, spelling := "mode"
                    tokens := ["cfg", ".", "mode"] }
         [Cursor.mk { kind := CXCursorKind.DeclRefExpr, spelling := "cfg"
                      type := CXType.Spelled "config_t", tokens := ["cfg"]
                      referenced_linkage := CXLinkageKind.External } [] []] []] [],
     sample_frame_access]
    []

/-- The function `void relay() { mavlink_msg_t m; if (cfg.mode == m.frame) { } }`. -/
def sample_fn_frame_on_right : Cursor :=
  Cursor.mk { kind := CXCursorKind.FunctionDecl, spelling := "relay", usr := "c:@F@relay#" }
    [Cursor.mk { kind := CXCursorKind.CompoundStmt }
       [Cursor.mk { kind := CXCursorKind.DeclStmt } [sample_msg_decl] [],
        Cursor.mk { kind := CXCursorKind.IfStmt }
          [sample_frame_test_right, Cursor.mk { kind := CXCursorKind.CompoundStmt } [] []] []] []]
    []

/-- The access `p.x` below an implicit cast. -/
def sample_field_access : Cursor :=
  Cursor.mk { kind := CXCursorKind.UnexposedExpr, spelling := "x", tokens := ["p", ".", "x"] }
    [Cursor.mk { kind := CXCursorKind.MemberRefExpr, spelling := "x", tokens := ["p", ".", "x"] }
      [Cursor.mk { kind := CXCursorKind.DeclRefExpr, spelling := "p"
                   type := CXType.Spelled "const mavlink_msg_t", tokens := ["p"]
                   referenced_linkage := CXLinkageKind.NoLinkage } [] []] []]
    []

/-- The assignment `alt = p.x;`. -/
def sample_field_store : Cursor :=
  Cursor.mk { kind := CXCursorKind.BinaryOperator, tokens := ["alt", "=", "p", ".", "x", ";"]
              file := "foo.cpp", line := 21 }
    [Cursor.mk { kind := CXCursorKind.DeclRefExpr, spelling := "alt", tokens := ["alt"]
                 referenced_linkage := CXLinkageKind.External } [] [],
     sample_field_access]
    []

/-- The function `void take(const mavlink_msg_t &p) { alt = p.x; }`. -/
def sample_fn_field_store : Cursor :=
  Cursor.mk { kind := CXCursorKind.FunctionDecl, spelling := "take", usr := "c:@F@take#" }
    [Cursor.mk { kind := CXCursorKind.ParmDecl, spelling := "p"
                 type := CXType.Spelled "const mavlink_msg_t &" } [] [],
     Cursor.mk { kind := CXCursorKind.CompoundStmt } [sample_field_store] []]
    []

/-- The context of the walk of `sample_fn_field_store` after the visit of its parameter. -/
def sample_after_parm_p : ASTContext :=
  match visit_list (function_ast_walker sample_headers) sample_fn_field_store
      (sample_fn_field_store.children.take 1) (ast_walker_enter sample_fn_field_store sample_ctx) with
  | some r => r.2
  | none => sample_ctx

/-- The declaration `double a = p.x;`. -/
def sample_field_decl : Cursor :=
  Cursor.mk { kind := CXCursorKind.VarDecl, spelling := "a", type := CXType.Spelled "double" }
    [Cursor.mk { kind := CXCursorKind.UnexposedExpr, spelling := "x"
                 semantic_parents := [⟨CXCursorKind.VarDecl, "a"⟩] }
      [Cursor.mk { kind := CXCursorKind.MemberRefExpr, spelling := "x"
                   semantic_parents := [⟨CXCursorKind.VarDecl, "a"⟩] }
        [Cursor.mk { kind := CXCursorKind.DeclRefExpr, spelling := "p"
                     type := CXType.Spelled "const mavlink_msg_t"
                     referenced_linkage := CXLinkageKind.NoLinkage
                     semantic_parents := [⟨CXCursorKind.VarDecl, "a"⟩] } [] []] []] []]
    []

/-- The object `m` of the access `m.pos.x`. -/
def sample_chain_object : Cursor :=
  Cursor.mk { kind := CXCursorKind.DeclRefExpr, spelling := "m" } [] []

/-- The access `m.pos`. -/
def sample_chain_pos : Cursor :=
  Cursor.mk { kind := CXCursorKind.MemberRefExpr, spelling := "pos" } [sample_chain_object] []

/-- The implicit cast around `m.pos` in `m.pos.x`. -/
def sample_chain_cast : Cursor :=
  Cursor.mk { kind := CXCursorKind.UnexposedExpr, spelling := "pos" } [sample_chain_pos] []

/-- The access `m.pos.x`. -/
def sample_chain : Cursor :=
  Cursor.mk { kind := CXCursorKind.MemberRefExpr, spelling := "x" } [sample_chain_cast] []

/-- The other enumerators of `MAVFrame`, numbered as in the MAVLink common dialect. -/
def sample_frames : MAVFrame :=
  { MAV_FRAME_LOCAL_NED := 1
    MAV_FRAME_MISSION := 2
    MAV_FRAME_GLOBAL_RELATIVE_ALT := 3
    MAV_FRAME_LOCAL_ENU := 4
    MAV_FRAME_GLOBAL_INT := 5
    MAV_FRAME_GLOBAL_RELATIVE_ALT_INT := 6
    MAV_FRAME_LOCAL_OFFSET_NED := 7
    MAV_FRAME_BODY_NED := 8
    MAV_FRAME_BODY_OFFSET_NED := 9
    MAV_FRAME_GLOBAL_TERRAIN_ALT := 10
    MAV_FRAME_GLOBAL_TERRAIN_ALT_INT := 11
    MAV_FRAME_BODY_FRD := 12
    MAV_FRAME_LOCAL_FRD := 20
    MAV_FRAME_LOCAL_FLU := 21 }

/-- Headers with `MAV_FRAME_NONE` above the enumerators of `sample_frames`. -/
def sample_frame_headers : Headers := { sample_headers with MAV_FRAME_NONE := 22 }

/-- The unit table after the message definitions were read: two units. -/
def sample_unit_to_id : StdMap String Int := [("centimeter", 1), ("meter", 0)]

/-- Prior types of two variables: one in a known unit, one in the new unit `knot` and in
a frame name the table does not hold. -/
def sample_vars : List VariableEntry :=
  [⟨"Class::altitude_cm", ⟨["MAV_FRAME_GLOBAL"], ["centimeter"]⟩⟩,
   ⟨"Class::speed", ⟨["MAV_FRAME_WIND"], ["knot"]⟩⟩]

/-- The overload `void Class::set() { }` of `sample_fn_set`: same name, another USR. -/
def sample_fn_set_overload : Cursor :=
  Cursor.mk { kind := CXCursorKind.CXXMethod, spelling := "set", usr := "c:@S@Class@F@set#"
              semantic_parents := [⟨CXCursorKind.Other, "Class"⟩] }
    [Cursor.mk { kind := CXCursorKind.CompoundStmt } [] []]
    []

/-- The context after `ast_walker` has walked `sample_fn_set` from `sample_ctx`. -/
def sample_after_set : ASTContext :=
  match ast_walker sample_headers (fun _ => none) sample_fn_set sample_fn_set sample_ctx with
  | some r => r.2
  | none => sample_ctx

theorem mem_set_insert {κ : Type} [DecidableEq κ] [KeyOrd κ] (a x : κ) (s : StdSet κ) :
    a ∈ set_insert x s ↔ a = x ∨ a ∈ s := by
  induction s with
  | nil => simp [set_insert]
  | cons y ys ih =>
    unfold set_insert
    by_cases h1 : x = y
    · subst h1; simp
    · by_cases h2 : KeyOrd.lt x y = true
      · simp [h1, h2]
      · simp [h1, h2, ih]; tauto

theorem mem_set_insert_all {κ : Type} [DecidableEq κ] [KeyOrd κ] (a : κ) (src : List κ) :
    ∀ dst : StdSet κ, a ∈ set_insert_all dst src ↔ a ∈ dst ∨ a ∈ src := by
  induction src with
  | nil => intro dst; simp [set_insert_all]
  | cons x xs ih =>
    intro dst
    have h := ih (set_insert x dst)
    simp only [set_insert_all, List.foldl_cons] at h ⊢
    rw [h, mem_set_insert]; simp; tauto

theorem sub_set_insert_all {κ : Type} [DecidableEq κ] [KeyOrd κ] (dst : StdSet κ) (src : List κ) :
    dst ⊆ set_insert_all dst src := by
  intro a ha
  exact (mem_set_insert_all a src dst).2 (Or.inl ha)

theorem set_insert_sorted (x : Int) (s : StdSet Int) (hs : s.Sorted (· < ·)) :
    (set_insert x s).Sorted (· < ·) := by
  induction s with
  | nil => simp [set_insert]
  | cons y ys ih =>
    have hy := List.sorted_cons.1 hs
    unfold set_insert
    by_cases h1 : x = y
    · simpa [h1] using hs
    · by_cases h2 : x < y
      · have : KeyOrd.lt x y = true := by simp [KeyOrd.lt, h2]
        simp only [h1, this, if_true, if_false]
        exact List.sorted_cons.2 ⟨fun b hb => by
          rcases List.mem_cons.1 hb with rfl | hb
          · exact h2
          · exact lt_trans h2 (hy.1 b hb), hs⟩
      · have : KeyOrd.lt x y = false := by simp [KeyOrd.lt, h2]
        simp only [h1, this, if_false]
        refine List.sorted_cons.2 ⟨fun b hb => ?_, ih hy.2⟩
        rcases (mem_set_insert b x ys).1 hb with rfl | hb
        · omega
        · exact hy.1 b hb

theorem set_insert_all_sorted (src : List Int) :
    ∀ dst : StdSet Int, dst.Sorted (· < ·) → (set_insert_all dst src).Sorted (· < ·) := by
  induction src with
  | nil => intro dst h; simpa [set_insert_all] using h
  | cons x xs ih =>
    intro dst h
    have := ih (set_insert x dst) (set_insert_sorted x dst h)
    simpa [set_insert_all] using this

theorem map_find_map_set {κ α : Type} [DecidableEq κ] [KeyOrd κ] (k k' : κ) (v : α)
    (m : StdMap κ α) :
    map_find k (map_set k' v m) = if k = k' then some v else map_find k m := by
  induction m with
  | nil => simp [map_set, map_find]
  | cons p rest ih =>
    obtain ⟨k0, v0⟩ := p
    unfold map_set
    by_cases h1 : k' = k0
    · subst h1
      by_cases h : k = k' <;> simp [map_find, h]
    · by_cases h2 : KeyOrd.lt k' k0 = true
      · simp only [h1, h2, if_true, if_false]
        by_cases h : k = k' <;> simp [map_find, h]
      · simp only [h1, h2, if_false]
        by_cases h : k = k'
        · subst h; simp [map_find, h1, ih]
        · simp [map_find, h, ih]

theorem map_find_none_of_not_mem_keys {α : Type} (k : String) (m : StdMap String α)
    (h : k ∉ map_keys m) : map_find k m = none := by
  induction m with
  | nil => rfl
  | cons p rest ih =>
    obtain ⟨k0, v0⟩ := p
    simp only [map_keys, List.map_cons, List.mem_cons, not_or] at h
    simp only [map_find, h.1, if_false]
    exact ih (by simpa [map_keys] using h.2)

/-! ## The traversal -/

theorem cursor_induction (P : Cursor → Prop) (Q : List Cursor → Prop)
    (hmk : ∀ d ch args, Q ch → P (.mk d ch args)) (hnil : Q [])
    (hcons : ∀ c cs, P c → Q cs → Q (c :: cs)) : (∀ c, P c) ∧ (∀ cs, Q cs) :=
  ⟨fun c => Cursor.rec (motive_1 := P) (motive_2 := Q)
      (fun d ch args hch _ => hmk d ch args hch) hnil (fun c cs hc hcs => hcons c cs hc hcs) c,
   fun cs => Cursor.rec_1 (motive_1 := P) (motive_2 := Q)
      (fun d ch args hch _ => hmk d ch args hch) hnil (fun c cs hc hcs => hcons c cs hc hcs) cs⟩

theorem visit_node_eq {σ : Type} (v : Visitor σ) (parent c : Cursor) (s : σ) :
    visit_node v parent c s =
      match v (fun s' => visit_list v c c.children s') c parent s with
      | none => none
      | some (CXChildVisitResult.Break, s1) => some (true, s1)
      | some (CXChildVisitResult.Continue, s1) => some (false, s1)
      | some (CXChildVisitResult.Recurse, s1) => visit_list v c c.children s1 := by
  cases c with
  | mk d ch args => rw [visit_node]; rfl

theorem visit_list_cons {σ : Type} (v : Visitor σ) (parent c : Cursor) (cs : List Cursor) (s : σ) :
    visit_list v parent (c :: cs) s =
      match visit_node v parent c s with
      | none => none
      | some (true, s1) => some (true, s1)
      | some (false, s1) => visit_list v parent cs s1 := by
  rw [visit_list]

theorem visit_list_nil {σ : Type} (v : Visitor σ) (parent : Cursor) (s : σ) :
    visit_list v parent [] s = some (false, s) := by
  rw [visit_list]

/-- A relation every call of the visitor respects is respected by the whole traversal. -/
theorem visit_list_rel {σ : Type} (v : Visitor σ) (Rel : σ → σ → Prop)
    (hrefl : ∀ s, Rel s s) (htrans : ∀ a b c, Rel a b → Rel b c → Rel a c)
    (hv : ∀ (self : σ → Option (Bool × σ)) (c parent : Cursor) (s : σ) r,
      (∀ s1 r1, self s1 = some r1 → Rel s1 r1.2) → v self c parent s = some r → Rel s r.2) :
    ∀ (cs : List Cursor) (parent : Cursor) (s : σ) r, visit_list v parent cs s = some r → Rel s r.2 := by
  refine (cursor_induction
    (fun c => ∀ (parent : Cursor) (s : σ) r, visit_node v parent c s = some r → Rel s r.2)
    (fun cs => ∀ (parent : Cursor) (s : σ) r, visit_list v parent cs s = some r → Rel s r.2)
    ?_ ?_ ?_).2
  · intro d ch args ih parent s r h
    rw [visit_node_eq] at h
    have hself : ∀ s1 r1, (fun s' => visit_list v (Cursor.mk d ch args) ch s') s1 = some r1 →
        Rel s1 r1.2 := fun s1 r1 h1 => ih _ s1 r1 h1
    cases hvr : v (fun s' => visit_list v (Cursor.mk d ch args) ch s') (Cursor.mk d ch args) parent s with
    | none => simp [Cursor.children, hvr] at h
    | some res =>
      obtain ⟨a, s1⟩ := res
      have h1 : Rel s s1 := hv _ _ _ _ _ hself hvr
      simp only [Cursor.children, hvr] at h
      cases a with
      | Break => simp at h; subst h; exact h1
      | Continue => simp at h; subst h; exact h1
      | Recurse => exact htrans _ _ _ h1 (ih _ _ _ h)
  · intro parent s r h
    simp [visit_list] at h
    subst h; exact hrefl s
  · intro c cs hc hcs parent s r h
    rw [visit_list_cons] at h
    cases hn : visit_node v parent c s with
    | none => simp [hn] at h
    | some res =>
      obtain ⟨b, s1⟩ := res
      have h1 := hc _ _ _ hn
      cases b with
      | true => simp [hn] at h; subst h; exact h1
      | false => simp only [hn] at h; exact htrans _ _ _ h1 (hcs _ _ _ h)

theorem clang_visitChildren_rel {σ : Type} (v : Visitor σ) (Rel : σ → σ → Prop)
    (hrefl : ∀ s, Rel s s) (htrans : ∀ a b c, Rel a b → Rel b c → Rel a c)
    (hv : ∀ (self : σ → Option (Bool × σ)) (c parent : Cursor) (s : σ) r,
      (∀ s1 r1, self s1 = some r1 → Rel s1 r1.2) → v self c parent s = some r → Rel s r.2)
    (parent : Cursor) (s : σ) r (h : clang_visitChildren v parent s = some r) : Rel s r.2 :=
  visit_list_rel v Rel hrefl htrans hv _ parent s r h
theorem type_check_rhs_step_frame (hdr : Headers)
    (self : Option TypeInfo × ASTContext → Option (Bool × (Option TypeInfo × ASTContext)))
    (c parent : Cursor) (p : Option TypeInfo × ASTContext) r
    (hself : ∀ s1 r1, self s1 = some r1 →
      r1.2.2.typer_frame = s1.2.typer_frame ∧ r1.2.2.var_types = s1.2.var_types)
    (h : type_check_rhs hdr self c parent p = some r) :
    r.2.2.typer_frame = p.2.typer_frame ∧ r.2.2.var_types = p.2.var_types := by
  unfold type_check_rhs at h
  dsimp only at h
  repeat' split at h
  all_goals first
    | (simp at h; done)
    | (simp only [Option.some.injEq] at h; subst h; exact ⟨rfl, rfl⟩)
    | (rename_i hq1 _ _ _ _ hq2 _ _ _
       simp only [Option.some.injEq] at h; subst h
       exact ⟨Eq.trans (hself _ _ hq2).1 (hself _ _ hq1).1,
         Eq.trans (hself _ _ hq2).2 (hself _ _ hq1).2⟩)
    | (rename_i hq1 _ _ _ _ hq2 _ _
       simp only [Option.some.injEq] at h; subst h
       exact ⟨Eq.trans (hself _ _ hq2).1 (hself _ _ hq1).1,
         Eq.trans (hself _ _ hq2).2 (hself _ _ hq1).2⟩)

theorem type_check_rhs_frame (hdr : Headers) (c : Cursor) (p : Option TypeInfo × ASTContext) r
    (h : clang_visitChildren (type_check_rhs hdr) c p = some r) :
    r.2.2.typer_frame = p.2.typer_frame ∧ r.2.2.var_types = p.2.var_types :=
  clang_visitChildren_rel (type_check_rhs hdr)
    (fun a b => b.2.typer_frame = a.2.typer_frame ∧ b.2.var_types = a.2.var_types)
    (fun _ => ⟨rfl, rfl⟩) (fun _ _ _ h1 h2 => ⟨h2.1.trans h1.1, h2.2.trans h1.2⟩)
    (fun self c parent s r hs h => type_check_rhs_step_frame hdr self c parent s r hs h) c p r h

theorem check_tainted_assgn_walker_frame (c : Cursor) (p : Option TypeInfo × ASTContext) r
    (h : clang_visitChildren check_tainted_assgn_walker c p = some r) :
    r.2.2.typer_frame = p.2.typer_frame ∧ r.2.2.var_types = p.2.var_types := by
  refine clang_visitChildren_rel check_tainted_assgn_walker
    (fun a b => b.2.typer_frame = a.2.typer_frame ∧ b.2.var_types = a.2.var_types)
    (fun _ => ⟨rfl, rfl⟩) (fun _ _ _ h1 h2 => ⟨h2.1.trans h1.1, h2.2.trans h1.2⟩) ?_ c p r h
  intro self c parent p r _ h
  unfold check_tainted_assgn_walker at h
  dsimp only at h
  repeat' split at h
  all_goals first
    | (simp at h; done)
    | (simp only [Option.some.injEq] at h; subst h; exact ⟨rfl, rfl⟩)

theorem store_lhs_walker_frame (c : Cursor) (p : Option String × ASTContext) r
    (h : clang_visitChildren store_lhs_walker c p = some r) :
    r.2.2.typer_frame = p.2.typer_frame ∧ r.2.2.var_types = p.2.var_types := by
  refine clang_visitChildren_rel store_lhs_walker
    (fun a b => b.2.typer_frame = a.2.typer_frame ∧ b.2.var_types = a.2.var_types)
    (fun _ => ⟨rfl, rfl⟩) (fun _ _ _ h1 h2 => ⟨h2.1.trans h1.1, h2.2.trans h1.2⟩) ?_ c p r h
  intro self c parent p r _ h
  unfold store_lhs_walker at h
  repeat' split at h
  all_goals first
    | (simp at h; done)
    | (simp only [Option.some.injEq] at h; subst h; exact ⟨rfl, rfl⟩)

theorem check_tainted_decl_walker_frame (hdr : Headers) (c : Cursor) (ctx : ASTContext) r
    (h : clang_visitChildren (check_tainted_decl_walker hdr) c ctx = some r) :
    r.2.typer_frame = ctx.typer_frame := by
  refine clang_visitChildren_rel (check_tainted_decl_walker hdr)
    (fun a b => b.typer_frame = a.typer_frame)
    (fun _ => rfl) (fun _ _ _ h1 h2 => h2.trans h1) ?_ c ctx r h
  intro self c parent ctx r _ h
  have hbind : ∀ c v t (x : ASTContext), (check_tainted_decl_walker_bind c v t x).2.typer_frame = x.typer_frame := by
    intro c v t x
    unfold check_tainted_decl_walker_bind
    dsimp only
    repeat' split
    all_goals rfl
  unfold check_tainted_decl_walker at h
  dsimp only at h
  repeat' split at h
  all_goals first
    | (simp at h; done)
    | (simp only [Option.some.injEq] at h; subst h; first | rfl | exact hbind _ _ _ _)
    | (rename_i hq1 _ _ _ _ hq2
       simp only [Option.some.injEq] at h; subst h
       exact (hbind _ _ _ _).trans (Eq.trans (type_check_rhs_frame hdr _ _ _ hq2).1 (type_check_rhs_frame hdr _ _ _ hq1).1))

theorem check_tainted_decl_frame (hdr : Headers) (c : Cursor) (ctx ctx' : ASTContext)
    (h : check_tainted_decl hdr c ctx = some ctx') : ctx'.typer_frame = ctx.typer_frame := by
  unfold check_tainted_decl at h
  dsimp only at h
  repeat' split at h
  all_goals first
    | (simp at h; done)
    | (simp only [Option.some.injEq] at h; subst h; rfl)
    | (simp only [Option.map_eq_some'] at h
       obtain ⟨a, ha, rfl⟩ := h
       exact check_tainted_decl_walker_frame hdr _ _ _ ha)

theorem store_rhs_type_frame (hdr : Headers) (c : Cursor) (ctx : ASTContext) r
    (h : store_rhs_type hdr c ctx = some r) :
    r.2.typer_frame = ctx.typer_frame ∧ r.2.var_types = ctx.var_types := by
  unfold store_rhs_type at h
  repeat' split at h
  all_goals first
    | (simp at h; done)
    | (rename_i hq
       simp only [Option.some.injEq] at h; subst h
       exact type_check_rhs_frame hdr _ _ _ hq)
    | (rename_i hq
       simp only [Option.map_eq_some'] at h
       obtain ⟨a, ha, rfl⟩ := h
       have h1 := type_check_rhs_frame hdr _ _ _ hq
       have h2 := check_tainted_assgn_walker_frame _ _ _ ha
       exact ⟨h2.1.trans h1.1, h2.2.trans h1.2⟩)

theorem store_lhs_name_frame (c : Cursor) (ctx : ASTContext) r
    (h : store_lhs_name c ctx = some r) :
    r.2.typer_frame = ctx.typer_frame ∧ r.2.var_types = ctx.var_types := by
  unfold store_lhs_name at h
  repeat' split at h
  all_goals first
    | (simp at h; done)
    | (rename_i hq
       simp only [Option.some.injEq] at h; subst h
       exact store_lhs_walker_frame _ _ _ hq)

/-! ## `merge_typeinfo` and `unify_scopes` -/

/-- One round of the loop of `unify_scopes`. -/
theorem map_find_unify_step (k : String) (acc : Scope) (p : String × TypeInfo) :
    map_find k
        (match map_find p.1 acc with
          | some v => map_set p.1 (merge_typeinfo v p.2) acc
          | none => acc) =
      if k = p.1 then (map_find k acc).map (fun v => merge_typeinfo v p.2) else map_find k acc := by
  cases h : map_find p.1 acc with
  | none =>
    by_cases hk : k = p.1
    · subst hk; simp [h]
    · simp [hk]
  | some v =>
    by_cases hk : k = p.1
    · subst hk; simp [h, map_find_map_set]
    · simp [hk, map_find_map_set]

theorem map_find_unify_scopes (child : Scope) (hc : (map_keys child).Nodup) :
    ∀ (parent : Scope) (k : String),
      map_find k (unify_scopes parent child) =
        match map_find k parent with
        | none => none
        | some v =>
          match map_find k child with
          | none => some v
          | some w => some (merge_typeinfo v w) := by
  induction child with
  | nil => intro parent k; cases h : map_find k parent <;> simp [unify_scopes, map_find, h]
  | cons p rest ih =>
    intro parent k
    obtain ⟨k0, w0⟩ := p
    have hnd : k0 ∉ map_keys rest ∧ (map_keys rest).Nodup := by
      simpa [map_keys] using hc
    have h := ih hnd.2
      (match map_find k0 parent with
        | some v => map_set k0 (merge_typeinfo v w0) parent
        | none => parent) k
    simp only [unify_scopes, List.foldl_cons] at h ⊢
    rw [h, map_find_unify_step k parent (k0, w0)]
    by_cases hk : k = k0
    · subst hk
      simp [map_find, map_find_none_of_not_mem_keys k rest hnd.1]
      cases map_find k parent <;> simp
    · simp [hk, map_find]

theorem unify_scopes_superset (child : Scope) :
    ∀ (parent : Scope) (k : String) (v : TypeInfo), map_find k parent = some v →
      ∃ v', map_find k (unify_scopes parent child) = some v' ∧
        v.frames ⊆ v'.frames ∧ v.units ⊆ v'.units := by
  induction child with
  | nil => intro parent k v h; exact ⟨v, by simpa [unify_scopes] using h, fun _ h => h, fun _ h => h⟩
  | cons p rest ih =>
    intro parent k v hv
    have hstep := map_find_unify_step k parent p
    by_cases hk : k = p.1
    · rw [if_pos hk, hv] at hstep
      obtain ⟨v', h1, h2, h3⟩ := ih _ k _ hstep
      refine ⟨v', by simpa [unify_scopes] using h1, ?_, ?_⟩
      · exact fun a ha => h2 (sub_set_insert_all _ _ ha)
      · exact fun a ha => h3 (sub_set_insert_all _ _ ha)
    · rw [if_neg hk, hv] at hstep
      obtain ⟨v', h1, h2, h3⟩ := ih _ k _ hstep
      exact ⟨v', by simpa [unify_scopes] using h1, h2, h3⟩

/-- C8: `merge_typeinfo(dst, src)` leaves in `dst` the union of the two frame sets and of
the two unit sets (the members are those of either set, and a strictly increasing `dst` set
stays strictly increasing), the old `dst.source` followed by `src.source`, and the
dimension `dst` had before the call. -/
theorem merge_typeinfo_unions_sets_appends_source (dst src : TypeInfo) :
    (∀ x, x ∈ (merge_typeinfo dst src).frames ↔ x ∈ dst.frames ∨ x ∈ src.frames) ∧
    (∀ x, x ∈ (merge_typeinfo dst src).units ↔ x ∈ dst.units ∨ x ∈ src.units) ∧
    (dst.frames.Sorted (· < ·) → (merge_typeinfo dst src).frames.Sorted (· < ·)) ∧
    (dst.units.Sorted (· < ·) → (merge_typeinfo dst src).units.Sorted (· < ·)) ∧
    (merge_typeinfo dst src).source = dst.source ++ src.source ∧
    (merge_typeinfo dst src).dimension = dst.dimension :=
  ⟨fun x => mem_set_insert_all x src.frames dst.frames,
   fun x => mem_set_insert_all x src.units dst.units,
   set_insert_all_sorted src.frames dst.frames,
   set_insert_all_sorted src.units dst.units, rfl, rfl⟩

/-- Instance of C8: merging the centimetre type into the metre type. -/
theorem merge_typeinfo_unions_sets_appends_source_witness :
    merge_typeinfo sample_meter sample_centimeter =
        { frames := [0, 1, 2]
          units := [0, 1]
          source := sample_meter.source ++ sample_centimeter.source
          dimension := sample_meter.dimension } ∧
      (merge_typeinfo sample_meter sample_centimeter).frames.Sorted (· < ·) :=
  ⟨by decide,
   (merge_typeinfo_unions_sets_appends_source sample_meter sample_centimeter).2.2.1 (by decide)⟩

/-- C9: `unify_scopes(parent, child)` keeps the key set of `parent`: a key only in `child`
is not added, an entry whose key is absent from `child` is unchanged, and an entry whose
key is in both becomes `merge_typeinfo` of the old parent value with the child value.  The
keys of `child` are distinct, as in every `std::map`. -/
theorem unify_scopes_keeps_keys_and_merges (parent child : Scope)
    (hc : (map_keys child).Nodup) (k : String) :
    (map_find k parent = none → map_find k (unify_scopes parent child) = none) ∧
    (∀ v, map_find k parent = some v → map_find k child = none →
      map_find k (unify_scopes parent child) = some v) ∧
    (∀ v w, map_find k parent = some v → map_find k child = some w →
      map_find k (unify_scopes parent child) = some (merge_typeinfo v w)) := by
  have h := map_find_unify_scopes child hc parent k
  refine ⟨fun h0 => ?_, fun v h1 h2 => ?_, fun v w h1 h2 => ?_⟩
  · simpa [h0] using h
  · simpa [h1, h2] using h
  · simpa [h1, h2] using h

/-- Instance of C9: the key `alt` is in both scopes. -/
theorem unify_scopes_keeps_keys_and_merges_witness :
    (map_keys sample_child_scope).Nodup ∧
      map_find "tmp" (unify_scopes sample_parent_scope sample_child_scope) = none ∧
      map_find "alt" (unify_scopes sample_parent_scope sample_child_scope) =
        some (merge_typeinfo sample_meter sample_centimeter) :=
  ⟨by decide,
   (unify_scopes_keeps_keys_and_merges sample_parent_scope sample_child_scope (by decide)
      "tmp").1 (by decide),
   (unify_scopes_keeps_keys_and_merges sample_parent_scope sample_child_scope (by decide)
      "alt").2.2 _ _ (by decide) (by decide)⟩

/-- C10: after `unify_scopes(parent, child)` every key of `parent` is still bound, to a
value whose frame set and unit set contain the ones it had before. -/
theorem unify_scopes_grows_frames_and_units (parent child : Scope) (k : String) (v : TypeInfo)
    (hk : map_find k parent = some v) :
    ∃ v', map_find k (unify_scopes parent child) = some v' ∧
      v.frames ⊆ v'.frames ∧ v.units ⊆ v'.units :=
  unify_scopes_superset child parent k v hk

/-- Instance of C10: the key `alt` of the sample parent scope. -/
theorem unify_scopes_grows_frames_and_units_witness :
    map_find "alt" sample_parent_scope = some sample_meter ∧
      ∃ v', map_find "alt" (unify_scopes sample_parent_scope sample_child_scope) = some v' ∧
        sample_meter.frames ⊆ v'.frames ∧ sample_meter.units ⊆ v'.units :=
  ⟨by decide,
   unify_scopes_grows_frames_and_units sample_parent_scope sample_child_scope "alt" sample_meter
     (by decide)⟩

/-! ## Expression typers, declarations and stores -/

theorem set_insert_append_of_lt (x : Int) (acc : StdSet Int) (h : ∀ a ∈ acc, a < x) :
    set_insert x acc = acc ++ [x] := by
  induction acc with
  | nil => rfl
  | cons y ys ih =>
    have hy : y < x := h y (List.mem_cons_self _ _)
    have h1 : ¬ x = y := by omega
    have h2 : KeyOrd.lt x y = false := by simp [KeyOrd.lt]; omega
    simp only [set_insert, h1, h2, if_false, List.cons_append]
    rw [ih (fun a ha => h a (List.mem_cons_of_mem _ ha))]
    simp

theorem set_insert_all_append_of_sorted (s : List Int) :
    ∀ acc : StdSet Int, (acc ++ s).Sorted (· < ·) → set_insert_all acc s = acc ++ s := by
  induction s with
  | nil => intro acc _; simp [set_insert_all]
  | cons x xs ih =>
    intro acc h
    have hlt : ∀ a ∈ acc, a < x := by
      intro a ha
      have := List.pairwise_append.1 h
      exact this.2.2 a ha x (List.mem_cons_self _ _)
    have h' : ((acc ++ [x]) ++ xs).Sorted (· < ·) := by simpa using h
    have := ih (acc ++ [x]) h'
    simp only [set_insert_all, List.foldl_cons] at this ⊢
    rw [set_insert_append_of_lt x acc hlt, this]; simp

/-- Copying a set element by element into an empty set gives the set back. -/
theorem set_insert_all_nil_of_sorted (s : List Int) (h : s.Sorted (· < ·)) :
    set_insert_all [] s = s := by
  simpa using set_insert_all_append_of_sorted s [] (by simpa using h)

theorem set_insert_all_nil_right {κ : Type} [DecidableEq κ] [KeyOrd κ] (s : StdSet κ) :
    set_insert_all s [] = s := rfl

theorem get_var_typeinfo_nil (v : String) : get_var_typeinfo v [] = none := rfl

theorem getLast?_set_in_back (name : String) (ti : TypeInfo) (vt : List Scope) (h : vt ≠ []) :
    ∃ back, (set_in_back name ti vt).getLast? = some back ∧ map_find name back = some ti := by
  induction vt with
  | nil => exact absurd rfl h
  | cons m rest ih =>
    cases rest with
    | nil => exact ⟨map_set name ti m, rfl, by simp [map_find_map_set]⟩
    | cons m' rest' =>
      obtain ⟨back, hb, hf⟩ := ih (by simp)
      refine ⟨back, ?_, hf⟩
      cases rest' with
      | nil => simpa [set_in_back] using hb
      | cons m'' rest'' => simpa [set_in_back] using hb

theorem mark_var_decl_var_types (cursor : Cursor) (ctx : ASTContext) :
    (mark_var_decl cursor ctx).var_types = ctx.var_types := by
  unfold mark_var_decl
  dsimp only
  repeat' split
  all_goals rfl

theorem typer_frame_fields {a b : ASTContext} (h : b.typer_frame = a.typer_frame) :
    b.cout = a.cout ∧ b.id_to_unitname = a.id_to_unitname ∧
    b.writes_to_variables_with_known_types = a.writes_to_variables_with_known_types ∧
    b.prior_var_to_typeinfo = a.prior_var_to_typeinfo := by
  have h1 := congrArg ASTContext.cout h
  have h2 := congrArg ASTContext.id_to_unitname h
  have h3 := congrArg ASTContext.writes_to_variables_with_known_types h
  have h4 := congrArg ASTContext.prior_var_to_typeinfo h
  exact ⟨h1, h2, h3, h4⟩

/-- The diagnostic part of `check_tainted_store`, once the right-hand side is typed and the
left-hand side is an interesting write. -/
theorem check_tainted_store_interesting (hdr : Headers) (cursor : Cursor) (ctx ctx1 ctx2 : ASTContext)
    (R E : TypeInfo) (L : String)
    (hrhs : store_rhs_type hdr cursor ctx = some (some R, ctx1))
    (hne : ctx1.var_types.isEmpty = false)
    (hlhs : store_lhs_name cursor ctx1 = some (L, ctx2))
    (hL : set_contains L ctx2.writes_to_variables_with_known_types = true)
    (hE : map_find L ctx2.prior_var_to_typeinfo = some E) (ctx' : ASTContext) :
    check_tainted_store hdr cursor ctx = some ctx' ↔
      ∃ ctx3 : ASTContext,
        (if hdr.typeinfo_ne R E = true then
          ∃ n1 n2, map_find (last_unit R.units) ctx2.id_to_unitname = some n1 ∧
            map_find (last_unit E.units) ctx2.id_to_unitname = some n2 ∧
            ctx3 = { ctx2 with cout := ctx2.cout ++
              [incorrect_store_line L cursor.data.file cursor.data.line n1 n2] }
         else ctx3 = ctx2) ∧
        ctx' = { ctx3 with
          functions_with_intrinsic_variables :=
            set_insert ctx3.current_fn ctx3.functions_with_intrinsic_variables
          store_to_typeinfo :=
            map_set L
              (merge_typeinfo (map_at_default TypeInfo.empty L ctx3.store_to_typeinfo) R)
              ctx3.store_to_typeinfo
          var_types := set_in_back L R ctx3.var_types } := by
  unfold check_tainted_store
  simp only [hrhs, hne, hlhs, hL, hE, Bool.false_eq_true, if_false, if_true]
  by_cases hd : hdr.typeinfo_ne R E = true
  · simp only [hd, if_true]
    cases h1 : map_find (last_unit R.units) ctx2.id_to_unitname with
    | none => simp
    | some n1 =>
      cases h2 : map_find (last_unit E.units) ctx2.id_to_unitname with
      | none => simp
      | some n2 =>
        simp only [Option.some.injEq]
        constructor
        · intro h; exact ⟨_, ⟨n1, n2, rfl, rfl, rfl⟩, h.symm⟩
        · rintro ⟨ctx3, ⟨m1, m2, e1, e2, rfl⟩, rfl⟩
          cases e1; cases e2; rfl
  · simp only [hd, if_false, Bool.false_eq_true]
    simp only [Option.some.injEq]
    constructor
    · intro h; exact ⟨_, rfl, h.symm⟩
    · rintro ⟨ctx3, rfl, rfl⟩; rfl

/-- C2: when `check_tainted_store` types the right-hand side as `R` and the canonical
left-hand-side name `L` is an interesting write with prior type `E`, then: if `R` equals
`E` the handler returns and prints nothing; if `R` differs from `E` every return of the
handler has printed exactly one line, the "Incorrect store to variable L" line; and the
handler does return, with that line, whenever the two unit names are in `id_to_unitname`. -/
theorem check_tainted_store_prints_one_line_iff_types_differ (hdr : Headers) (cursor : Cursor) (ctx ctx1 ctx2 : ASTContext)
    (R E : TypeInfo) (L : String)
    (hrhs : store_rhs_type hdr cursor ctx = some (some R, ctx1))
    (hne : ctx1.var_types.isEmpty = false)
    (hlhs : store_lhs_name cursor ctx1 = some (L, ctx2))
    (hL : set_contains L ctx2.writes_to_variables_with_known_types = true)
    (hE : map_find L ctx2.prior_var_to_typeinfo = some E) :
    (hdr.typeinfo_ne R E = false →
      ∃ ctx', check_tainted_store hdr cursor ctx = some ctx' ∧ ctx'.cout = ctx.cout) ∧
    (hdr.typeinfo_ne R E = true → ∀ ctx', check_tainted_store hdr cursor ctx = some ctx' →
      ∃ n1 n2, ctx'.cout = ctx.cout ++
        [incorrect_store_line L cursor.data.file cursor.data.line n1 n2]) ∧
    (hdr.typeinfo_ne R E = true → ∀ n1 n2,
      map_find (last_unit R.units) ctx.id_to_unitname = some n1 →
      map_find (last_unit E.units) ctx.id_to_unitname = some n2 →
      ∃ ctx', check_tainted_store hdr cursor ctx = some ctx' ∧
        ctx'.cout = ctx.cout ++
          [incorrect_store_line L cursor.data.file cursor.data.line n1 n2]) := by
  have f1 := typer_frame_fields (store_rhs_type_frame hdr cursor ctx _ hrhs).1
  have f2 := typer_frame_fields (store_lhs_name_frame cursor ctx1 _ hlhs).1
  have hcout : ctx2.cout = ctx.cout := f2.1.trans f1.1
  have hid : ctx2.id_to_unitname = ctx.id_to_unitname := f2.2.1.trans f1.2.1
  have hchar := check_tainted_store_interesting hdr cursor ctx ctx1 ctx2 R E L hrhs hne hlhs hL hE
  refine ⟨fun hd => ?_, fun hd ctx' h => ?_, fun hd n1 n2 h1 h2 => ?_⟩
  · refine ⟨_, (hchar _).2 ⟨ctx2, by simp [hd], rfl⟩, hcout⟩
  · obtain ⟨ctx3, h3, rfl⟩ := (hchar ctx').1 h
    rw [if_pos hd] at h3
    obtain ⟨n1, n2, _, _, rfl⟩ := h3
    exact ⟨n1, n2, by simp [hcout]⟩
  · refine ⟨_, (hchar _).2 ⟨_, by rw [if_pos hd]; exact ⟨n1, n2, hid ▸ h1, hid ▸ h2, rfl⟩, rfl⟩, ?_⟩
    simp [hcout]

/-- Instance of C2: `altitude_cm = meters_value;` stores metres into centimetres. -/
theorem check_tainted_store_prints_one_line_iff_types_differ_witness :
    ∃ ctx', check_tainted_store sample_headers sample_store sample_method_ctx = some ctx' ∧
      ctx'.cout = sample_method_ctx.cout ++
        [incorrect_store_line "Class::altitude_cm" "foo.cpp" 12 "meter" "centimeter"] :=
  (check_tainted_store_prints_one_line_iff_types_differ sample_headers sample_store sample_method_ctx
    { sample_method_ctx with ctaw_childno := 1 }
    { sample_method_ctx with ctaw_childno := 1, variables_file := ["Class::altitude_cm"] }
    sample_meter sample_centimeter "Class::altitude_cm"
    (by decide!) (by decide!) (by decide!) (by decide!) (by decide!)).2.2 (by decide!)
    "meter" "centimeter" (by decide!) (by decide!)

/-- C5 at `altitude_cm = 100;`: the right-hand side is typed as the integer literal, whose
units set is empty, and the diagnostic says "Got type meter": the loop over the empty set
leaves `rhs_type = 0`, and unit ID 0 is named `meter`. -/
theorem incorrect_store_names_unit_zero_for_empty_units :
    store_rhs_type sample_headers sample_literal_store sample_method_ctx =
        some (some (literal_typeinfo
          (Cursor.mk { kind := CXCursorKind.IntegerLiteral, tokens := ["100"], eval_as_int := 100 }
            [] [])), { sample_method_ctx with ctaw_childno := 1 }) ∧
      (literal_typeinfo
          (Cursor.mk { kind := CXCursorKind.IntegerLiteral, tokens := ["100"], eval_as_int := 100 }
            [] [])).units = [] ∧
      map_find 0 sample_method_ctx.id_to_unitname = some "meter" ∧
      (check_tainted_store sample_headers sample_literal_store sample_method_ctx).map
          (fun c => c.cout) =
        some ["Incorrect store to variable Class::altitude_cm in foo.cpp line 13. " ++
          "Got type meter, expected type centimeter."] := by
  decide!

/-! ## The function walk -/

theorem view_rel_refl (a : WalkView) : ViewRel a a :=
  ⟨rfl, rfl, rfl, id, fun _ h => h, fun h => Or.inl h, [], by simp, by simp⟩

theorem view_rel_trans {a b c : WalkView} (h1 : ViewRel a b) (h2 : ViewRel b c) : ViewRel a c := by
  refine ⟨h2.tables.trans h1.tables, h2.usr.trans h1.usr, h2.fn.trans h1.fn,
    fun h => h2.mav (h1.mav h), fun u h => h2.seen u (h1.seen u h), fun h => ?_, ?_⟩
  · rcases h2.defn h with h' | h'
    · rcases h1.defn h' with h'' | h''
      · exact Or.inl h''
      · exact Or.inr (h2.seen _ h'')
    · exact Or.inr (h1.usr ▸ h')
  · obtain ⟨l1, e1, w1⟩ := h1.cout
    obtain ⟨l2, e2, w2⟩ := h2.cout
    refine ⟨l1 ++ l2, by rw [e2, e1, List.append_assoc], fun x hx => ?_⟩
    rcases List.mem_append.1 hx with h | h
    · exact w1 x h
    · exact w2 x h

theorem walk_rel_refl (a : ASTContext) : WalkRel a a := view_rel_refl _

theorem walk_rel_trans {a b c : ASTContext} (h1 : WalkRel a b) (h2 : WalkRel b c) : WalkRel a c :=
  view_rel_trans h1 h2

theorem walk_rel_of_view_eq {a b : ASTContext} (h : b.walk_view = a.walk_view) : WalkRel a b := by
  unfold WalkRel; rw [h]; exact view_rel_refl _

theorem walk_view_of_typer_frame {a b : ASTContext} (h : b.typer_frame = a.typer_frame) :
    b.walk_view = a.walk_view := by
  have := congrArg ASTContext.walk_view h
  exact this

theorem check_mavlink_rel (c : Cursor) (ctx : ASTContext) r
    (h : clang_visitChildren check_mavlink c ctx = some r) :
    r.2.mav_frame = ctx.mav_frame ∧ (ctx.had_mav_constraint = true → r.2.had_mav_constraint = true) := by
  refine clang_visitChildren_rel check_mavlink
    (fun a b => b.mav_frame = a.mav_frame ∧ (a.had_mav_constraint = true → b.had_mav_constraint = true))
    (fun _ => ⟨rfl, id⟩) (fun _ _ _ h1 h2 => ⟨h2.1.trans h1.1, fun h => h2.2 (h1.2 h)⟩) ?_ c ctx r h
  intro self c parent ctx r _ h
  unfold check_mavlink at h
  dsimp only at h
  repeat' split at h
  all_goals first
    | (simp at h; done)
    | (simp only [Option.some.injEq] at h; subst h; exact ⟨rfl, fun _ => rfl⟩)
    | (simp only [Option.some.injEq] at h; subst h; exact ⟨rfl, id⟩)

theorem walk_rel_of_mav {a b : ASTContext} (h : b.mav_frame = a.mav_frame)
    (hm : a.had_mav_constraint = true → b.had_mav_constraint = true) : WalkRel a b := by
  have e1 := congrArg ASTContext.types_to_frame_field h
  have e2 := congrArg ASTContext.current_usr h
  have e3 := congrArg ASTContext.current_fn h
  have e4 := congrArg ASTContext.seen_definitions h
  have e5 := congrArg ASTContext.had_fn_definition h
  have e6 := congrArg ASTContext.cout h
  exact ⟨e1, e2, e3, hm, fun u hu => by rw [show b.walk_view.seen_definitions = a.walk_view.seen_definitions from e4]; exact hu,
    fun hd => Or.inl (by rw [← show b.walk_view.had_fn_definition = a.walk_view.had_fn_definition from e5]; exact hd),
    [], by simpa using e6, by simp⟩

theorem store_frame_of_typer_frame {a b : ASTContext} (h : b.typer_frame = a.typer_frame) :
    b.store_frame = a.store_frame := by
  have := congrArg (fun c : ASTContext =>
    ({ c with cout := [], functions_with_intrinsic_variables := [], store_to_typeinfo := [] } : ASTContext)) h
  exact this

theorem cout_of_typer_frame {a b : ASTContext} (h : b.typer_frame = a.typer_frame) :
    b.cout = a.cout := by
  have := congrArg ASTContext.cout h
  exact this

theorem check_tainted_store_rel (hdr : Headers) (c : Cursor) (ctx ctx' : ASTContext)
    (h : check_tainted_store hdr c ctx = some ctx') :
    ctx'.store_frame = ctx.store_frame ∧
      (ctx'.cout = ctx.cout ∨
        ∃ name file line n1 n2, ctx'.cout = ctx.cout ++ [incorrect_store_line name file line n1 n2]) := by
  unfold check_tainted_store at h
  cases hr : store_rhs_type hdr c ctx with
  | none => simp [hr] at h
  | some p =>
    obtain ⟨o, ctx1⟩ := p
    have f1 : ctx1.typer_frame = ctx.typer_frame := (store_rhs_type_frame hdr c ctx _ hr).1
    have c1 : ctx1.cout = ctx.cout := cout_of_typer_frame f1
    cases o with
    | none =>
      simp only [hr, Option.some.injEq] at h
      subst h
      exact ⟨store_frame_of_typer_frame f1, Or.inl c1⟩
    | some rhs =>
      simp only [hr] at h
      split at h
      · simp only [Option.some.injEq] at h
        subst h
        exact ⟨store_frame_of_typer_frame f1, Or.inl c1⟩
      · cases hl : store_lhs_name c ctx1 with
        | none => simp [hl] at h
        | some q =>
          obtain ⟨name, ctx2⟩ := q
          have f2 : ctx2.typer_frame = ctx1.typer_frame := (store_lhs_name_frame c ctx1 _ hl).1
          have f12 : ctx2.typer_frame = ctx.typer_frame := f2.trans f1
          have c2 : ctx2.cout = ctx.cout := cout_of_typer_frame f12
          have s2 := store_frame_of_typer_frame f12
          simp only [hl] at h
          split at h
          · split at h
            · simp at h
            · rename_i E hE
              split at h
              · simp at h
              · rename_i ctx3 h3
                simp only [Option.some.injEq] at h
                subst h
                split at h3
                · split at h3
                  · rename_i n1 n2 _ _
                    simp only [Option.some.injEq] at h3
                    subst h3
                    exact ⟨s2, Or.inr ⟨name, c.data.file, c.data.line, n1, n2, by simp [c2]⟩⟩
                  · simp at h3
                · simp only [Option.some.injEq] at h3
                  subst h3
                  exact ⟨s2, Or.inl c2⟩
          · simp only [Option.some.injEq] at h
            subst h
            exact ⟨s2, Or.inl c2⟩

theorem walk_rel_of_store {a b : ASTContext} (h : b.store_frame = a.store_frame)
    (hc : ∃ l, b.cout = a.cout ++ l ∧ ∀ x ∈ l, walker_line x) : WalkRel a b := by
  have e1 := congrArg ASTContext.types_to_frame_field h
  have e2 := congrArg ASTContext.current_usr h
  have e3 := congrArg ASTContext.current_fn h
  have e4 := congrArg ASTContext.seen_definitions h
  have e5 := congrArg ASTContext.had_fn_definition h
  have e6 := congrArg ASTContext.had_mav_constraint h
  exact ⟨e1, e2, e3,
    fun hm => by rw [show b.walk_view.had_mav_constraint = a.walk_view.had_mav_constraint from e6]; exact hm,
    fun u hu => by rw [show b.walk_view.seen_definitions = a.walk_view.seen_definitions from e4]; exact hu,
    fun hd => Or.inl (by rw [← show b.walk_view.had_fn_definition = a.walk_view.had_fn_definition from e5]; exact hd),
    hc⟩

theorem walk_rel_of_cout {a b : ASTContext} (x : String) (hx : walker_line x)
    (h : b.walk_view = { a.walk_view with cout := a.cout ++ [x] }) : WalkRel a b := by
  unfold WalkRel
  rw [h]
  exact ⟨rfl, rfl, rfl, id, fun _ h => h, fun h => Or.inl h, [x], rfl, by simpa using hx⟩

theorem walk_if_condition_rel (cursor : Cursor) (ctx : ASTContext) r
    (h : walk_if_condition cursor ctx = some r) : WalkRel ctx r.2 := by
  unfold walk_if_condition at h
  dsimp only at h
  repeat' split at h
  all_goals first
    | (simp at h; done)
    | (simp only [Option.some.injEq] at h; subst h; exact walk_rel_of_view_eq rfl)
    | (simp only [Option.map_eq_some'] at h
       obtain ⟨a, ha, rfl⟩ := h
       have := check_mavlink_rel _ _ _ ha
       have r1 : WalkRel ctx { ctx with constraint := ConstraintType.UNCONSTRAINED } :=
         walk_rel_of_view_eq rfl
       exact walk_rel_trans r1 (walk_rel_of_mav this.1 this.2))

theorem walk_switch_selector_rel (cursor : Cursor) (ctx : ASTContext) r
    (h : walk_switch_selector cursor ctx = some r) : WalkRel ctx r.2 := by
  unfold walk_switch_selector at h
  simp only [Option.map_eq_some'] at h
  obtain ⟨a, ha, rfl⟩ := h
  have := check_mavlink_rel _ _ _ ha
  have r1 : WalkRel ctx { ctx with constraint := ConstraintType.UNCONSTRAINED } :=
    walk_rel_of_view_eq rfl
  exact walk_rel_trans r1 (walk_rel_of_mav this.1 this.2)

theorem close_scope_view (ctx : ASTContext) r (h : close_scope ctx = some r) :
    r.2.walk_view = ctx.walk_view := by
  unfold close_scope at h
  repeat' split at h
  all_goals first
    | (simp at h; done)
    | (simp only [Option.some.injEq] at h; subst h; rfl)

theorem close_switch_scope_view (ctx : ASTContext) r (h : close_switch_scope ctx = some r) :
    r.2.walk_view = ctx.walk_view := by
  unfold close_switch_scope at h
  repeat' split at h
  all_goals first
    | (simp at h; done)
    | (simp only [Option.some.injEq] at h; subst h; rfl)

theorem walk_if_stmt_rel (self : ASTContext → Option (Bool × ASTContext)) (ctx : ASTContext) r
    (hself : ∀ s1 r1, self s1 = some r1 → WalkRel s1 r1.2)
    (h : walk_if_stmt self ctx = some r) : WalkRel ctx r.2 := by
  unfold walk_if_stmt at h
  dsimp only at h
  split at h
  · simp at h
  · rename_i b ctx1 hq
    have r1 : WalkRel ctx ctx1 := hself _ _ hq
    exact walk_rel_trans r1 (walk_rel_of_view_eq (close_scope_view _ _ h))

theorem walk_loop_stmt_rel (self : ASTContext → Option (Bool × ASTContext)) (ctx : ASTContext) r
    (hself : ∀ s1 r1, self s1 = some r1 → WalkRel s1 r1.2)
    (h : walk_loop_stmt self ctx = some r) : WalkRel ctx r.2 := by
  unfold walk_loop_stmt at h
  dsimp only at h
  split at h
  · simp at h
  · rename_i b ctx1 hq
    have r1 : WalkRel ctx ctx1 := hself _ _ hq
    exact walk_rel_trans r1 (walk_rel_of_view_eq (close_scope_view _ _ h))

theorem walk_break_stmt_rel (ctx : ASTContext) r (h : walk_break_stmt ctx = some r) :
    WalkRel ctx r.2 := by
  unfold walk_break_stmt at h
  split at h
  · simp at h
  · simp only [Option.some.injEq] at h; subst h; exact walk_rel_of_view_eq rfl

theorem print_frame_switch_rel (ctx : ASTContext) : WalkRel ctx (print_frame_switch ctx) := by
  unfold print_frame_switch
  split
  · exact walk_rel_of_cout frame_switch_line (Or.inl rfl) rfl
  · exact walk_rel_refl _

theorem walk_switch_stmt_rel (self : ASTContext → Option (Bool × ASTContext)) (ctx : ASTContext) r
    (hself : ∀ s1 r1, self s1 = some r1 → WalkRel s1 r1.2)
    (h : walk_switch_stmt self ctx = some r) : WalkRel ctx r.2 := by
  unfold walk_switch_stmt at h
  split at h
  · simp at h
  · rename_i b ctx1 hq
    dsimp only at h
    split at h
    · simp at h
    · rename_i b2 ctx2 hq2
      have r1 : WalkRel ctx ctx1 := hself _ _ hq
      have r2 : WalkRel ctx1 (print_frame_switch ctx1) := print_frame_switch_rel ctx1
      have r3 : WalkRel (print_frame_switch ctx1) ctx2 := hself _ _ hq2
      exact walk_rel_trans r1 (walk_rel_trans r2 (walk_rel_trans r3
        (walk_rel_of_view_eq (close_switch_scope_view _ _ h))))

theorem mark_var_decl_view (cursor : Cursor) (ctx : ASTContext) :
    (mark_var_decl cursor ctx).walk_view = ctx.walk_view := by
  unfold mark_var_decl
  dsimp only
  repeat' split
  all_goals rfl

theorem walk_var_decl_rel (hdr : Headers) (cursor : Cursor) (ctx : ASTContext) r
    (h : walk_var_decl hdr cursor ctx = some r) : WalkRel ctx r.2 := by
  unfold walk_var_decl at h
  split at h
  · simp at h
  · rename_i ctx1 hq
    simp only [Option.some.injEq] at h; subst h
    exact walk_rel_of_view_eq ((mark_var_decl_view _ _).trans
      (walk_view_of_typer_frame (check_tainted_decl_frame hdr _ _ _ hq)))

theorem check_tainted_store_walkrel (hdr : Headers) (c : Cursor) (ctx ctx' : ASTContext)
    (h : check_tainted_store hdr c ctx = some ctx') : WalkRel ctx ctx' := by
  obtain ⟨hf, hc⟩ := check_tainted_store_rel hdr c ctx ctx' h
  refine walk_rel_of_store hf ?_
  rcases hc with hc | ⟨name, file, line, n1, n2, hc⟩
  · exact ⟨[], by simpa using hc, by simp⟩
  · exact ⟨_, hc, by
      intro x hx
      simp only [List.mem_singleton] at hx
      exact Or.inr (Or.inr ⟨name, file, line, n1, n2, hx⟩)⟩

theorem walk_binary_operator_rel (hdr : Headers) (cursor : Cursor) (ctx : ASTContext) r
    (h : walk_binary_operator hdr cursor ctx = some r) : WalkRel ctx r.2 := by
  unfold walk_binary_operator at h
  split at h
  · simp at h
  · split at h
    · dsimp only at h
      simp only [Option.map_eq_some'] at h
      obtain ⟨a, ha, rfl⟩ := h
      refine walk_rel_trans ?_ (check_tainted_store_walkrel hdr _ _ _ ha)
      split
      · exact walk_rel_of_cout _ (Or.inr (Or.inl rfl)) rfl
      · exact walk_rel_refl _
    · simp only [Option.some.injEq] at h; subst h; exact walk_rel_refl _

theorem walk_call_expr_rel (hdr : Headers) (cursor : Cursor) (ctx : ASTContext) r
    (h : walk_call_expr hdr cursor ctx = some r) : WalkRel ctx r.2 := by
  unfold walk_call_expr at h
  dsimp only at h
  split at h
  · simp only [Option.map_eq_some'] at h
    obtain ⟨a, ha, rfl⟩ := h
    exact check_tainted_store_walkrel hdr _ _ _ ha
  · split at h
    · split at h
      · simp at h
      · simp only [Option.some.injEq] at h; subst h; exact walk_rel_of_view_eq rfl
    · simp only [Option.some.injEq] at h; subst h; exact walk_rel_refl _

theorem walk_parm_decl_rel (hdr : Headers) (cursor : Cursor) (ctx : ASTContext) r
    (h : walk_parm_decl hdr cursor ctx = some r) : WalkRel ctx r.2 := by
  unfold walk_parm_decl at h
  dsimp only at h
  split at h
  · simp at h
  · rename_i ctx1 hq
    simp only [Option.some.injEq] at h; subst h
    refine walk_rel_of_view_eq ?_
    split at hq
    · unfold add_intrinsic_param at hq
      dsimp only at hq
      split at hq
      · simp at hq
      · simp only [Option.some.injEq] at hq; subst hq; rfl
    · simp only [Option.some.injEq] at hq; subst hq
      unfold add_plain_param add_unknown_param
      dsimp only
      split <;> rfl

theorem walk_compound_stmt_rel (ctx : ASTContext) : WalkRel ctx (walk_compound_stmt ctx) := by
  unfold walk_compound_stmt
  split
  · dsimp only
    split
    · refine ⟨rfl, rfl, rfl, id, fun u hu => ?_, fun _ => Or.inr ?_, [], by simp [ASTContext.walk_view], by simp⟩
      · exact (mem_set_insert _ _ _).2 (Or.inr hu)
      · exact (mem_set_insert _ _ _).2 (Or.inl rfl)
    · refine ⟨rfl, rfl, rfl, id, fun u hu => hu, fun hd => ?_, [], by simp [ASTContext.walk_view], by simp⟩
      simp [ASTContext.walk_view] at hd
  · exact walk_rel_refl _

theorem function_ast_walker_rel (hdr : Headers) (self : ASTContext → Option (Bool × ASTContext))
    (cursor parent : Cursor) (ctx : ASTContext) r
    (hself : ∀ s1 r1, self s1 = some r1 → WalkRel s1 r1.2)
    (h : function_ast_walker hdr self cursor parent ctx = some r) : WalkRel ctx r.2 := by
  unfold function_ast_walker at h
  by_cases h1 : ctx.constraint = ConstraintType.IFCONDITION
  · rw [if_pos h1] at h
    exact walk_if_condition_rel _ _ _ h
  rw [if_neg h1] at h
  by_cases h2 : ctx.constraint = ConstraintType.SWITCHSTMT
  · rw [if_pos h2] at h
    exact walk_switch_selector_rel _ _ _ h
  rw [if_neg h2] at h
  unfold walk_statement at h
  by_cases h3 : cursor.kind = CXCursorKind.IfStmt
  · rw [if_pos h3] at h
    exact walk_if_stmt_rel _ _ _ hself h
  rw [if_neg h3] at h
  by_cases h4 : cursor.kind = CXCursorKind.ForStmt ∨ cursor.kind = CXCursorKind.WhileStmt
  · rw [if_pos h4] at h
    exact walk_loop_stmt_rel _ _ _ hself h
  rw [if_neg h4] at h
  by_cases h5 : cursor.kind = CXCursorKind.BreakStmt
  · rw [if_pos h5] at h
    exact walk_break_stmt_rel _ _ h
  rw [if_neg h5] at h
  by_cases h6 : cursor.kind = CXCursorKind.SwitchStmt
  · rw [if_pos h6] at h
    exact walk_switch_stmt_rel _ _ _ hself h
  rw [if_neg h6] at h
  by_cases h7 : cursor.kind = CXCursorKind.VarDecl
  · rw [if_pos h7] at h
    exact walk_var_decl_rel _ _ _ _ h
  rw [if_neg h7] at h
  by_cases h8 : cursor.kind = CXCursorKind.BinaryOperator
  · rw [if_pos h8] at h
    exact walk_binary_operator_rel _ _ _ _ h
  rw [if_neg h8] at h
  by_cases h9 : cursor.kind = CXCursorKind.CallExpr
  · rw [if_pos h9] at h
    exact walk_call_expr_rel _ _ _ _ h
  rw [if_neg h9] at h
  by_cases h10 : cursor.kind = CXCursorKind.ParmDecl
  · rw [if_pos h10] at h
    exact walk_parm_decl_rel _ _ _ _ h
  rw [if_neg h10] at h
  by_cases h11 : cursor.kind = CXCursorKind.CompoundStmt
  · rw [if_pos h11] at h
    simp only [Option.some.injEq] at h; subst h; exact walk_compound_stmt_rel _
  rw [if_neg h11] at h
  simp only [Option.some.injEq] at h; subst h; exact walk_rel_refl _

/-- Every traversal of the function walker respects `WalkRel`. -/
theorem function_walk_rel (hdr : Headers) (cs : List Cursor) (parent : Cursor) (ctx : ASTContext) r
    (h : visit_list (function_ast_walker hdr) parent cs ctx = some r) : WalkRel ctx r.2 :=
  visit_list_rel (function_ast_walker hdr) WalkRel walk_rel_refl (fun _ _ _ => walk_rel_trans)
    (fun self c parent s r hs h => function_ast_walker_rel hdr self c parent s r hs h) cs parent ctx r h

theorem bug_line_head (fn : String) : (bug_line fn).data.head? = some 'B' := by
  simp [bug_line, String.data_append]

theorem incorrect_store_line_head (name file : String) (line : Nat) (n1 n2 : String) :
    (incorrect_store_line name file line n1 n2).data.head? = some 'I' := by
  simp [incorrect_store_line, String.data_append]

theorem walker_line_ne_bug_line (x fn : String) (h : walker_line x) : x ≠ bug_line fn := by
  intro e
  have hb := bug_line_head fn
  rw [← e] at hb
  rcases h with h | h | ⟨name, file, line, n1, n2, h⟩
  · subst h; revert hb; decide
  · subst h; revert hb; decide
  · subst h; rw [incorrect_store_line_head] at hb; revert hb; decide

theorem walker_line_ne_frame_switch_line (name file : String) (line : Nat) (n1 n2 : String) :
    incorrect_store_line name file line n1 n2 ≠ frame_switch_line := by
  intro e
  have hb := incorrect_store_line_head name file line n1 n2
  rw [e] at hb
  revert hb; decide

theorem ast_walker_enter_rel (cursor : Cursor) (ctx : ASTContext) :
    (ast_walker_enter cursor ctx).had_fn_definition = false ∧
    (ast_walker_enter cursor ctx).had_mav_constraint = false ∧
    (ast_walker_enter cursor ctx).had_taint = false ∧
    (ast_walker_enter cursor ctx).current_usr = cursor.data.usr ∧
    (ast_walker_enter cursor ctx).seen_definitions = ctx.seen_definitions ∧
    (ast_walker_enter cursor ctx).constraint = ctx.constraint ∧
    (ast_walker_enter cursor ctx).types_to_frame_field = ctx.types_to_frame_field ∧
    ((ast_walker_enter cursor ctx).cout = ctx.cout ∨
      (ast_walker_enter cursor ctx).cout = ctx.cout ++ ["working in InitialiseVariables"]) := by
  unfold ast_walker_enter
  dsimp only
  repeat' split
  all_goals simp
theorem ast_walker_exit_facts (cursor : Cursor) (n : Nat) (walked c : ASTContext)
    (h : ast_walker_exit cursor n walked = some c) :
    c.cout = walked.cout ++
        (if walked.had_taint = true ∧ walked.had_fn_definition = true ∧
            walked.had_mav_constraint = false then [bug_line cursor.data.spelling] else []) ∧
      c.had_mav_constraint = walked.had_mav_constraint ∧
      c.seen_definitions = walked.seen_definitions ∧
      c.had_fn_definition = walked.had_fn_definition ∧
      c.constraint = walked.constraint := by
  unfold ast_walker_exit at h
  dsimp only at h
  split at h
  · simp at h
  · simp only [Option.some.injEq] at h
    subst h
    dsimp only
    by_cases h1 : walked.had_taint = true ∧ walked.had_fn_definition = true ∧
        (!walked.had_mav_constraint) = true
    · have h1' : walked.had_taint = true ∧ walked.had_fn_definition = true ∧
          walked.had_mav_constraint = false := by simpa using h1
      rw [if_pos h1, if_pos h1']
      simp [h1'.2.1]
    · have h1' : ¬ (walked.had_taint = true ∧ walked.had_fn_definition = true ∧
          walked.had_mav_constraint = false) := by simpa using h1
      rw [if_neg h1, if_neg h1']
      split <;> simp

theorem ast_walker_walked (hdr : Headers) (self : ASTContext → Option (Bool × ASTContext))
    (cursor parent : Cursor) (ctx : ASTContext) r
    (hk : cursor.kind = CXCursorKind.FunctionDecl ∨ cursor.kind = CXCursorKind.CXXMethod)
    (hseen : set_contains cursor.data.usr ctx.seen_definitions = false)
    (h : ast_walker hdr self cursor parent ctx = some r) :
    ∃ walked, clang_visitChildren (function_ast_walker hdr) cursor (ast_walker_enter cursor ctx) =
        some walked ∧
      ast_walker_exit cursor ctx.semantic_context.length walked.2 = some r.2 ∧
      r.1 = CXChildVisitResult.Continue := by
  unfold ast_walker at h
  rw [if_pos hk] at h
  dsimp only at h
  rw [hseen] at h
  simp only [Bool.false_eq_true, if_false] at h
  split at h
  · simp at h
  · rename_i b walked hw
    simp only [Option.map_eq_some'] at h
    obtain ⟨c, hc, rfl⟩ := h
    exact ⟨(b, walked), hw, hc, rfl⟩

/-- The lines `ast_walker` writes for one function: possibly the `InitialiseVariables`
trace, then lines of the function walker, then the BUG line exactly when the walk ended
with `had_taint`, `had_fn_definition` and no `had_mav_constraint`. -/
theorem ast_walker_cout (hdr : Headers) (self : ASTContext → Option (Bool × ASTContext))
    (cursor parent : Cursor) (ctx : ASTContext) r walked
    (hk : cursor.kind = CXCursorKind.FunctionDecl ∨ cursor.kind = CXCursorKind.CXXMethod)
    (hseen : set_contains cursor.data.usr ctx.seen_definitions = false)
    (hw : clang_visitChildren (function_ast_walker hdr) cursor (ast_walker_enter cursor ctx) =
      some walked)
    (h : ast_walker hdr self cursor parent ctx = some r) :
    ∃ l, (∀ x ∈ l, ∀ fn, x ≠ bug_line fn) ∧
      r.2.cout = ctx.cout ++ l ++
        (if walked.2.had_taint = true ∧ walked.2.had_fn_definition = true ∧
            walked.2.had_mav_constraint = false then [bug_line cursor.data.spelling] else []) := by
  obtain ⟨walked', hw', hexit, _⟩ := ast_walker_walked hdr self cursor parent ctx r hk hseen h
  rw [hw] at hw'
  cases hw'
  have hrel := function_walk_rel hdr _ _ _ _ hw
  obtain ⟨l, hl, hlw⟩ := hrel.cout
  have hl' : walked.2.cout = (ast_walker_enter cursor ctx).cout ++ l := hl
  have hent := (ast_walker_enter_rel cursor ctx).2.2.2.2.2.2.2
  have hex := (ast_walker_exit_facts _ _ _ _ hexit).1
  rcases hent with he | he
  · refine ⟨l, fun x hx fn => walker_line_ne_bug_line x fn (hlw x hx), ?_⟩
    rw [hex, hl', he]
  · refine ⟨"working in InitialiseVariables" :: l, fun x hx fn => ?_, ?_⟩
    · rcases List.mem_cons.1 hx with rfl | hx
      · intro e
        have hb := bug_line_head fn
        rw [← e] at hb
        revert hb; decide
      · exact walker_line_ne_bug_line x fn (hlw x hx)
    · rw [hex, hl', he]; simp

theorem count_eq_zero_of_forall_ne {α : Type} [DecidableEq α] (a : α) (l : List α)
    (h : ∀ x ∈ l, x ≠ a) : l.count a = 0 :=
  List.count_eq_zero.2 (fun ha => h a ha rfl)

/-- C1 as amended: when the walk of a function not seen before sets `had_taint` (a
`VarDecl` of a framed message type is visited) and `had_fn_definition` and recognises no
frame-constraining predicate, `ast_walker` writes the BUG line of that function exactly
once. -/
theorem ast_walker_reports_tainted_unconstrained_function_once (hdr : Headers)
    (self : ASTContext → Option (Bool × ASTContext)) (cursor parent : Cursor) (ctx : ASTContext) r
    (hk : cursor.kind = CXCursorKind.FunctionDecl ∨ cursor.kind = CXCursorKind.CXXMethod)
    (hseen : set_contains cursor.data.usr ctx.seen_definitions = false)
    (hflags : walk_flags hdr cursor ctx = some (true, true, false))
    (h : ast_walker hdr self cursor parent ctx = some r) :
    ∃ l, r.2.cout = ctx.cout ++ l ∧ l.count (bug_line cursor.data.spelling) = 1 := by
  unfold walk_flags at hflags
  simp only [Option.map_eq_some'] at hflags
  obtain ⟨walked, hw, hf⟩ := hflags
  simp only [Prod.mk.injEq] at hf
  obtain ⟨l, hl, hc⟩ := ast_walker_cout hdr self cursor parent ctx r walked hk hseen hw h
  rw [if_pos ⟨hf.1, hf.2.1, hf.2.2⟩] at hc
  refine ⟨l ++ [bug_line cursor.data.spelling], by rw [hc, List.append_assoc], ?_⟩
  rw [List.count_append, count_eq_zero_of_forall_ne _ l (fun x hx => hl x hx _)]
  simp

/-- Instance of C1 as amended: `void g() { mavlink_msg_t m; }`. -/
theorem ast_walker_reports_tainted_unconstrained_function_once_witness :
    ∃ l, (ast_walker sample_headers (fun _ => none) sample_fn_tainted sample_fn_tainted sample_ctx).map
          (fun r => r.2.cout) = some (sample_ctx.cout ++ l) ∧
      l.count (bug_line "g") = 1 := by
  have h : ast_walker sample_headers (fun _ => none) sample_fn_tainted sample_fn_tainted sample_ctx =
      some (CXChildVisitResult.Continue,
        match ast_walker sample_headers (fun _ => none) sample_fn_tainted sample_fn_tainted
            sample_ctx with
        | some r => r.2
        | none => sample_ctx) := by decide!
  obtain ⟨l, h1, h2⟩ := ast_walker_reports_tainted_unconstrained_function_once sample_headers
    (fun _ => none) sample_fn_tainted sample_fn_tainted sample_ctx _
    (by decide!) (by decide!) (by decide!) h
  exact ⟨l, by rw [h]; simpa using h1, h2⟩

/-- C1 fails for a framed parameter and for a message type without frame field: the walks
of `f(const mavlink_msg_t &p)` and of `h` with a local `gps_raw_t` put the function into
`functions_with_intrinsic_variables`, reach the body with a new USR and find no frame
predicate, and `ast_walker` prints nothing. -/
theorem intrinsic_touching_function_without_bug_line :
    (sample_fn_param.kind = CXCursorKind.FunctionDecl ∧
      set_contains sample_fn_param.data.usr sample_ctx.seen_definitions = false ∧
      walk_flags sample_headers sample_fn_param sample_ctx = some (false, true, false) ∧
      (ast_walker sample_headers (fun _ => none) sample_fn_param sample_fn_param sample_ctx).map
          (fun r => (set_contains "f" r.2.functions_with_intrinsic_variables, r.2.cout)) =
        some (true, [])) ∧
    (sample_fn_units_only.kind = CXCursorKind.FunctionDecl ∧
      set_contains sample_fn_units_only.data.usr sample_ctx.seen_definitions = false ∧
      walk_flags sample_headers sample_fn_units_only sample_ctx = some (false, true, false) ∧
      (ast_walker sample_headers (fun _ => none) sample_fn_units_only sample_fn_units_only
          sample_ctx).map
          (fun r => (set_contains "h" r.2.functions_with_intrinsic_variables, r.2.cout)) =
        some (true, [])) := by
  decide!

theorem set_contains_iff {x : String} {s : StdSet String} : set_contains x s = true ↔ x ∈ s := by
  simp [set_contains]

/-- C7: once a walk of a function has reached its body (`had_fn_definition` is set when
`ast_walker` returns), `ast_walker` skips every later cursor with the same USR, in any
context whose `seen_definitions` still holds what the first walk left: the context is
returned unchanged, so no summary table, `name_to_tu`, `functions_with_intrinsic_variables`
or `seen_definitions` entry is added or rewritten. -/
theorem ast_walker_skips_seen_definition (hdr : Headers) (self1 self2 : ASTContext → Option (Bool × ASTContext))
    (fn1 fn2 parent1 parent2 : Cursor) (ctx0 ctx2 : ASTContext) r1
    (hk1 : fn1.kind = CXCursorKind.FunctionDecl ∨ fn1.kind = CXCursorKind.CXXMethod)
    (hk2 : fn2.kind = CXCursorKind.FunctionDecl ∨ fn2.kind = CXCursorKind.CXXMethod)
    (husr : fn2.data.usr = fn1.data.usr)
    (h1 : ast_walker hdr self1 fn1 parent1 ctx0 = some r1)
    (hdef : r1.2.had_fn_definition = true)
    (hgrow : ∀ u, u ∈ r1.2.seen_definitions → u ∈ ctx2.seen_definitions) :
    ast_walker hdr self2 fn2 parent2 ctx2 = some (CXChildVisitResult.Continue, ctx2) := by
  have hin : fn1.data.usr ∈ r1.2.seen_definitions := by
    cases hs : set_contains fn1.data.usr ctx0.seen_definitions with
    | true =>
      unfold ast_walker at h1
      rw [if_pos hk1] at h1
      dsimp only at h1
      rw [hs] at h1
      simp only [if_true, Option.some.injEq] at h1
      subst h1
      exact set_contains_iff.1 hs
    | false =>
      obtain ⟨walked, hw, hexit, _⟩ := ast_walker_walked hdr self1 fn1 parent1 ctx0 r1 hk1 hs h1
      have hrel := function_walk_rel hdr _ _ _ _ hw
      have hent := ast_walker_enter_rel fn1 ctx0
      have hex := ast_walker_exit_facts _ _ _ _ hexit
      have hd : walked.2.had_fn_definition = true := by rw [← hex.2.2.2.1]; exact hdef
      rcases hrel.defn hd with h' | h'
      · have : (ast_walker_enter fn1 ctx0).had_fn_definition = true := h'
        rw [hent.1] at this
        exact absurd this (by simp)
      · have h'' : (ast_walker_enter fn1 ctx0).current_usr ∈ walked.2.seen_definitions := h'
        rw [hent.2.2.2.1] at h''
        rw [hex.2.2.1]
        exact h''
  unfold ast_walker
  rw [if_pos hk2]
  dsimp only
  rw [husr, set_contains_iff.2 (hgrow _ hin)]
  simp

/-- Instance of C7: `f` is met again in translation unit 1, whose summary table is empty. -/
theorem ast_walker_skips_seen_definition_witness :
    ast_walker sample_headers (fun _ => none) sample_fn_param sample_fn_param
        { sample_after_first_walk with fn_summary := [], translation_unit_no := 1 } =
      some (CXChildVisitResult.Continue,
        { sample_after_first_walk with fn_summary := [], translation_unit_no := 1 }) :=
  ast_walker_skips_seen_definition sample_headers (fun _ => none) (fun _ => none)
    sample_fn_param sample_fn_param sample_fn_param sample_fn_param sample_ctx
    { sample_after_first_walk with fn_summary := [], translation_unit_no := 1 }
    (CXChildVisitResult.Continue, sample_after_first_walk)
    (by decide!) (by decide!) rfl (by decide!) (by decide!) (fun _ h => h)

/-! ## Frame-constraining predicates -/

theorem plain_step_of_view_eq {a b : ASTContext} (hv : b.walk_view = a.walk_view)
    (hc : b.constraint = a.constraint) : PlainStep a b :=
  ⟨walk_rel_of_view_eq hv, hc, [], by
    have := congrArg WalkView.cout hv
    simpa using this, by simp⟩

theorem plain_step_refl (a : ASTContext) : PlainStep a a := plain_step_of_view_eq rfl rfl

theorem plain_step_trans {a b c : ASTContext} (h1 : PlainStep a b) (h2 : PlainStep b c) :
    PlainStep a c := by
  obtain ⟨r1, c1, l1, e1, n1⟩ := h1
  obtain ⟨r2, c2, l2, e2, n2⟩ := h2
  refine ⟨walk_rel_trans r1 r2, c2.trans c1, l1 ++ l2, by rw [e2, e1, List.append_assoc], ?_⟩
  simp [n1, n2]

theorem constraint_of_typer_frame {a b : ASTContext} (h : b.typer_frame = a.typer_frame) :
    b.constraint = a.constraint := by
  have := congrArg ASTContext.constraint h
  exact this

theorem constraint_of_store_frame {a b : ASTContext} (h : b.store_frame = a.store_frame) :
    b.constraint = a.constraint := by
  have := congrArg ASTContext.constraint h
  exact this

theorem constraint_of_mav_frame {a b : ASTContext} (h : b.mav_frame = a.mav_frame) :
    b.constraint = a.constraint ∧ b.cout = a.cout := by
  have h1 := congrArg ASTContext.constraint h
  have h2 := congrArg ASTContext.cout h
  exact ⟨h1, h2⟩

theorem check_tainted_store_plain (hdr : Headers) (c : Cursor) (ctx ctx' : ASTContext)
    (h : check_tainted_store hdr c ctx = some ctx') : PlainStep ctx ctx' := by
  obtain ⟨hf, hc⟩ := check_tainted_store_rel hdr c ctx ctx' h
  refine ⟨check_tainted_store_walkrel hdr c ctx ctx' h, constraint_of_store_frame hf, ?_⟩
  rcases hc with hc | ⟨name, file, line, n1, n2, hc⟩
  · exact ⟨[], by simpa using hc, by simp⟩
  · exact ⟨_, hc, by
      simp only [List.mem_singleton]
      exact fun e => walker_line_ne_frame_switch_line name file line n1 n2 e.symm⟩

theorem walk_break_stmt_plain (ctx : ASTContext) r (h : walk_break_stmt ctx = some r) :
    r.1 = CXChildVisitResult.Recurse ∧ PlainStep ctx r.2 := by
  unfold walk_break_stmt at h
  split at h
  · simp at h
  · simp only [Option.some.injEq] at h; subst h
    exact ⟨rfl, plain_step_of_view_eq rfl rfl⟩

theorem mark_var_decl_constraint (cursor : Cursor) (ctx : ASTContext) :
    (mark_var_decl cursor ctx).constraint = ctx.constraint := by
  unfold mark_var_decl
  dsimp only
  repeat' split
  all_goals rfl

theorem walk_var_decl_plain (hdr : Headers) (cursor : Cursor) (ctx : ASTContext) r
    (h : walk_var_decl hdr cursor ctx = some r) :
    r.1 = CXChildVisitResult.Recurse ∧ PlainStep ctx r.2 := by
  unfold walk_var_decl at h
  split at h
  · simp at h
  · rename_i ctx1 hq
    simp only [Option.some.injEq] at h; subst h
    have hf := check_tainted_decl_frame hdr _ _ _ hq
    exact ⟨rfl, plain_step_of_view_eq
      ((mark_var_decl_view _ _).trans (walk_view_of_typer_frame hf))
      ((mark_var_decl_constraint _ _).trans (constraint_of_typer_frame hf))⟩

theorem walk_binary_operator_plain (hdr : Headers) (cursor : Cursor) (ctx : ASTContext) r
    (h : walk_binary_operator hdr cursor ctx = some r) :
    r.1 = CXChildVisitResult.Recurse ∧ PlainStep ctx r.2 := by
  unfold walk_binary_operator at h
  split at h
  · simp at h
  · split at h
    · dsimp only at h
      simp only [Option.map_eq_some'] at h
      obtain ⟨a, ha, rfl⟩ := h
      refine ⟨rfl, plain_step_trans ?_ (check_tainted_store_plain hdr _ _ _ ha)⟩
      split
      · exact ⟨walk_rel_of_cout _ (Or.inr (Or.inl rfl)) rfl, rfl, _, rfl, by decide⟩
      · exact plain_step_refl _
    · simp only [Option.some.injEq] at h; subst h; exact ⟨rfl, plain_step_refl _⟩

theorem walk_call_expr_plain (hdr : Headers) (cursor : Cursor) (ctx : ASTContext) r
    (h : walk_call_expr hdr cursor ctx = some r) :
    r.1 = CXChildVisitResult.Recurse ∧ PlainStep ctx r.2 := by
  unfold walk_call_expr at h
  dsimp only at h
  split at h
  · simp only [Option.map_eq_some'] at h
    obtain ⟨a, ha, rfl⟩ := h
    exact ⟨rfl, check_tainted_store_plain hdr _ _ _ ha⟩
  · split at h
    · split at h
      · simp at h
      · simp only [Option.some.injEq] at h; subst h
        exact ⟨rfl, plain_step_of_view_eq rfl rfl⟩
    · simp only [Option.some.injEq] at h; subst h; exact ⟨rfl, plain_step_refl _⟩

theorem walk_parm_decl_plain (hdr : Headers) (cursor : Cursor) (ctx : ASTContext) r
    (h : walk_parm_decl hdr cursor ctx = some r) :
    r.1 = CXChildVisitResult.Recurse ∧ PlainStep ctx r.2 := by
  unfold walk_parm_decl at h
  dsimp only at h
  split at h
  · simp at h
  · rename_i ctx1 hq
    simp only [Option.some.injEq] at h; subst h
    refine ⟨rfl, ?_⟩
    split at hq
    · unfold add_intrinsic_param at hq
      dsimp only at hq
      split at hq
      · simp at hq
      · simp only [Option.some.injEq] at hq; subst hq; exact plain_step_of_view_eq rfl rfl
    · simp only [Option.some.injEq] at hq; subst hq
      unfold add_plain_param add_unknown_param
      dsimp only
      split <;> exact plain_step_of_view_eq rfl rfl

theorem walk_compound_stmt_plain (ctx : ASTContext) : PlainStep ctx (walk_compound_stmt ctx) := by
  refine ⟨walk_compound_stmt_rel ctx, ?_, [], ?_, by simp⟩
  · unfold walk_compound_stmt
    dsimp only
    repeat' split
    all_goals rfl
  · unfold walk_compound_stmt
    dsimp only
    repeat' split
    all_goals simp

theorem close_scope_facts (ctx : ASTContext) r (h : close_scope ctx = some r) :
    r.1 = CXChildVisitResult.Continue ∧ PlainStep ctx r.2 := by
  unfold close_scope at h
  repeat' split at h
  all_goals first
    | (simp at h; done)
    | (simp only [Option.some.injEq] at h; subst h; exact ⟨rfl, plain_step_of_view_eq rfl rfl⟩)

theorem close_switch_scope_facts (ctx : ASTContext) r (h : close_switch_scope ctx = some r) :
    r.1 = CXChildVisitResult.Continue ∧ PlainStep ctx r.2 := by
  unfold close_switch_scope at h
  repeat' split at h
  all_goals first
    | (simp at h; done)
    | (simp only [Option.some.injEq] at h; subst h; exact ⟨rfl, plain_step_of_view_eq rfl rfl⟩)

theorem walk_if_condition_facts (cursor : Cursor) (ctx : ASTContext) r
    (h : walk_if_condition cursor ctx = some r) :
    r.1 = CXChildVisitResult.Continue ∧ r.2.constraint = ConstraintType.UNCONSTRAINED ∧
      r.2.cout = ctx.cout := by
  unfold walk_if_condition at h
  dsimp only at h
  repeat' split at h
  all_goals first
    | (simp at h; done)
    | (simp only [Option.some.injEq] at h; subst h; exact ⟨rfl, rfl, rfl⟩)
    | (simp only [Option.map_eq_some'] at h
       obtain ⟨a, ha, rfl⟩ := h
       have := constraint_of_mav_frame (check_mavlink_rel _ _ _ ha).1
       exact ⟨rfl, this.1, this.2⟩)

theorem walk_switch_selector_facts (cursor : Cursor) (ctx : ASTContext) r
    (h : walk_switch_selector cursor ctx = some r) :
    r.1 = CXChildVisitResult.Break ∧ r.2.constraint = ConstraintType.UNCONSTRAINED ∧
      r.2.cout = ctx.cout := by
  unfold walk_switch_selector at h
  simp only [Option.map_eq_some'] at h
  obtain ⟨a, ha, rfl⟩ := h
  have := constraint_of_mav_frame (check_mavlink_rel _ _ _ ha).1
  exact ⟨rfl, this.1, this.2⟩

theorem function_ast_walker_if_condition (hdr : Headers)
    (self : ASTContext → Option (Bool × ASTContext)) (c parent : Cursor) (ctx : ASTContext)
    (hm : ctx.constraint = ConstraintType.IFCONDITION) :
    function_ast_walker hdr self c parent ctx = walk_if_condition c ctx := by
  unfold function_ast_walker
  rw [if_pos hm]

theorem function_ast_walker_switch_selector (hdr : Headers)
    (self : ASTContext → Option (Bool × ASTContext)) (c parent : Cursor) (ctx : ASTContext)
    (hm : ctx.constraint = ConstraintType.SWITCHSTMT) :
    function_ast_walker hdr self c parent ctx = walk_switch_selector c ctx := by
  unfold function_ast_walker
  rw [if_neg (by rw [hm]; decide), if_pos hm]

theorem function_ast_walker_statement (hdr : Headers)
    (self : ASTContext → Option (Bool × ASTContext)) (c parent : Cursor) (ctx : ASTContext)
    (hm : ctx.constraint = ConstraintType.UNCONSTRAINED) :
    function_ast_walker hdr self c parent ctx = walk_statement hdr self c ctx := by
  unfold function_ast_walker
  rw [if_neg (by rw [hm]; decide), if_neg (by rw [hm]; decide)]

theorem visit_node_if_condition (hdr : Headers) (parent c : Cursor) (ctx : ASTContext) res
    (hm : ctx.constraint = ConstraintType.IFCONDITION)
    (h : visit_node (function_ast_walker hdr) parent c ctx = some res) :
    res.1 = false ∧ walk_if_condition c ctx = some (CXChildVisitResult.Continue, res.2) := by
  rw [visit_node_eq, function_ast_walker_if_condition hdr _ _ _ _ hm] at h
  cases hw : walk_if_condition c ctx with
  | none => simp [hw] at h
  | some r =>
    obtain ⟨a, ctx1⟩ := r
    have ha : a = CXChildVisitResult.Continue := (walk_if_condition_facts c ctx _ hw).1
    subst ha
    simp only [hw, Option.some.injEq] at h
    subst h
    exact ⟨rfl, rfl⟩

theorem visit_node_switch_selector (hdr : Headers) (parent c : Cursor) (ctx : ASTContext) res
    (hm : ctx.constraint = ConstraintType.SWITCHSTMT)
    (h : visit_node (function_ast_walker hdr) parent c ctx = some res) :
    res.1 = true ∧ walk_switch_selector c ctx = some (CXChildVisitResult.Break, res.2) := by
  rw [visit_node_eq, function_ast_walker_switch_selector hdr _ _ _ _ hm] at h
  cases hw : walk_switch_selector c ctx with
  | none => simp [hw] at h
  | some r =>
    obtain ⟨a, ctx1⟩ := r
    have ha : a = CXChildVisitResult.Break := (walk_switch_selector_facts c ctx _ hw).1
    subst ha
    simp only [hw, Option.some.injEq] at h
    subst h
    exact ⟨rfl, rfl⟩

/-- What a visit of one cursor does when `constraint` is `UNCONSTRAINED`. -/
theorem visit_node_statement (hdr : Headers) (parent c : Cursor) (ctx : ASTContext) res
    (hU : ctx.constraint = ConstraintType.UNCONSTRAINED)
    (h : visit_node (function_ast_walker hdr) parent c ctx = some res) :
    (c.kind = CXCursorKind.IfStmt ∧ res.1 = false ∧ ∃ b1 ctx1,
        visit_list (function_ast_walker hdr) c c.children
          { ctx with constraint := ConstraintType.IFCONDITION, var_types := ctx.var_types ++ [[]] } =
          some (b1, ctx1) ∧ PlainStep ctx1 res.2) ∨
    (c.kind ≠ CXCursorKind.IfStmt ∧ c.kind ≠ CXCursorKind.SwitchStmt ∧ res.1 = false ∧ ∃ b1 ctx1,
        visit_list (function_ast_walker hdr) c c.children
          { ctx with var_types := ctx.var_types ++ [[]] } = some (b1, ctx1) ∧
        PlainStep ctx1 res.2) ∨
    (c.kind = CXCursorKind.SwitchStmt ∧ res.1 = false ∧ ∃ b1 ctx1 b2 ctx2,
        visit_list (function_ast_walker hdr) c c.children
          { ctx with constraint := ConstraintType.SWITCHSTMT } = some (b1, ctx1) ∧
        visit_list (function_ast_walker hdr) c c.children
          { print_frame_switch ctx1 with var_types := (print_frame_switch ctx1).var_types ++ [[]] } =
          some (b2, ctx2) ∧ PlainStep ctx2 res.2) ∨
    (c.kind ≠ CXCursorKind.IfStmt ∧ c.kind ≠ CXCursorKind.SwitchStmt ∧ ∃ ctx1,
        PlainStep ctx ctx1 ∧
        visit_list (function_ast_walker hdr) c c.children ctx1 = some res) := by
  rw [visit_node_eq, function_ast_walker_statement hdr _ _ _ _ hU] at h
  cases hw : walk_statement hdr (fun s' => visit_list (function_ast_walker hdr) c c.children s') c ctx with
  | none => simp [hw] at h
  | some r =>
    obtain ⟨a, ctx1⟩ := r
    rw [hw] at h
    unfold walk_statement at hw
    by_cases h3 : c.kind = CXCursorKind.IfStmt
    · rw [if_pos h3] at hw
      unfold walk_if_stmt at hw
      dsimp only at hw
      split at hw
      · simp at hw
      · rename_i b1 ctxa hq
        have hf := close_scope_facts _ _ hw
        have ha : a = CXChildVisitResult.Continue := hf.1
        subst ha
        simp only [Option.some.injEq] at h
        subst h
        exact Or.inl ⟨h3, rfl, b1, ctxa, hq, hf.2⟩
    rw [if_neg h3] at hw
    by_cases h4 : c.kind = CXCursorKind.ForStmt ∨ c.kind = CXCursorKind.WhileStmt
    · rw [if_pos h4] at hw
      unfold walk_loop_stmt at hw
      dsimp only at hw
      split at hw
      · simp at hw
      · rename_i b1 ctxa hq
        have hf := close_scope_facts _ _ hw
        have ha : a = CXChildVisitResult.Continue := hf.1
        subst ha
        simp only [Option.some.injEq] at h
        subst h
        have hns : c.kind ≠ CXCursorKind.SwitchStmt := by
          rcases h4 with h4 | h4 <;> rw [h4] <;> decide
        exact Or.inr (Or.inl ⟨h3, hns, rfl, b1, ctxa, hq, hf.2⟩)
    rw [if_neg h4] at hw
    by_cases h5 : c.kind = CXCursorKind.BreakStmt
    · rw [if_pos h5] at hw
      have hf := walk_break_stmt_plain _ _ hw
      have ha : a = CXChildVisitResult.Recurse := hf.1
      subst ha
      exact Or.inr (Or.inr (Or.inr ⟨h3, by rw [h5]; decide, ctx1, hf.2, h⟩))
    rw [if_neg h5] at hw
    by_cases h6 : c.kind = CXCursorKind.SwitchStmt
    · rw [if_pos h6] at hw
      unfold walk_switch_stmt at hw
      split at hw
      · simp at hw
      · rename_i b1 ctxa hq
        dsimp only at hw
        split at hw
        · simp at hw
        · rename_i b2 ctxb hq2
          have hf := close_switch_scope_facts _ _ hw
          have ha : a = CXChildVisitResult.Continue := hf.1
          subst ha
          simp only [Option.some.injEq] at h
          subst h
          exact Or.inr (Or.inr (Or.inl ⟨h6, rfl, b1, ctxa, b2, ctxb, hq, hq2, hf.2⟩))
    rw [if_neg h6] at hw
    by_cases h7 : c.kind = CXCursorKind.VarDecl
    · rw [if_pos h7] at hw
      have hf := walk_var_decl_plain _ _ _ _ hw
      have ha : a = CXChildVisitResult.Recurse := hf.1
      subst ha
      exact Or.inr (Or.inr (Or.inr ⟨h3, h6, ctx1, hf.2, h⟩))
    rw [if_neg h7] at hw
    by_cases h8 : c.kind = CXCursorKind.BinaryOperator
    · rw [if_pos h8] at hw
      have hf := walk_binary_operator_plain _ _ _ _ hw
      have ha : a = CXChildVisitResult.Recurse := hf.1
      subst ha
      exact Or.inr (Or.inr (Or.inr ⟨h3, h6, ctx1, hf.2, h⟩))
    rw [if_neg h8] at hw
    by_cases h9 : c.kind = CXCursorKind.CallExpr
    · rw [if_pos h9] at hw
      have hf := walk_call_expr_plain _ _ _ _ hw
      have ha : a = CXChildVisitResult.Recurse := hf.1
      subst ha
      exact Or.inr (Or.inr (Or.inr ⟨h3, h6, ctx1, hf.2, h⟩))
    rw [if_neg h9] at hw
    by_cases h10 : c.kind = CXCursorKind.ParmDecl
    · rw [if_pos h10] at hw
      have hf := walk_parm_decl_plain _ _ _ _ hw
      have ha : a = CXChildVisitResult.Recurse := hf.1
      subst ha
      exact Or.inr (Or.inr (Or.inr ⟨h3, h6, ctx1, hf.2, h⟩))
    rw [if_neg h10] at hw
    by_cases h11 : c.kind = CXCursorKind.CompoundStmt
    · rw [if_pos h11] at hw
      simp only [Option.some.injEq, Prod.mk.injEq] at hw
      obtain ⟨rfl, rfl⟩ := hw
      exact Or.inr (Or.inr (Or.inr ⟨h3, h6, _, walk_compound_stmt_plain ctx, h⟩))
    rw [if_neg h11] at hw
    simp only [Option.some.injEq, Prod.mk.injEq] at hw
    obtain ⟨rfl, rfl⟩ := hw
    exact Or.inr (Or.inr (Or.inr ⟨h3, h6, _, plain_step_refl _, h⟩))

theorem control_wf_mk (d : CursorData) (ch args : List Cursor)
    (h : (Cursor.mk d ch args).control_wf = true) :
    control_wf_list ch = true ∧
      (d.kind = CXCursorKind.IfStmt ∨ d.kind = CXCursorKind.SwitchStmt → ch ≠ []) := by
  rw [Cursor.control_wf] at h
  simp only [Bool.and_eq_true, Bool.or_eq_true, Bool.not_eq_true', decide_eq_false_iff_not] at h
  refine ⟨h.2, fun hk hnil => ?_⟩
  rcases h.1 with h1 | h1
  · exact h1 hk
  · simp [hnil] at h1

theorem control_wf_list_cons (c : Cursor) (cs : List Cursor)
    (h : control_wf_list (c :: cs) = true) : c.control_wf = true ∧ control_wf_list cs = true := by
  rw [control_wf_list] at h
  simpa using h

/-- In the mode `SWITCHSTMT` the traversal handles the first cursor only. -/
theorem visit_list_switch_selector (hdr : Headers) (parent c : Cursor) (cs : List Cursor)
    (ctx : ASTContext) res (hm : ctx.constraint = ConstraintType.SWITCHSTMT)
    (h : visit_list (function_ast_walker hdr) parent (c :: cs) ctx = some res) :
    res.1 = true ∧ walk_switch_selector c ctx = some (CXChildVisitResult.Break, res.2) := by
  rw [visit_list_cons] at h
  cases hn : visit_node (function_ast_walker hdr) parent c ctx with
  | none => simp [hn] at h
  | some r =>
    obtain ⟨b, s1⟩ := r
    have hf := visit_node_switch_selector hdr parent c ctx _ hm hn
    have hb : b = true := hf.1
    subst hb
    simp only [hn, Option.some.injEq] at h
    subst h
    exact ⟨rfl, hf.2⟩

/-- On a tree whose if and switch statements all have a child, a traversal that starts
with `constraint = UNCONSTRAINED` is never stopped and ends with `UNCONSTRAINED`. -/
theorem walk_keeps_unconstrained (hdr : Headers) :
    (∀ c : Cursor, c.control_wf = true → ∀ parent ctx res,
      ctx.constraint = ConstraintType.UNCONSTRAINED →
      visit_node (function_ast_walker hdr) parent c ctx = some res →
      res.1 = false ∧ res.2.constraint = ConstraintType.UNCONSTRAINED) ∧
    (∀ cs : List Cursor, control_wf_list cs = true →
      (∀ parent ctx res, ctx.constraint = ConstraintType.UNCONSTRAINED →
        visit_list (function_ast_walker hdr) parent cs ctx = some res →
        res.1 = false ∧ res.2.constraint = ConstraintType.UNCONSTRAINED) ∧
      (∀ parent ctx res, cs ≠ [] → ctx.constraint = ConstraintType.IFCONDITION →
        visit_list (function_ast_walker hdr) parent cs ctx = some res →
        res.1 = false ∧ res.2.constraint = ConstraintType.UNCONSTRAINED)) := by
  refine cursor_induction _ _ ?_ ?_ ?_
  · intro d ch args ih hwf parent ctx res hU h
    obtain ⟨hwch, hne⟩ := control_wf_mk d ch args hwf
    obtain ⟨ih1, ih2⟩ := ih hwch
    rcases visit_node_statement hdr parent _ ctx res hU h with
      ⟨hk, hb, b1, ctx1, hv, hp⟩ | ⟨_, _, hb, b1, ctx1, hv, hp⟩ |
      ⟨hk, hb, b1, ctx1, b2, ctx2, hv1, hv2, hp⟩ | ⟨_, _, ctx1, hp, hv⟩
    · have := ih2 _ _ _ (hne (Or.inl hk)) rfl hv
      exact ⟨hb, hp.2.1.trans this.2⟩
    · have := ih1 _ _ _ (by exact hU) hv
      exact ⟨hb, hp.2.1.trans this.2⟩
    · cases hch : ch with
      | nil => exact absurd hch (hne (Or.inr hk))
      | cons c0 cs0 =>
        simp only [Cursor.children] at hv1 hv2
        rw [hch] at hv1
        have hs := visit_list_switch_selector hdr _ c0 cs0 _ _ rfl hv1
        have hc1 : ctx1.constraint = ConstraintType.UNCONSTRAINED :=
          (walk_switch_selector_facts _ _ _ hs.2).2.1
        have hpc : (print_frame_switch ctx1).constraint = ConstraintType.UNCONSTRAINED := by
          unfold print_frame_switch; split <;> exact hc1
        have := ih1 _ _ _ (by exact hpc) hv2
        exact ⟨hb, hp.2.1.trans this.2⟩
    · exact ih1 _ _ _ (hp.2.1.trans hU) hv
  · intro _
    refine ⟨fun parent ctx res hU h => ?_, fun parent ctx res hne => absurd rfl hne⟩
    rw [visit_list_nil] at h
    simp only [Option.some.injEq] at h
    subst h
    exact ⟨rfl, hU⟩
  · intro c cs hc hcs hwf
    obtain ⟨hwc, hwcs⟩ := control_wf_list_cons c cs hwf
    obtain ⟨ih1, _⟩ := hcs hwcs
    refine ⟨fun parent ctx res hU h => ?_, fun parent ctx res _ hm h => ?_⟩
    · rw [visit_list_cons] at h
      cases hn : visit_node (function_ast_walker hdr) parent c ctx with
      | none => simp [hn] at h
      | some r =>
        obtain ⟨b, s1⟩ := r
        have hf := hc hwc parent ctx _ hU hn
        have hb : b = false := hf.1
        subst hb
        simp only [hn] at h
        exact ih1 _ _ _ hf.2 h
    · rw [visit_list_cons] at h
      cases hn : visit_node (function_ast_walker hdr) parent c ctx with
      | none => simp [hn] at h
      | some r =>
        obtain ⟨b, s1⟩ := r
        have hf := visit_node_if_condition hdr parent c ctx _ hm hn
        have hb : b = false := hf.1
        subst hb
        simp only [hn] at h
        exact ih1 _ _ _ (walk_if_condition_facts _ _ _ hf.2).2.1 h

theorem control_wf_children (c : Cursor) (h : c.control_wf = true) :
    control_wf_list c.children = true := by
  cases c with
  | mk d ch args => exact (control_wf_mk d ch args h).1

theorem in_walk_ne_nil {T : Cursor} {cs : List Cursor} (h : InWalk T cs) : cs ≠ [] := by
  cases h <;> simp

/-- C11: `get_var_typeinfo` returns the entry of `name` in the innermost scope that binds
it (the scope `m` with no binding of `name` in the scopes `above` it on the stack), and
returns nothing exactly when no scope of the stack binds `name`. -/
theorem get_var_typeinfo_returns_innermost_binding (name : String) (stack : List Scope) :
    (∀ v, get_var_typeinfo name stack = some v ↔
      ∃ below m above, stack = below ++ m :: above ∧ map_find name m = some v ∧
        ∀ m' ∈ above, map_find name m' = none) ∧
    (get_var_typeinfo name stack = none ↔ ∀ m ∈ stack, map_find name m = none) := by
  unfold get_var_typeinfo
  constructor
  · intro v
    rw [List.findSome?_eq_some_iff]
    constructor
    · rintro ⟨l1, a, l2, h, ha, hl⟩
      refine ⟨l2.reverse, a, l1.reverse, ?_, ha, fun m' hm => hl m' (List.mem_reverse.1 hm)⟩
      have := congrArg List.reverse h
      simpa using this
    · rintro ⟨below, m, above, h, hm, ha⟩
      refine ⟨above.reverse, m, below.reverse, ?_, hm, fun x hx => ha x (List.mem_reverse.1 hx)⟩
      rw [h]
      simp
  · rw [List.findSome?_eq_none_iff]
    simp

/-! ## Products without a dimension, prior types, switch and break scopes -/

/-- C12 fails: in `y = meters_value * gain;` and in `auto x = meters_value * gain;` the
right operand `gain` yields no TypeInfo, yet the typer gives the whole right-hand side the
TypeInfo of `meters_value`, dimension included, and the declaration binds `x` to it. -/
theorem product_with_untyped_operand_gets_dimension :
    get_binary_operator sample_untyped_product = some "*" ∧
    (clang_visitChildren (type_check_rhs sample_headers) sample_untyped_product
        (none, { sample_method_ctx with ctaw_childno := 0 })).map (fun r => r.2.1) = some none ∧
    (store_rhs_type sample_headers sample_untyped_product_store sample_method_ctx).map
        (fun r => r.1.bind TypeInfo.dimension) = some (some ⟨[1, 0, 0, 0, 0, 0, 0], 1, 1⟩) ∧
    (check_tainted_decl sample_headers sample_untyped_product_decl sample_method_ctx).map
        (fun c => (get_var_typeinfo "x" c.var_types).bind TypeInfo.dimension) =
      some (some ⟨[1, 0, 0, 0, 0, 0, 0], 1, 1⟩) := by
  decide!

/-- The `*` case of `type_check_rhs` when no product is formed. -/
theorem type_check_rhs_failed_product (hdr : Headers)
    (self : Option TypeInfo × ASTContext → Option (Bool × (Option TypeInfo × ASTContext)))
    (c parent : Cursor) (p : Option TypeInfo × ASTContext)
    (lhs_p rhs_p : Option TypeInfo) (bl br : Bool) (ctx1 ctx2 : ASTContext)
    (hn : p.2.ctaw_childno ≠ 0)
    (hk : c.kind = CXCursorKind.BinaryOperator) (hop : get_binary_operator c = some "*")
    (hl : self (none, p.2) = some (bl, (lhs_p, ctx1)))
    (hr : self (none, { ctx1 with ctaw_childno := 0 }) = some (br, (rhs_p, ctx2)))
    (hprod : product_typeinfo hdr lhs_p rhs_p = none) :
    type_check_rhs hdr self c parent p =
      some (CXChildVisitResult.Recurse, (p.1, { ctx2 with ctaw_childno := ctx1.ctaw_childno })) := by
  unfold type_check_rhs
  have hne : ¬ c.kind = CXCursorKind.DeclRefExpr := by rw [hk]; decide
  have hnc : ¬ c.kind = CXCursorKind.CallExpr := by rw [hk]; decide
  dsimp only
  rw [if_neg hn, if_neg hne, if_neg hnc, if_pos hk, hop]
  dsimp only
  rw [if_pos rfl, hl]
  dsimp only
  rw [hr]
  dsimp only
  rw [hprod]

/-- C12 as amended: at a binary `*` cursor whose left or right operand traversal yields no
TypeInfo or a TypeInfo without dimension, no product is formed. `type_check_rhs` leaves
`p->first` as it was, `check_tainted_decl_walker` binds nothing, and both return
`CXChildVisit_Recurse`, so the traversal goes on into the operands. -/
theorem product_without_dimension_recurses (hdr : Headers)
    (self : ASTContext → Option (Bool × ASTContext)) (c parent : Cursor) (ctx : ASTContext)
    (first lhs_p rhs_p : Option TypeInfo) (bl br : Bool) (ctx1 ctx2 : ASTContext)
    (hk : c.kind = CXCursorKind.BinaryOperator) (hop : get_binary_operator c = some "*")
    (hl : clang_visitChildren (type_check_rhs hdr) c (none, { ctx with ctaw_childno := 1 }) =
      some (bl, (lhs_p, ctx1)))
    (hr : clang_visitChildren (type_check_rhs hdr) c (none, { ctx1 with ctaw_childno := 0 }) =
      some (br, (rhs_p, ctx2)))
    (hnd : lhs_p.bind TypeInfo.dimension = none ∨ rhs_p.bind TypeInfo.dimension = none) :
    product_typeinfo hdr lhs_p rhs_p = none ∧
    type_check_rhs hdr (clang_visitChildren (type_check_rhs hdr) c) c parent
        (first, { ctx with ctaw_childno := 1 }) =
      some (CXChildVisitResult.Recurse, (first, { ctx2 with ctaw_childno := ctx1.ctaw_childno })) ∧
    check_tainted_decl_walker hdr self c parent ctx =
      some (CXChildVisitResult.Recurse, { ctx2 with ctaw_childno := ctx.ctaw_childno }) := by
  have hprod : product_typeinfo hdr lhs_p rhs_p = none := by
    unfold product_typeinfo
    cases lhs_p with
    | none => rfl
    | some l =>
      cases rhs_p with
      | none => rfl
      | some r =>
        cases hdl : l.dimension with
        | none => simp [hdl]
        | some dl =>
          cases hdr' : r.dimension with
          | none => simp [hdr']
          | some dr => simp [hdl, hdr'] at hnd
  refine ⟨hprod, ?_, ?_⟩
  · exact type_check_rhs_failed_product hdr _ c parent (first, { ctx with ctaw_childno := 1 })
      lhs_p rhs_p bl br ctx1 ctx2 (show (1 : Int) ≠ 0 by decide) hk hop hl hr hprod
  · unfold check_tainted_decl_walker
    have hne : ¬ c.kind = CXCursorKind.DeclRefExpr := by rw [hk]; decide
    have hnm : ¬ c.kind = CXCursorKind.MemberRefExpr := by rw [hk]; decide
    have hnc : ¬ c.kind = CXCursorKind.CallExpr := by rw [hk]; decide
    dsimp only
    rw [if_neg hne, if_neg hnm, if_neg hnc, if_pos hk, hop]
    dsimp only
    rw [if_pos rfl, hl]
    dsimp only
    rw [hr]
    dsimp only
    rw [hprod]
    unfold check_tainted_decl_walker_bind
    simp [show ("" : String).isEmpty = true from rfl]

/-- Instance of C12 as amended: the product `meters_value * gain` in the sample method. -/
theorem product_without_dimension_recurses_witness :
    product_typeinfo sample_headers (some sample_meter) none = none ∧
    type_check_rhs sample_headers
        (clang_visitChildren (type_check_rhs sample_headers) sample_untyped_product)
        sample_untyped_product sample_untyped_product_store
        (none, { sample_method_ctx with ctaw_childno := 1 }) =
      some (CXChildVisitResult.Recurse, (none, { sample_method_ctx with ctaw_childno := 1 })) ∧
    check_tainted_decl_walker sample_headers (fun _ => none) sample_untyped_product
        sample_untyped_product_decl sample_method_ctx =
      some (CXChildVisitResult.Recurse, { sample_method_ctx with ctaw_childno := 0 }) :=
  product_without_dimension_recurses sample_headers (fun _ => none) sample_untyped_product
    sample_untyped_product_store sample_method_ctx none (some sample_meter) none true false
    { sample_method_ctx with ctaw_childno := 1 } { sample_method_ctx with ctaw_childno := 1 }
    (by decide!) (by decide!) (by decide!) (by decide!) (Or.inr rfl)

/-- C14 at `auto x = g_alt;`: `g_alt` is no parameter, no scope binds it and the prior-types
table gives it the centimetre type, yet the walker leaves the scope stack as it was and
`x` unbound; the store `y = g_alt;` in the same context does type `g_alt` from the
prior-types table and binds `y` to it. -/
theorem var_decl_ignores_prior_types :
    set_contains "g_alt" sample_prior_ctx.current_fn_params = false ∧
    get_var_typeinfo "g_alt" sample_prior_ctx.var_types = none ∧
    map_find "g_alt" sample_prior_ctx.prior_var_to_typeinfo = some sample_centimeter ∧
    (visit_node (function_ast_walker sample_headers) sample_prior_decl sample_prior_decl
        sample_prior_ctx).map (fun r => (r.2.var_types, get_var_typeinfo "x" r.2.var_types)) =
      some (sample_prior_ctx.var_types, none) ∧
    (visit_node (function_ast_walker sample_headers) sample_prior_store sample_prior_store
        sample_prior_ctx).map (fun r => get_var_typeinfo "y" r.2.var_types) =
      some (some sample_centimeter) := by
  decide!

/-- C15 at `switch (mode) { case 0: a = b; }` with `a` (metres) and `b` (centimetres) bound
in the enclosing scope: the store binds `a` in the scope of the switch, and after the
switch the enclosing scope still binds `a` to the metre type alone; after
`while (mode) { a = b; }` it binds `a` to the merge of both. -/
theorem switch_scope_is_not_merged_into_enclosing_scope :
    (visit_node (function_ast_walker sample_headers) sample_switch_store sample_switch_store
        sample_body_ctx).map (fun r => r.2.var_types) =
      some [[("a", sample_meter), ("b", sample_centimeter)]] ∧
    (visit_node (function_ast_walker sample_headers) sample_while_store sample_while_store
        sample_body_ctx).map (fun r => r.2.var_types) =
      some [[("a", merge_typeinfo sample_meter sample_centimeter), ("b", sample_centimeter)]] := by
  decide!

/-- C16 at `void spin() { do { break; } while (0); }`: the `do` statement opens no scope, so
at the break the stack holds the scope of the function alone and
`var_types[var_types.size() - 2]` is out of range; with `while (1) { break; }` the walk
returns. -/
theorem break_in_do_statement_finds_one_scope :
    (ast_walker_enter sample_fn_do_break sample_ctx).var_types.length = 1 ∧
    walk_break_stmt (ast_walker_enter sample_fn_do_break sample_ctx) = none ∧
    ast_walker sample_headers (fun _ => none) sample_fn_do_break sample_fn_do_break sample_ctx =
      none ∧
    (ast_walker sample_headers (fun _ => none) sample_fn_while_break sample_fn_while_break
        sample_ctx).map (fun r => r.2.var_types) = some [] := by
  decide!

/-- C18: in the function walk a `CompoundStmt` is answered with `CXChildVisit_Recurse` and
changes only `seen_definitions` and `had_fn_definition`: with `had_fn_definition` false and
`current_usr` not seen, the USR is inserted and the flag becomes true; with the flag false
and the USR already seen, and with the flag already true, the context is left as it was. -/
theorem compound_stmt_marks_first_definition (hdr : Headers)
    (self : ASTContext → Option (Bool × ASTContext)) (c parent : Cursor) (ctx : ASTContext)
    (hk : c.kind = CXCursorKind.CompoundStmt)
    (hU : ctx.constraint = ConstraintType.UNCONSTRAINED) :
    ∃ ctx', function_ast_walker hdr self c parent ctx = some (CXChildVisitResult.Recurse, ctx') ∧
      (ctx.had_fn_definition = false →
        set_contains ctx.current_usr ctx.seen_definitions = false →
        ctx' = { ctx with
          seen_definitions := set_insert ctx.current_usr ctx.seen_definitions
          had_fn_definition := true } ∧
        ∀ u, u ∈ ctx'.seen_definitions ↔ u = ctx.current_usr ∨ u ∈ ctx.seen_definitions) ∧
      (ctx.had_fn_definition = false →
        set_contains ctx.current_usr ctx.seen_definitions = true → ctx' = ctx) ∧
      (ctx.had_fn_definition = true → ctx' = ctx) := by
  refine ⟨walk_compound_stmt ctx, ?_, ?_, ?_, ?_⟩
  · rw [function_ast_walker_statement hdr _ _ _ _ hU]
    unfold walk_statement
    simp [hk]
  · intro hd hs
    unfold walk_compound_stmt
    simp only [hd, hs]
    exact ⟨rfl, fun u => mem_set_insert u _ _⟩
  · intro hd hs
    unfold walk_compound_stmt
    simp only [hd, hs]
    cases ctx
    simp_all
  · intro hd
    unfold walk_compound_stmt
    simp [hd]

/-- Instance of C18: the body of `g` is met with a USR not seen before. -/
theorem compound_stmt_marks_first_definition_witness :
    ∃ ctx', function_ast_walker sample_headers (fun _ => none)
        (Cursor.mk { kind := CXCursorKind.CompoundStmt } [] []) sample_fn_tainted
        (ast_walker_enter sample_fn_tainted sample_ctx) =
          some (CXChildVisitResult.Recurse, ctx') ∧
      ctx'.had_fn_definition = true ∧ ctx'.seen_definitions = ["c:@F@g#"] := by
  obtain ⟨ctx', h, h1, _, _⟩ := compound_stmt_marks_first_definition sample_headers
    (fun _ => none) (Cursor.mk { kind := CXCursorKind.CompoundStmt } [] []) sample_fn_tainted
    (ast_walker_enter sample_fn_tainted sample_ctx) rfl (by decide!)
  obtain ⟨e, _⟩ := h1 (by decide!) (by decide!)
  refine ⟨ctx', h, ?_, ?_⟩
  · rw [e]
  · rw [e]; decide!

/-! ## Parameters -/

theorem mem_insert_range (first last i : Int) :
    i ∈ insert_range first last [] ↔ first ≤ i ∧ i < last := by
  unfold insert_range
  rw [mem_set_insert_all]
  simp
  constructor
  · rintro ⟨k, ⟨a, ha, rfl⟩, rfl⟩
    omega
  · rintro ⟨h1, h2⟩
    refine ⟨i - first, ⟨(i - first).toNat, ?_, ?_⟩, by omega⟩
    · rw [Int.toNat_of_nonneg (by omega)]; omega
    · rw [Int.toNat_of_nonneg (by omega)]

theorem type_check_rhs_skips_first (hdr : Headers)
    (self : Option TypeInfo × ASTContext → Option (Bool × (Option TypeInfo × ASTContext)))
    (c parent : Cursor) (p : Option TypeInfo × ASTContext) (h0 : p.2.ctaw_childno = 0) :
    type_check_rhs hdr self c parent p =
      some (CXChildVisitResult.Continue, (p.1, { p.2 with ctaw_childno := 1 })) := by
  unfold type_check_rhs
  dsimp only
  rw [if_pos h0, h0]
  rfl

theorem type_check_rhs_unexposed (hdr : Headers)
    (self : Option TypeInfo × ASTContext → Option (Bool × (Option TypeInfo × ASTContext)))
    (c parent : Cursor) (p : Option TypeInfo × ASTContext) (hn : p.2.ctaw_childno ≠ 0)
    (hk : c.kind = CXCursorKind.UnexposedExpr) :
    type_check_rhs hdr self c parent p = some (CXChildVisitResult.Recurse, p) := by
  unfold type_check_rhs
  dsimp only
  rw [if_neg hn, if_neg (by rw [hk]; decide), if_neg (by rw [hk]; decide),
    if_neg (by rw [hk]; decide), if_neg (by rw [hk]; decide)]

theorem type_check_rhs_param (hdr : Headers)
    (self : Option TypeInfo × ASTContext → Option (Bool × (Option TypeInfo × ASTContext)))
    (c parent : Cursor) (p : Option TypeInfo × ASTContext) (k : Int)
    (hn : p.2.ctaw_childno ≠ 0) (hk : c.kind = CXCursorKind.DeclRefExpr)
    (hpar : set_contains (get_cursor_spelling c) p.2.current_fn_params = true)
    (hnum : map_find (get_cursor_spelling c) p.2.param_to_number = some k) :
    type_check_rhs hdr self c parent p =
      some (CXChildVisitResult.Break,
        (some
          { frames := insert_range hdr.MAV_FRAME_GLOBAL hdr.MAV_FRAME_NONE []
            units := insert_range 0 p.2.num_units []
            source := [⟨TypeSourceKind.SOURCE_PARAM, k, ""⟩]
            dimension := none }, p.2)) := by
  unfold type_check_rhs
  dsimp only
  rw [if_neg hn, if_pos hk, if_pos hpar, hnum]
  simp [map_at_default, hnum]

/-- The typer stops at a reference to a parameter with the universal type tagged with the
number of the parameter. -/
theorem type_check_rhs_var_ref (hdr : Headers) (n : String) (k : Int) (c : Cursor)
    (href : VarRef n c) :
    ∀ (parent : Cursor) (first : Option TypeInfo) (ctx : ASTContext),
      ctx.ctaw_childno ≠ 0 → set_contains n ctx.current_fn_params = true →
      map_find n ctx.param_to_number = some k →
      visit_node (type_check_rhs hdr) parent c (first, ctx) =
        some (true,
          (some
            { frames := insert_range hdr.MAV_FRAME_GLOBAL hdr.MAV_FRAME_NONE []
              units := insert_range 0 ctx.num_units []
              source := [⟨TypeSourceKind.SOURCE_PARAM, k, ""⟩]
              dimension := none }, ctx)) := by
  induction href with
  | direct c hk hs =>
    intro parent first ctx hn hpar hnum
    rw [visit_node_eq, type_check_rhs_param hdr _ c parent (first, ctx) k hn hk
      (by rw [hs]; exact hpar) (by rw [hs]; exact hnum)]
  | wrapped w inner rest hk hc _ ih =>
    intro parent first ctx hn hpar hnum
    rw [visit_node_eq, type_check_rhs_unexposed hdr _ w parent (first, ctx) hn hk]
    simp only
    rw [hc, visit_list_cons, ih w first ctx hn hpar hnum]

/-- C13: the `ParmDecl` of a parameter `n` whose type is in neither message table, visited
when `total_params` is `k` (one is added per visited `ParmDecl`), records `n` as parameter
number `k`; as long as these records of `n` stand, `check_tainted_store` types a right-hand
side that is a reference to `n` with frames `[MAV_FRAME_GLOBAL, MAV_FRAME_NONE)`, units
`[0, num_units)`, the single source `(PARAM, k)` and no dimension. -/
theorem param_reference_gets_universal_type (hdr : Headers)
    (self : ASTContext → Option (Bool × ASTContext))
    (pd parent store lhs rhs : Cursor) (rest : List Cursor) (ctx0 ctx : ASTContext)
    (r : CXChildVisitResult × ASTContext) (k : Int)
    (hpd : pd.kind = CXCursorKind.ParmDecl)
    (hU : ctx0.constraint = ConstraintType.UNCONSTRAINED)
    (hk : ctx0.total_params = k)
    (hty : is_mav_type ctx0 (get_object_typename pd.data.type) = false)
    (hr : function_ast_walker hdr self pd parent ctx0 = some r)
    (hnum : map_find (get_cursor_spelling pd) ctx.param_to_number =
      map_find (get_cursor_spelling pd) r.2.param_to_number)
    (hpar : set_contains (get_cursor_spelling pd) ctx.current_fn_params =
      set_contains (get_cursor_spelling pd) r.2.current_fn_params)
    (hch : store.children = lhs :: rhs :: rest)
    (href : VarRef (get_cursor_spelling pd) rhs) :
    r.2.total_params = k + 1 ∧
    store_rhs_type hdr store ctx =
      some (some
        { frames := insert_range hdr.MAV_FRAME_GLOBAL hdr.MAV_FRAME_NONE []
          units := insert_range 0 ctx.num_units []
          source := [⟨TypeSourceKind.SOURCE_PARAM, k, ""⟩]
          dimension := none }, { ctx with ctaw_childno := 1 }) ∧
    (∀ i, i ∈ insert_range hdr.MAV_FRAME_GLOBAL hdr.MAV_FRAME_NONE [] ↔
      hdr.MAV_FRAME_GLOBAL ≤ i ∧ i < hdr.MAV_FRAME_NONE) ∧
    (∀ i, i ∈ insert_range 0 ctx.num_units [] ↔ 0 ≤ i ∧ i < ctx.num_units) := by
  rw [function_ast_walker_statement hdr _ _ _ _ hU] at hr
  have hw : walk_statement hdr self pd ctx0 = walk_parm_decl hdr pd ctx0 := by
    unfold walk_statement
    simp [hpd]
  rw [hw] at hr
  unfold walk_parm_decl at hr
  dsimp only at hr
  have hty' : is_mav_type
      ({ ctx0 with
          param_to_number :=
            (map_set (get_cursor_spelling pd) ctx0.total_params ctx0.param_to_number) } : ASTContext)
      (get_object_typename pd.data.type) = false := hty
  rw [hty'] at hr
  simp only [Bool.false_eq_true, if_false, Option.some.injEq] at hr
  subst hr
  have e1 : map_find (get_cursor_spelling pd) ctx.param_to_number = some k := by
    rw [hnum]
    unfold add_plain_param add_unknown_param
    dsimp only
    split
    · dsimp only
      rw [map_find_map_set, if_pos rfl, hk]
    · dsimp only
      rw [map_find_map_set, if_pos rfl, hk]
  have e2 : set_contains (get_cursor_spelling pd) ctx.current_fn_params = true := by
    rw [hpar]
    unfold add_plain_param add_unknown_param
    dsimp only
    split
    · exact set_contains_iff.2 ((mem_set_insert _ _ _).2 (Or.inl rfl))
    · exact set_contains_iff.2 ((mem_set_insert _ _ _).2 (Or.inl rfl))
  refine ⟨?_, ?_, mem_insert_range _ _, mem_insert_range _ _⟩
  · unfold add_plain_param add_unknown_param
    dsimp only
    split
    · dsimp only; rw [hk]
    · dsimp only; rw [hk]
  · unfold store_rhs_type
    simp only [clang_visitChildren]
    rw [hch, visit_list_cons, visit_node_eq,
      type_check_rhs_skips_first hdr _ lhs store (none, { ctx with ctaw_childno := 0 }) rfl]
    simp only
    rw [visit_list_cons,
      type_check_rhs_var_ref hdr _ k rhs href store none { ctx with ctaw_childno := 1 }
        (show (1 : Int) ≠ 0 by decide) e2 e1]

/-- Instance of C13: `v` is the second parameter of `void Class::set(int u, double v)`, and
the store `altitude_cm = v;` is typed right after the parameters. -/
theorem param_reference_gets_universal_type_witness :
    store_rhs_type sample_headers sample_param_store sample_after_parm_v =
      some (some
        { frames := [0, 1, 2, 3]
          units := [0, 1]
          source := [⟨TypeSourceKind.SOURCE_PARAM, 1, ""⟩]
          dimension := none }, { sample_after_parm_v with ctaw_childno := 1 }) := by
  have hr : function_ast_walker sample_headers (fun _ => none) sample_parm_v sample_fn_set
      sample_after_parm_u = some (CXChildVisitResult.Recurse, sample_after_parm_v) := by decide!
  have h := (param_reference_gets_universal_type sample_headers (fun _ => none) sample_parm_v
    sample_fn_set sample_param_store _ sample_ref_v [] sample_after_parm_u sample_after_parm_v
    _ 1 rfl (by decide!) (by decide!) (by decide!) hr rfl rfl rfl
    (VarRef.wrapped _ _ _ (by decide!) rfl (VarRef.direct _ (by decide!) (by decide!)))).2.1
  rw [h]
  decide!

/-! ## Variables of a message type -/

theorem field_key_injective (name f f' : String)
    (h : name ++ "::" ++ f = name ++ "::" ++ f') : f = f' := by
  have := congrArg String.data h
  simp only [String.data_append, List.append_assoc, List.append_cancel_left_eq] at this
  exact String.ext this

/-- A loop over the entries of a map that binds one new key per entry: every entry ends up
bound to its value and no other key is touched. -/
theorem fold_binds_fresh_keys (step : Scope → String × Int → Scope) (key_of : String → String)
    (val : Int → TypeInfo) (hinj : ∀ f f', key_of f = key_of f' → f = f')
    (hstep : ∀ tinfo f u, map_find (key_of f) tinfo = none →
      step tinfo (f, u) = map_set (key_of f) (val u) tinfo) :
    ∀ (fields : StdMap String Int) (tinfo : Scope), (map_keys fields).Nodup →
      (∀ f ∈ map_keys fields, map_find (key_of f) tinfo = none) →
      (∀ f u, (f, u) ∈ fields → map_find (key_of f) (fields.foldl step tinfo) = some (val u)) ∧
      (∀ key, (∀ f ∈ map_keys fields, key ≠ key_of f) →
        map_find key (fields.foldl step tinfo) = map_find key tinfo) := by
  intro fields
  induction fields with
  | nil =>
    intro tinfo _ _
    exact ⟨fun f u h => absurd h (List.not_mem_nil _), fun key _ => rfl⟩
  | cons p rest ih =>
    intro tinfo hnd hfresh
    obtain ⟨f0, u0⟩ := p
    have hnd' : f0 ∉ map_keys rest ∧ (map_keys rest).Nodup := by
      simpa [map_keys] using hnd
    have h0 : map_find (key_of f0) tinfo = none := hfresh f0 (by simp [map_keys])
    have hfresh' : ∀ f ∈ map_keys rest,
        map_find (key_of f) (map_set (key_of f0) (val u0) tinfo) = none := by
      intro f hf
      have hne : key_of f ≠ key_of f0 := by
        intro e
        have := hinj f f0 e
        subst this
        exact hnd'.1 hf
      rw [map_find_map_set, if_neg hne]
      exact hfresh f (by simp only [map_keys, List.map_cons, List.mem_cons]; exact Or.inr hf)
    obtain ⟨iha, ihb⟩ := ih _ hnd'.2 hfresh'
    rw [List.foldl_cons, hstep tinfo f0 u0 h0]
    constructor
    · intro f u hfu
      rcases List.mem_cons.1 hfu with e | hmem
      · simp only [Prod.mk.injEq] at e
        obtain ⟨rfl, rfl⟩ := e
        rw [ihb]
        · rw [map_find_map_set, if_pos rfl]
        · intro f' hf' e
          have := hinj f f' e
          subst this
          exact hnd'.1 hf'
      · exact iha f u hmem
    · intro key hkey
      rw [ihb key (fun f hf => hkey f (by
        simp only [map_keys, List.map_cons, List.mem_cons]; exact Or.inr hf))]
      rw [map_find_map_set, if_neg (hkey f0 (by simp [map_keys]))]

/-- What `add_inner_vars` leaves in the scope when the type has unit fields and none of the
keys `name::field` was bound before. -/
theorem add_inner_vars_fresh (hdr : Headers) (t name : String)
    (table : StdMap String (StdMap String Int)) (source : TypeSource) (tinfo : Scope)
    (fields : StdMap String Int) (hfields : map_find t table = some fields)
    (hnd : (map_keys fields).Nodup)
    (hfresh : ∀ f ∈ map_keys fields, map_find (name ++ "::" ++ f) tinfo = none) :
    (∀ f u, (f, u) ∈ fields →
      map_find (name ++ "::" ++ f) (add_inner_vars hdr t name table source tinfo) =
        some
          { frames := insert_range hdr.MAV_FRAME_GLOBAL hdr.MAV_FRAME_NONE []
            units := [u]
            source := [source]
            dimension := none }) ∧
    (∀ key, (∀ f ∈ map_keys fields, key ≠ name ++ "::" ++ f) →
      map_find key (add_inner_vars hdr t name table source tinfo) = map_find key tinfo) := by
  unfold add_inner_vars
  rw [hfields]
  dsimp only
  exact fold_binds_fresh_keys _ (fun f => name ++ "::" ++ f)
    (fun u =>
      { frames := insert_range hdr.MAV_FRAME_GLOBAL hdr.MAV_FRAME_NONE []
        units := [u]
        source := [source]
        dimension := none })
    (field_key_injective name)
    (fun tinfo f u h => by simp [map_at_default, h, TypeInfo.empty, set_insert])
    fields tinfo hnd hfresh

theorem replace_back_append (m back : Scope) (below : List Scope) :
    replace_back m (below ++ [back]) = below ++ [m] := by
  induction below with
  | nil => rfl
  | cons s rest ih =>
    cases rest with
    | nil => rfl
    | cons s' rest' =>
      have : replace_back m (s :: s' :: rest' ++ [back]) =
          s :: replace_back m (s' :: rest' ++ [back]) := by
        cases rest' <;> rfl
      rw [this, ih]
      rfl

theorem walk_statement_var_decl (hdr : Headers) (self : ASTContext → Option (Bool × ASTContext))
    (c : Cursor) (ctx : ASTContext) (hk : c.kind = CXCursorKind.VarDecl) :
    walk_statement hdr self c ctx = walk_var_decl hdr c ctx := by
  unfold walk_statement
  simp [hk]

theorem walk_statement_parm_decl (hdr : Headers) (self : ASTContext → Option (Bool × ASTContext))
    (c : Cursor) (ctx : ASTContext) (hk : c.kind = CXCursorKind.ParmDecl) :
    walk_statement hdr self c ctx = walk_parm_decl hdr c ctx := by
  unfold walk_statement
  simp [hk]

/-- C19: a `VarDecl` or `ParmDecl` named `v` whose stripped type name is a key of the
frame-field table and of the field-to-unit table, met with a non-empty scope stack whose
innermost scope binds none of the keys `v::f`: the walker binds every `v::f`, `f` a field
mapped to unit `u`, in the innermost scope to the type with frames
`[MAV_FRAME_GLOBAL, MAV_FRAME_NONE)`, units `{u}`, one `INTRINSIC` source entry and no
dimension, changes no other key and no other scope, and puts the current function into
`functions_with_intrinsic_variables`. -/
theorem message_variable_binds_its_fields (hdr : Headers)
    (self : ASTContext → Option (Bool × ASTContext)) (c parent : Cursor) (ctx : ASTContext)
    (below : List Scope) (back : Scope) (fields : StdMap String Int)
    (hk : c.kind = CXCursorKind.VarDecl ∨ c.kind = CXCursorKind.ParmDecl)
    (hU : ctx.constraint = ConstraintType.UNCONSTRAINED)
    (hframe : (map_find (get_object_typename c.data.type) ctx.types_to_frame_field).isSome = true)
    (hfields : map_find (get_object_typename c.data.type) ctx.type_to_field_to_unit = some fields)
    (hnd : (map_keys fields).Nodup)
    (hstack : ctx.var_types = below ++ [back])
    (hfresh : ∀ f ∈ map_keys fields, map_find (get_cursor_spelling c ++ "::" ++ f) back = none) :
    ∃ ctx' back' src,
      function_ast_walker hdr self c parent ctx = some (CXChildVisitResult.Recurse, ctx') ∧
      ctx'.var_types = below ++ [back'] ∧ src.kind = TypeSourceKind.SOURCE_INTRINSIC ∧
      (∀ f u, (f, u) ∈ fields →
        map_find (get_cursor_spelling c ++ "::" ++ f) back' =
          some
            { frames := insert_range hdr.MAV_FRAME_GLOBAL hdr.MAV_FRAME_NONE []
              units := [u]
              source := [src]
              dimension := none }) ∧
      (∀ key, (∀ f ∈ map_keys fields, key ≠ get_cursor_spelling c ++ "::" ++ f) →
        map_find key back' = map_find key back) ∧
      ctx.current_fn ∈ ctx'.functions_with_intrinsic_variables ∧
      (∀ i, i ∈ insert_range hdr.MAV_FRAME_GLOBAL hdr.MAV_FRAME_NONE [] ↔
        hdr.MAV_FRAME_GLOBAL ≤ i ∧ i < hdr.MAV_FRAME_NONE) := by
  have hne : (below ++ [back]).isEmpty = false := by cases below <;> rfl
  have hlast : (below ++ [back]).getLast? = some back := by simp
  rw [function_ast_walker_statement hdr _ _ _ _ hU]
  rcases hk with hk | hk
  · have hadd := add_inner_vars_fresh hdr (get_object_typename c.data.type)
      (get_cursor_spelling c) ctx.type_to_field_to_unit
      ⟨TypeSourceKind.SOURCE_INTRINSIC, 0, ""⟩ back fields hfields hnd hfresh
    refine ⟨mark_var_decl c
        { ctx with
          var_types := below ++
            [add_inner_vars hdr (get_object_typename c.data.type) (get_cursor_spelling c)
              ctx.type_to_field_to_unit ⟨TypeSourceKind.SOURCE_INTRINSIC, 0, ""⟩ back] },
      add_inner_vars hdr (get_object_typename c.data.type) (get_cursor_spelling c)
        ctx.type_to_field_to_unit ⟨TypeSourceKind.SOURCE_INTRINSIC, 0, ""⟩ back,
      ⟨TypeSourceKind.SOURCE_INTRINSIC, 0, ""⟩, ?_, ?_, rfl, hadd.1, hadd.2, ?_,
      mem_insert_range _ _⟩
    · rw [walk_statement_var_decl hdr self c ctx hk]
      unfold walk_var_decl check_tainted_decl
      simp only [hframe, hstack, hne, hlast, replace_back_append]
      simp only [Bool.not_false, and_self, if_true]
    · unfold mark_var_decl is_mav_type
      simp only [hframe, Bool.true_or, if_true]
    · unfold mark_var_decl is_mav_type
      simp only [hframe, Bool.true_or, if_true]
      exact (mem_set_insert _ _ _).2 (Or.inl rfl)
  · have hadd := add_inner_vars_fresh hdr (get_object_typename c.data.type)
      (get_cursor_spelling c) ctx.type_to_field_to_unit
      ⟨TypeSourceKind.SOURCE_INTRINSIC, ctx.total_params, ""⟩ back fields hfields hnd hfresh
    refine ⟨
        { ctx with
          param_to_number := map_set (get_cursor_spelling c) ctx.total_params ctx.param_to_number
          var_types := below ++
            [add_inner_vars hdr (get_object_typename c.data.type) (get_cursor_spelling c)
              ctx.type_to_field_to_unit ⟨TypeSourceKind.SOURCE_INTRINSIC, ctx.total_params, ""⟩
              back]
          param_to_typesource_kind :=
            map_set ctx.total_params TypeSourceKind.SOURCE_INTRINSIC ctx.param_to_typesource_kind
          functions_with_intrinsic_variables :=
            set_insert ctx.current_fn ctx.functions_with_intrinsic_variables
          total_params := ctx.total_params + 1 },
      add_inner_vars hdr (get_object_typename c.data.type) (get_cursor_spelling c)
        ctx.type_to_field_to_unit ⟨TypeSourceKind.SOURCE_INTRINSIC, ctx.total_params, ""⟩ back,
      ⟨TypeSourceKind.SOURCE_INTRINSIC, ctx.total_params, ""⟩, ?_, rfl, rfl,
      hadd.1, hadd.2, ?_, mem_insert_range _ _⟩
    · rw [walk_statement_parm_decl hdr self c ctx hk]
      unfold walk_parm_decl add_intrinsic_param is_mav_type
      simp only [hframe, hstack, hlast, replace_back_append, Bool.true_or, if_true]
    · exact (mem_set_insert _ _ _).2 (Or.inl rfl)

/-- Instance of C19: `mavlink_msg_t m;` at the start of the body of `g`; the field `z` of the
message type has unit 1. -/
theorem message_variable_binds_its_fields_witness :
    ∃ ctx' t, function_ast_walker sample_headers (fun _ => none) sample_msg_decl sample_fn_tainted
        (ast_walker_enter sample_fn_tainted sample_ctx) =
          some (CXChildVisitResult.Recurse, ctx') ∧
      get_var_typeinfo "m::z" ctx'.var_types = some t ∧
      t.frames = [0, 1, 2, 3] ∧ t.units = [1] ∧ t.dimension = none ∧
      "g" ∈ ctx'.functions_with_intrinsic_variables := by
  obtain ⟨ctx', back', src, h, hv, _, hf, _, hfn, _⟩ :=
    message_variable_binds_its_fields sample_headers (fun _ => none) sample_msg_decl
      sample_fn_tainted (ast_walker_enter sample_fn_tainted sample_ctx) [] []
      [("x", 0), ("z", 1)] (Or.inl rfl) (by decide!) (by decide!) (by decide!) (by decide!)
      (by decide!) (by decide!)
  have hz := hf "z" 1 (by decide)
  refine ⟨ctx',
    { frames := insert_range sample_headers.MAV_FRAME_GLOBAL sample_headers.MAV_FRAME_NONE []
      units := [1]
      source := [src]
      dimension := none }, h, ?_, ?_, rfl, rfl, hfn⟩
  · have hkey : get_cursor_spelling sample_msg_decl ++ "::" ++ "z" = "m::z" := by decide
    rw [hkey] at hz
    rw [hv, ← hz]
    show get_var_typeinfo "m::z" [back'] = map_find "m::z" back'
    unfold get_var_typeinfo
    cases hq : map_find "m::z" back' <;> simp [List.findSome?, hq]
  · show insert_range sample_headers.MAV_FRAME_GLOBAL sample_headers.MAV_FRAME_NONE [] =
      [0, 1, 2, 3]
    decide!

/-! ## The worker loop -/

theorem do_work_loop_spec (N W t : Nat) (hW : 1 ≤ W) (hfit : N + W ≤ 2 ^ 32) :
    ∀ (fuel i : Nat), i % W = t → N - i ≤ fuel →
      ∃ l, do_work_loop N W fuel i = some l ∧ l.Sorted (· < ·) ∧
        ∀ j, j ∈ l ↔ i ≤ j ∧ j < N ∧ j % W = t := by
  intro fuel
  induction fuel with
  | zero =>
    intro i _ hfuel
    have hi : ¬ i < N := by omega
    refine ⟨[], by simp [do_work_loop, hi], List.sorted_nil, fun j => ?_⟩
    simp only [List.not_mem_nil, false_iff]
    omega
  | succ fuel ih =>
    intro i hmod hfuel
    by_cases hi : i < N
    · have hnext : (i + W) % 2 ^ 32 = i + W := Nat.mod_eq_of_lt (by omega)
      have hmod' : (i + W) % W = t := by rw [Nat.add_mod_right]; exact hmod
      obtain ⟨l, hl, hs, hm⟩ := ih (i + W) hmod' (by omega)
      refine ⟨i :: l, by rw [do_work_loop, if_pos hi, hnext, hl]; rfl, ?_, fun j => ?_⟩
      · refine List.sorted_cons.2 ⟨fun b hb => ?_, hs⟩
        have := ((hm b).1 hb).1
        omega
      · rw [List.mem_cons, hm]
        constructor
        · rintro (rfl | ⟨h1, h2, h3⟩)
          · exact ⟨le_refl _, hi, hmod⟩
          · exact ⟨by omega, h2, h3⟩
        · rintro ⟨h1, h2, h3⟩
          by_cases hji : j = i
          · exact Or.inl hji
          · refine Or.inr ⟨?_, h2, h3⟩
            have hd : W ∣ j - i := (Nat.modEq_iff_dvd' h1).1 (by rw [Nat.ModEq, hmod, h3])
            have := Nat.le_of_dvd (by omega) hd
            omega
    · refine ⟨[], by simp [do_work_loop, hi], List.sorted_nil, fun j => ?_⟩
      simp only [List.not_mem_nil, false_iff]
      omega

theorem do_work_loop_wraps :
    ∀ (fuel i : Nat), i % 2 = 0 → i < 2 ^ 32 → do_work_loop (2 ^ 32 - 1) 2 fuel i = none := by
  intro fuel
  induction fuel with
  | zero =>
    intro i h0 hi
    have : i < 2 ^ 32 - 1 := by omega
    rw [do_work_loop, if_pos this]
  | succ fuel ih =>
    intro i h0 hi
    have : i < 2 ^ 32 - 1 := by omega
    have hn := ih ((i + 2) % 2 ^ 32) (by omega) (Nat.mod_lt _ (by norm_num))
    rw [do_work_loop, if_pos this, hn]
    rfl

/-- C20 fails where the `unsigned` counter wraps: with `2 ^ 31 + 1` commands and as many
workers, the worker `2 ^ 31` processes index `2 ^ 31` and then index 1; with `2 ^ 32 - 1`
commands and two workers, the loop of worker 0 comes back to index 0 and never ends. -/
theorem do_work_counter_wraps :
    do_work_indices 3 (2 ^ 31 + 1) (2 ^ 31) (2 ^ 31 + 1) = some [2 ^ 31, 1] ∧
    ∀ fuel, do_work_indices fuel (2 ^ 32 - 1) 0 2 = none :=
  ⟨by decide!, fun fuel => do_work_loop_wraps fuel 0 (by decide) (by norm_num)⟩

/-- C20 as amended: for `N` compile commands and `W ≥ 1` workers with `N + W ≤ 2 ^ 32`,
the loop of the worker started with `thread_no = t < W` and stride `W` ends (after at most
`N` rounds) and processes exactly the indices `i < N` with `i mod W = t`, in increasing
order; every index below `N` is processed by exactly one worker. -/
theorem do_work_indices_round_robin (N W fuel : Nat) (hW : 1 ≤ W) (hfit : N + W ≤ 2 ^ 32)
    (hfuel : N ≤ fuel) :
    (∀ t, t < W → ∃ l, do_work_indices fuel N t W = some l ∧ l.Sorted (· < ·) ∧
      ∀ i, i ∈ l ↔ i < N ∧ i % W = t) ∧
    (∀ i, i < N → ∃! t, t < W ∧ ∃ l, do_work_indices fuel N t W = some l ∧ i ∈ l) := by
  have hall : ∀ t, t < W → ∃ l, do_work_indices fuel N t W = some l ∧ l.Sorted (· < ·) ∧
      ∀ i, i ∈ l ↔ i < N ∧ i % W = t := by
    intro t ht
    obtain ⟨l, hl, hs, hm⟩ :=
      do_work_loop_spec N W t hW hfit fuel t (Nat.mod_eq_of_lt ht) (by omega)
    refine ⟨l, hl, hs, fun i => ?_⟩
    rw [hm]
    constructor
    · exact fun h => h.2
    · intro h
      refine ⟨?_, h⟩
      rw [← h.2]
      exact Nat.mod_le _ _
  refine ⟨hall, fun i hi => ⟨i % W, ⟨Nat.mod_lt _ (by omega), ?_⟩, ?_⟩⟩
  · obtain ⟨l, hl, _, hm⟩ := hall (i % W) (Nat.mod_lt _ (by omega))
    exact ⟨l, hl, (hm i).2 ⟨hi, rfl⟩⟩
  · rintro t ⟨ht, l, hl, hmem⟩
    obtain ⟨l', hl', _, hm⟩ := hall t ht
    rw [hl] at hl'
    cases hl'
    exact ((hm i).1 hmem).2.symm

/-- Instance of C20 as amended: five commands and two workers. -/
theorem do_work_indices_round_robin_witness :
    (∀ t, t < 2 → ∃ l, do_work_indices 5 5 t 2 = some l ∧ l.Sorted (· < ·) ∧
      ∀ i, i ∈ l ↔ i < 5 ∧ i % 2 = t) ∧
    (∀ i, i < 5 → ∃! t, t < 2 ∧ ∃ l, do_work_indices 5 5 t 2 = some l ∧ i ∈ l) ∧
    do_work_indices 5 5 0 2 = some [0, 2, 4] ∧ do_work_indices 5 5 1 2 = some [1, 3] :=
  ⟨(do_work_indices_round_robin 5 2 5 (by decide) (by norm_num) (le_refl _)).1,
   (do_work_indices_round_robin 5 2 5 (by decide) (by norm_num) (le_refl _)).2,
   by decide, by decide⟩

/-! ## Depth of the scope stack -/

theorem set_in_back_length (name : String) (ti : TypeInfo) (l : List Scope) :
    (set_in_back name ti l).length = l.length := by
  induction l with
  | nil => rfl
  | cons m rest ih =>
    cases rest with
    | nil => rfl
    | cons m' rest' =>
      have : set_in_back name ti (m :: m' :: rest') = m :: set_in_back name ti (m' :: rest') := rfl
      rw [this]
      simp [ih]

theorem replace_back_length (m0 : Scope) (l : List Scope) :
    (replace_back m0 l).length = l.length := by
  induction l with
  | nil => rfl
  | cons m rest ih =>
    cases rest with
    | nil => rfl
    | cons m' rest' =>
      have : replace_back m0 (m :: m' :: rest') = m :: replace_back m0 (m' :: rest') := rfl
      rw [this]
      simp [ih]

theorem unify_back_into_parent_length (l : List Scope) :
    ∀ r, unify_back_into_parent l = some r → r.length = l.length := by
  induction l with
  | nil => intro r h; simp [unify_back_into_parent] at h
  | cons m rest ih =>
    intro r h
    cases rest with
    | nil => simp [unify_back_into_parent] at h
    | cons m' rest' =>
      cases rest' with
      | nil =>
        simp only [unify_back_into_parent, Option.some.injEq] at h
        subst h
        rfl
      | cons m'' rest'' =>
        simp only [unify_back_into_parent, Option.map_eq_some'] at h
        obtain ⟨r', hr', rfl⟩ := h
        simp [ih r' hr']

theorem pop_back_length (l r : List Scope) (h : pop_back l = some r) :
    r.length + 1 = l.length := by
  unfold pop_back at h
  split at h
  · simp at h
  · rename_i hne
    simp only [Option.some.injEq] at h
    subst h
    cases l with
    | nil => simp at hne
    | cons a t => simp

theorem close_scope_depth (ctx : ASTContext) r (h : close_scope ctx = some r) :
    r.2.var_types.length + 1 = ctx.var_types.length := by
  unfold close_scope at h
  split at h
  · simp at h
  · rename_i u hu
    split at h
    · simp at h
    · rename_i p hp
      simp only [Option.some.injEq] at h
      subst h
      have h1 := unify_back_into_parent_length _ _ hu
      have h2 := pop_back_length _ _ hp
      show p.length + 1 = ctx.var_types.length
      omega

theorem close_switch_scope_depth (ctx : ASTContext) r (h : close_switch_scope ctx = some r) :
    r.2.var_types.length + 1 = ctx.var_types.length := by
  unfold close_switch_scope unify_back_into_itself at h
  split at h
  · simp at h
  · rename_i u hu
    split at hu
    · simp at hu
    · simp only [Option.some.injEq] at hu
      subst hu
      split at h
      · simp at h
      · rename_i p hp
        simp only [Option.some.injEq] at h
        subst h
        have h2 := pop_back_length _ _ hp
        rw [replace_back_length] at h2
        exact h2

theorem var_types_of_mav_frame {a b : ASTContext} (h : b.mav_frame = a.mav_frame) :
    b.var_types = a.var_types := by
  have := congrArg ASTContext.var_types h
  exact this

theorem walk_if_condition_depth (cursor : Cursor) (ctx : ASTContext) r
    (h : walk_if_condition cursor ctx = some r) : r.2.var_types = ctx.var_types := by
  unfold walk_if_condition at h
  dsimp only at h
  repeat' split at h
  all_goals first
    | (simp at h; done)
    | (simp only [Option.some.injEq] at h; subst h; rfl)
    | (simp only [Option.map_eq_some'] at h
       obtain ⟨a, ha, rfl⟩ := h
       have e := var_types_of_mav_frame (check_mavlink_rel _ _ _ ha).1
       exact e)

theorem walk_switch_selector_depth (cursor : Cursor) (ctx : ASTContext) r
    (h : walk_switch_selector cursor ctx = some r) : r.2.var_types = ctx.var_types := by
  unfold walk_switch_selector at h
  simp only [Option.map_eq_some'] at h
  obtain ⟨a, ha, rfl⟩ := h
  have e := var_types_of_mav_frame (check_mavlink_rel _ _ _ ha).1
  exact e

theorem print_frame_switch_var_types (ctx : ASTContext) :
    (print_frame_switch ctx).var_types = ctx.var_types := by
  unfold print_frame_switch
  split <;> rfl

theorem check_tainted_decl_walker_depth (hdr : Headers) (c : Cursor) (ctx : ASTContext) r
    (h : clang_visitChildren (check_tainted_decl_walker hdr) c ctx = some r) :
    r.2.var_types.length = ctx.var_types.length := by
  refine clang_visitChildren_rel (check_tainted_decl_walker hdr)
    (fun a b => b.var_types.length = a.var_types.length)
    (fun _ => rfl) (fun _ _ _ h1 h2 => h2.trans h1) ?_ c ctx r h
  intro self c parent ctx r _ h
  have hbind : ∀ c v t (x : ASTContext),
      (check_tainted_decl_walker_bind c v t x).2.var_types.length = x.var_types.length := by
    intro c v t x
    unfold check_tainted_decl_walker_bind
    dsimp only
    repeat' split
    all_goals first
      | rfl
      | exact set_in_back_length _ _ _
  unfold check_tainted_decl_walker at h
  dsimp only at h
  repeat' split at h
  all_goals first
    | (simp at h; done)
    | (simp only [Option.some.injEq] at h; subst h; first | rfl | exact hbind _ _ _ _)
    | (rename_i hq1 _ _ _ _ hq2
       simp only [Option.some.injEq] at h; subst h
       refine (hbind _ _ _ _).trans ?_
       have e2 := (type_check_rhs_frame hdr _ _ _ hq2).2
       have e1 := (type_check_rhs_frame hdr _ _ _ hq1).2
       exact congrArg List.length (e2.trans e1))

theorem check_tainted_decl_depth (hdr : Headers) (c : Cursor) (ctx ctx' : ASTContext)
    (h : check_tainted_decl hdr c ctx = some ctx') :
    ctx'.var_types.length = ctx.var_types.length := by
  unfold check_tainted_decl at h
  dsimp only at h
  repeat' split at h
  all_goals first
    | (simp at h; done)
    | (simp only [Option.some.injEq] at h; subst h; exact replace_back_length _ _)
    | (simp only [Option.map_eq_some'] at h
       obtain ⟨a, ha, rfl⟩ := h
       exact check_tainted_decl_walker_depth hdr _ _ _ ha)

theorem check_tainted_store_depth (hdr : Headers) (c : Cursor) (ctx ctx' : ASTContext)
    (h : check_tainted_store hdr c ctx = some ctx') :
    ctx'.var_types.length = ctx.var_types.length := by
  unfold check_tainted_store at h
  cases hr : store_rhs_type hdr c ctx with
  | none => simp [hr] at h
  | some p =>
    obtain ⟨o, ctx1⟩ := p
    have e1 : ctx1.var_types = ctx.var_types := (store_rhs_type_frame hdr c ctx _ hr).2
    cases o with
    | none =>
      simp only [hr, Option.some.injEq] at h
      subst h
      exact congrArg List.length e1
    | some rhs =>
      simp only [hr] at h
      split at h
      · simp only [Option.some.injEq] at h
        subst h
        exact congrArg List.length e1
      · cases hl : store_lhs_name c ctx1 with
        | none => simp [hl] at h
        | some q =>
          obtain ⟨name, ctx2⟩ := q
          have e2 : ctx2.var_types = ctx1.var_types := (store_lhs_name_frame c ctx1 _ hl).2
          simp only [hl] at h
          split at h
          · split at h
            · simp at h
            · rename_i E hE
              split at h
              · simp at h
              · rename_i ctx3 h3
                simp only [Option.some.injEq] at h
                subst h
                have e3 : ctx3.var_types = ctx2.var_types := by
                  split at h3
                  · split at h3
                    · simp only [Option.some.injEq] at h3
                      subst h3
                      rfl
                    · simp at h3
                  · simp only [Option.some.injEq] at h3
                    subst h3
                    rfl
                show (set_in_back name rhs ctx3.var_types).length = ctx.var_types.length
                rw [set_in_back_length, e3, e2, e1]
          · simp only [Option.some.injEq] at h
            subst h
            show (set_in_back name rhs ctx2.var_types).length = ctx.var_types.length
            rw [set_in_back_length, e2, e1]

theorem walk_if_stmt_depth (self : ASTContext → Option (Bool × ASTContext)) (ctx : ASTContext) r
    (hself : ∀ s1 r1, self s1 = some r1 → r1.2.var_types.length = s1.var_types.length)
    (h : walk_if_stmt self ctx = some r) : r.2.var_types.length = ctx.var_types.length := by
  unfold walk_if_stmt at h
  dsimp only at h
  split at h
  · simp at h
  · rename_i b ctx1 hq
    have h1 := hself _ _ hq
    have h2 := close_scope_depth _ _ h
    simp only [List.length_append, List.length_singleton] at h1
    omega

theorem walk_loop_stmt_depth (self : ASTContext → Option (Bool × ASTContext)) (ctx : ASTContext) r
    (hself : ∀ s1 r1, self s1 = some r1 → r1.2.var_types.length = s1.var_types.length)
    (h : walk_loop_stmt self ctx = some r) : r.2.var_types.length = ctx.var_types.length := by
  unfold walk_loop_stmt at h
  dsimp only at h
  split at h
  · simp at h
  · rename_i b ctx1 hq
    have h1 := hself _ _ hq
    have h2 := close_scope_depth _ _ h
    simp only [List.length_append, List.length_singleton] at h1
    omega

theorem walk_break_stmt_depth (ctx : ASTContext) r (h : walk_break_stmt ctx = some r) :
    r.2.var_types.length = ctx.var_types.length := by
  unfold walk_break_stmt at h
  split at h
  · simp at h
  · rename_i u hu
    simp only [Option.some.injEq] at h; subst h
    exact unify_back_into_parent_length _ _ hu

theorem walk_switch_stmt_depth (self : ASTContext → Option (Bool × ASTContext)) (ctx : ASTContext) r
    (hself : ∀ s1 r1, self s1 = some r1 → r1.2.var_types.length = s1.var_types.length)
    (h : walk_switch_stmt self ctx = some r) : r.2.var_types.length = ctx.var_types.length := by
  unfold walk_switch_stmt at h
  split at h
  · simp at h
  · rename_i b ctx1 hq
    dsimp only at h
    split at h
    · simp at h
    · rename_i b2 ctx2 hq2
      have h1 : ctx1.var_types.length = ctx.var_types.length := hself _ _ hq
      have h2 := hself _ _ hq2
      have h3 := close_switch_scope_depth _ _ h
      simp only [List.length_append, List.length_singleton, print_frame_switch_var_types] at h2
      omega

theorem walk_var_decl_depth (hdr : Headers) (cursor : Cursor) (ctx : ASTContext) r
    (h : walk_var_decl hdr cursor ctx = some r) : r.2.var_types.length = ctx.var_types.length := by
  unfold walk_var_decl at h
  split at h
  · simp at h
  · rename_i ctx1 hq
    simp only [Option.some.injEq] at h; subst h
    show (mark_var_decl cursor ctx1).var_types.length = ctx.var_types.length
    rw [mark_var_decl_var_types]
    exact check_tainted_decl_depth hdr _ _ _ hq

theorem walk_binary_operator_depth (hdr : Headers) (cursor : Cursor) (ctx : ASTContext) r
    (h : walk_binary_operator hdr cursor ctx = some r) :
    r.2.var_types.length = ctx.var_types.length := by
  unfold walk_binary_operator at h
  split at h
  · simp at h
  · split at h
    · dsimp only at h
      simp only [Option.map_eq_some'] at h
      obtain ⟨a, ha, rfl⟩ := h
      have := check_tainted_store_depth hdr _ _ _ ha
      rw [this]
      split <;> rfl
    · simp only [Option.some.injEq] at h; subst h; rfl

theorem walk_call_expr_depth (hdr : Headers) (cursor : Cursor) (ctx : ASTContext) r
    (h : walk_call_expr hdr cursor ctx = some r) : r.2.var_types.length = ctx.var_types.length := by
  unfold walk_call_expr at h
  dsimp only at h
  split at h
  · simp only [Option.map_eq_some'] at h
    obtain ⟨a, ha, rfl⟩ := h
    exact check_tainted_store_depth hdr _ _ _ ha
  · split at h
    · split at h
      · simp at h
      · simp only [Option.some.injEq] at h; subst h; rfl
    · simp only [Option.some.injEq] at h; subst h; rfl

theorem walk_parm_decl_depth (hdr : Headers) (cursor : Cursor) (ctx : ASTContext) r
    (h : walk_parm_decl hdr cursor ctx = some r) : r.2.var_types.length = ctx.var_types.length := by
  unfold walk_parm_decl at h
  dsimp only at h
  split at h
  · simp at h
  · rename_i ctx1 hq
    simp only [Option.some.injEq] at h; subst h
    split at hq
    · unfold add_intrinsic_param at hq
      dsimp only at hq
      split at hq
      · simp at hq
      · simp only [Option.some.injEq] at hq; subst hq
        exact replace_back_length _ _
    · simp only [Option.some.injEq] at hq; subst hq
      unfold add_plain_param add_unknown_param
      dsimp only
      split
      · exact set_in_back_length _ _ _
      · rfl

theorem walk_compound_stmt_var_types (ctx : ASTContext) :
    (walk_compound_stmt ctx).var_types = ctx.var_types := by
  unfold walk_compound_stmt
  dsimp only
  repeat' split
  all_goals rfl

theorem function_ast_walker_depth (hdr : Headers) (self : ASTContext → Option (Bool × ASTContext))
    (cursor parent : Cursor) (ctx : ASTContext) r
    (hself : ∀ s1 r1, self s1 = some r1 → r1.2.var_types.length = s1.var_types.length)
    (h : function_ast_walker hdr self cursor parent ctx = some r) :
    r.2.var_types.length = ctx.var_types.length := by
  unfold function_ast_walker at h
  by_cases h1 : ctx.constraint = ConstraintType.IFCONDITION
  · rw [if_pos h1] at h
    exact congrArg List.length (walk_if_condition_depth _ _ _ h)
  rw [if_neg h1] at h
  by_cases h2 : ctx.constraint = ConstraintType.SWITCHSTMT
  · rw [if_pos h2] at h
    exact congrArg List.length (walk_switch_selector_depth _ _ _ h)
  rw [if_neg h2] at h
  unfold walk_statement at h
  by_cases h3 : cursor.kind = CXCursorKind.IfStmt
  · rw [if_pos h3] at h
    exact walk_if_stmt_depth _ _ _ hself h
  rw [if_neg h3] at h
  by_cases h4 : cursor.kind = CXCursorKind.ForStmt ∨ cursor.kind = CXCursorKind.WhileStmt
  · rw [if_pos h4] at h
    exact walk_loop_stmt_depth _ _ _ hself h
  rw [if_neg h4] at h
  by_cases h5 : cursor.kind = CXCursorKind.BreakStmt
  · rw [if_pos h5] at h
    exact walk_break_stmt_depth _ _ h
  rw [if_neg h5] at h
  by_cases h6 : cursor.kind = CXCursorKind.SwitchStmt
  · rw [if_pos h6] at h
    exact walk_switch_stmt_depth _ _ _ hself h
  rw [if_neg h6] at h
  by_cases h7 : cursor.kind = CXCursorKind.VarDecl
  · rw [if_pos h7] at h
    exact walk_var_decl_depth _ _ _ _ h
  rw [if_neg h7] at h
  by_cases h8 : cursor.kind = CXCursorKind.BinaryOperator
  · rw [if_pos h8] at h
    exact walk_binary_operator_depth _ _ _ _ h
  rw [if_neg h8] at h
  by_cases h9 : cursor.kind = CXCursorKind.CallExpr
  · rw [if_pos h9] at h
    exact walk_call_expr_depth _ _ _ _ h
  rw [if_neg h9] at h
  by_cases h10 : cursor.kind = CXCursorKind.ParmDecl
  · rw [if_pos h10] at h
    exact walk_parm_decl_depth _ _ _ _ h
  rw [if_neg h10] at h
  by_cases h11 : cursor.kind = CXCursorKind.CompoundStmt
  · rw [if_pos h11] at h
    simp only [Option.some.injEq] at h; subst h
    exact congrArg List.length (walk_compound_stmt_var_types _)
  rw [if_neg h11] at h
  simp only [Option.some.injEq] at h; subst h; rfl

/-- Every traversal of the function walker ends with the scope stack at the depth it had at
the start. -/
theorem function_walk_depth (hdr : Headers) (cs : List Cursor) (parent : Cursor) (ctx : ASTContext) r
    (h : visit_list (function_ast_walker hdr) parent cs ctx = some r) :
    r.2.var_types.length = ctx.var_types.length :=
  visit_list_rel (function_ast_walker hdr) (fun a b => b.var_types.length = a.var_types.length)
    (fun _ => rfl) (fun _ _ _ h1 h2 => h2.trans h1)
    (fun self c parent s r hs h => function_ast_walker_depth hdr self c parent s r hs h)
    cs parent ctx r h

theorem function_visit_node_depth (hdr : Headers) (parent c : Cursor) (ctx : ASTContext) res
    (h : visit_node (function_ast_walker hdr) parent c ctx = some res) :
    res.2.var_types.length = ctx.var_types.length := by
  have h' : visit_list (function_ast_walker hdr) parent [c] ctx = some res := by
    rw [visit_list_cons, h]
    obtain ⟨b, s1⟩ := res
    cases b <;> simp [visit_list_nil]
  exact function_walk_depth hdr _ _ _ _ h'

theorem ne_nil_of_length_eq {l l' : List Scope} (h : l'.length = l.length) (hne : l ≠ []) :
    l' ≠ [] := by
  intro e
  subst e
  cases l with
  | nil => exact hne rfl
  | cons a t => simp at h

theorem is_empty_of_ne_nil {l : List Scope} (hne : l ≠ []) : l.isEmpty = false := by
  cases l with
  | nil => exact absurd rfl hne
  | cons a t => rfl

theorem function_ast_walker_congr (hdr : Headers)
    (self1 self2 : ASTContext → Option (Bool × ASTContext)) (c parent : Cursor) (ctx : ASTContext)
    (hne : ctx.var_types ≠ []) (h : ∀ s, s.var_types ≠ [] → self1 s = self2 s) :
    function_ast_walker hdr self1 c parent ctx = function_ast_walker hdr self2 c parent ctx := by
  have hif : walk_if_stmt self1 ctx = walk_if_stmt self2 ctx := by
    unfold walk_if_stmt
    dsimp only
    rw [h _ (by simp)]
  have hloop : walk_loop_stmt self1 ctx = walk_loop_stmt self2 ctx := by
    unfold walk_loop_stmt
    dsimp only
    rw [h _ (by simp)]
  have hsw : walk_switch_stmt self1 ctx = walk_switch_stmt self2 ctx := by
    unfold walk_switch_stmt
    rw [h _ (by exact hne)]
    cases self2 { ctx with constraint := ConstraintType.SWITCHSTMT } with
    | none => rfl
    | some q =>
      obtain ⟨b, ctx1⟩ := q
      dsimp only
      rw [h _ (by simp)]
  unfold function_ast_walker walk_statement
  rw [hif, hloop, hsw]

/-- The walk never calls the walker with an empty scope stack: the walker with the check
added traverses like the walker itself. -/
theorem function_walk_scope_check (hdr : Headers) :
    (∀ c : Cursor, ∀ parent ctx, ctx.var_types ≠ [] →
      visit_node (with_scope_check (function_ast_walker hdr)) parent c ctx =
        visit_node (function_ast_walker hdr) parent c ctx) ∧
    (∀ cs : List Cursor, ∀ parent ctx, ctx.var_types ≠ [] →
      visit_list (with_scope_check (function_ast_walker hdr)) parent cs ctx =
        visit_list (function_ast_walker hdr) parent cs ctx) := by
  refine cursor_induction _ _ ?_ ?_ ?_
  · intro d ch args ih parent ctx hne
    rw [visit_node_eq, visit_node_eq]
    have hchk : with_scope_check (function_ast_walker hdr)
        (fun s' => visit_list (with_scope_check (function_ast_walker hdr)) (Cursor.mk d ch args)
          (Cursor.mk d ch args).children s') (Cursor.mk d ch args) parent ctx =
        function_ast_walker hdr
        (fun s' => visit_list (function_ast_walker hdr) (Cursor.mk d ch args)
          (Cursor.mk d ch args).children s') (Cursor.mk d ch args) parent ctx := by
      unfold with_scope_check
      rw [is_empty_of_ne_nil hne]
      simp only [Bool.false_eq_true, if_false]
      exact function_ast_walker_congr hdr _ _ _ _ _ hne (fun s hs => ih _ s hs)
    rw [hchk]
    cases hv : function_ast_walker hdr
        (fun s' => visit_list (function_ast_walker hdr) (Cursor.mk d ch args)
          (Cursor.mk d ch args).children s') (Cursor.mk d ch args) parent ctx with
    | none => rfl
    | some q =>
      obtain ⟨a, s1⟩ := q
      have hlen : s1.var_types.length = ctx.var_types.length :=
        function_ast_walker_depth hdr _ _ _ _ _
          (fun s r h => function_walk_depth hdr _ _ _ _ h) hv
      cases a with
      | Break => rfl
      | Continue => rfl
      | Recurse => exact ih _ s1 (ne_nil_of_length_eq hlen hne)
  · intro parent ctx _
    rw [visit_list_nil, visit_list_nil]
  · intro c cs hc hcs parent ctx hne
    rw [visit_list_cons, visit_list_cons, hc parent ctx hne]
    cases hn : visit_node (function_ast_walker hdr) parent c ctx with
    | none => rfl
    | some q =>
      obtain ⟨b, s1⟩ := q
      have hlen := function_visit_node_depth hdr _ _ _ _ hn
      cases b with
      | true => rfl
      | false => exact hcs parent s1 (ne_nil_of_length_eq hlen hne)

theorem ast_walker_enter_var_types (cursor : Cursor) (ctx : ASTContext) :
    (ast_walker_enter cursor ctx).var_types = ctx.var_types ++ [[]] := by
  unfold ast_walker_enter
  dsimp only
  repeat' split
  all_goals rfl

theorem ast_walker_exit_depth (cursor : Cursor) (n : Nat) (walked c : ASTContext)
    (h : ast_walker_exit cursor n walked = some c) :
    c.var_types.length + 1 = walked.var_types.length := by
  unfold ast_walker_exit at h
  dsimp only at h
  split at h
  · simp at h
  · rename_i p hp
    simp only [Option.some.injEq] at h
    subst h
    have := pop_back_length _ _ hp
    show p.length + 1 = walked.var_types.length
    rw [this]
    repeat' split
    all_goals rfl

/-- C17: when `ast_walker` returns on a function, the scope stack has the depth it had
before; if the function was walked (its USR was not seen before), the walker was never
called with an empty stack (the walk with that check added gives the same result); and
every visit of a cursor by the walker, in particular of an `IfStmt`, `ForStmt`, `WhileStmt`
or `SwitchStmt`, leaves the stack at the depth it had when the cursor was entered. -/
theorem scope_stack_is_balanced_and_never_empty (hdr : Headers)
    (self : ASTContext → Option (Bool × ASTContext)) (fn parent : Cursor) (ctx : ASTContext) r
    (hk : fn.kind = CXCursorKind.FunctionDecl ∨ fn.kind = CXCursorKind.CXXMethod)
    (h : ast_walker hdr self fn parent ctx = some r) :
    r.2.var_types.length = ctx.var_types.length ∧
    (set_contains fn.data.usr ctx.seen_definitions = false →
      ∃ w, clang_visitChildren (function_ast_walker hdr) fn (ast_walker_enter fn ctx) = some w ∧
        clang_visitChildren (with_scope_check (function_ast_walker hdr)) fn
          (ast_walker_enter fn ctx) = some w) ∧
    (∀ (c parent' : Cursor) (s : ASTContext) res,
      visit_node (function_ast_walker hdr) parent' c s = some res →
      res.2.var_types.length = s.var_types.length) := by
  have hne : (ast_walker_enter fn ctx).var_types ≠ [] := by
    rw [ast_walker_enter_var_types]
    simp
  refine ⟨?_, fun hseen => ?_, fun c parent' s res hv => function_visit_node_depth hdr _ _ _ _ hv⟩
  · cases hs : set_contains fn.data.usr ctx.seen_definitions with
    | true =>
      unfold ast_walker at h
      rw [if_pos hk] at h
      dsimp only at h
      rw [hs] at h
      simp only [if_true, Option.some.injEq] at h
      subst h
      rfl
    | false =>
      obtain ⟨walked, hw, hexit, _⟩ := ast_walker_walked hdr self fn parent ctx r hk hs h
      have h1 := function_walk_depth hdr _ _ _ _ hw
      have h2 := ast_walker_exit_depth _ _ _ _ hexit
      rw [ast_walker_enter_var_types] at h1
      simp only [List.length_append, List.length_singleton] at h1
      omega
  · obtain ⟨walked, hw, _, _⟩ := ast_walker_walked hdr self fn parent ctx r hk hseen h
    refine ⟨walked, hw, ?_⟩
    unfold clang_visitChildren at hw ⊢
    rw [(function_walk_scope_check hdr).2 _ _ _ hne]
    exact hw

/-- Instance of C17: the walk of `guarded`, whose body holds a declaration and an if
statement, from the context at the start of a translation unit (empty stack). -/
theorem scope_stack_is_balanced_and_never_empty_witness :
    (ast_walker sample_headers (fun _ => none) sample_fn_if sample_fn_if sample_ctx).map
        (fun r => r.2.var_types.length) = some 0 ∧
    ∃ w, clang_visitChildren (with_scope_check (function_ast_walker sample_headers)) sample_fn_if
        (ast_walker_enter sample_fn_if sample_ctx) = some w ∧ w.2.var_types.length = 1 := by
  have h : ast_walker sample_headers (fun _ => none) sample_fn_if sample_fn_if sample_ctx =
      some (CXChildVisitResult.Continue,
        match ast_walker sample_headers (fun _ => none) sample_fn_if sample_fn_if sample_ctx with
        | some r => r.2
        | none => sample_ctx) := by decide!
  obtain ⟨h1, h2, h3⟩ := scope_stack_is_balanced_and_never_empty sample_headers (fun _ => none)
    sample_fn_if sample_fn_if sample_ctx _ (Or.inl rfl) h
  obtain ⟨w, hw, hchk⟩ := h2 (by decide!)
  have e0 : sample_ctx.var_types.length = 0 := by decide!
  have e1 : (sample_ctx.var_types ++ [[]]).length = 1 := by decide!
  refine ⟨?_, w, hchk, ?_⟩
  · rw [h]
    exact congrArg some (h1.trans e0)
  · have := function_walk_depth sample_headers _ _ _ _ hw
    rw [this, ast_walker_enter_var_types]
    exact e1

/-! ## Canonical names -/

theorem scan_separators_eq_loop (cs : List Char) :
    ∀ (suf pre : List Char) (st : Option Nat × Option Nat), pre ++ suf = cs →
      (List.range' pre.length (suf.length - 1)).foldl
        (fun (st : Option Nat × Option Nat) i =>
          if cs.getD i ' ' = ':' ∧ cs.getD (i + 1) ' ' = ':' then (st.2, some i) else st) st =
        scan_separators suf pre.length st := by
  intro suf
  induction suf with
  | nil => intro pre st _; simp [scan_separators]
  | cons a suf' ih =>
    intro pre st hcs
    cases suf' with
    | nil => simp [scan_separators]
    | cons b rest =>
      have h0 : cs.getD pre.length ' ' = a := by
        rw [← hcs, List.getD_append_right _ _ _ _ (le_refl _)]
        simp
      have h1 : cs.getD (pre.length + 1) ' ' = b := by
        rw [← hcs, List.getD_append_right _ _ _ _ (by omega)]
        simp
      have hlen : (a :: b :: rest).length - 1 = rest.length + 1 := by simp
      rw [hlen, List.range'_succ, List.foldl_cons, h0, h1, scan_separators]
      have := ih (pre ++ [a]) (if a = ':' ∧ b = ':' then (st.2, some pre.length) else st)
        (by rw [← hcs]; simp)
      simp only [List.length_append, List.length_singleton, List.length_cons,
        Nat.add_sub_cancel] at this
      exact this

theorem scan_separators_ident (w : List Char) (hw : ∀ c ∈ w, c ≠ ':') :
    ∀ (t : List Char) (off : Nat) (st : Option Nat × Option Nat),
      scan_separators (w ++ t) off st = scan_separators t (off + w.length) st := by
  induction w with
  | nil => intro t off st; simp
  | cons a w' ih =>
    intro t off st
    have ha : a ≠ ':' := hw a (List.mem_cons_self _ _)
    have hw' : ∀ c ∈ w', c ≠ ':' := fun c hc => hw c (List.mem_cons_of_mem _ hc)
    cases hq : w' ++ t with
    | nil =>
      have ht : t = [] := (List.append_eq_nil.1 hq).2
      have hw0 : w' = [] := (List.append_eq_nil.1 hq).1
      subst ht
      subst hw0
      cases st
      simp [scan_separators]
    | cons b rest =>
      have : a :: w' ++ t = a :: b :: rest := by rw [List.cons_append, hq]
      rw [this, scan_separators, if_neg (fun h => ha h.1), ← hq, ih hw' t (off + 1) st]
      simp only [List.length_cons]
      congr 1
      omega

theorem scan_separators_prefix (p : List Char) :
    ∀ (t : List Char) (off : Nat) (st : Option Nat × Option Nat),
      ∃ st', scan_separators (p ++ ':' :: ':' :: t) off st =
        scan_separators (':' :: ':' :: t) (off + p.length) st' := by
  induction p with
  | nil => intro t off st; exact ⟨st, by simp⟩
  | cons a p' ih =>
    intro t off st
    cases hq : p' ++ ':' :: ':' :: t with
    | nil => simp at hq
    | cons b rest =>
      have : a :: p' ++ ':' :: ':' :: t = a :: b :: rest := by rw [List.cons_append, hq]
      obtain ⟨st', h⟩ := ih t (off + 1) (if a = ':' ∧ b = ':' then (st.2, some off) else st)
      refine ⟨st', ?_⟩
      rw [this, scan_separators, ← hq, h]
      simp only [List.length_cons]
      congr 1
      omega

/-- A separator followed by an identifier: the separator is recorded and the scan goes on
behind the identifier. -/
theorem scan_separators_component (w : List Char) (hne : w ≠ []) (hw : ∀ c ∈ w, c ≠ ':')
    (t : List Char) (off : Nat) (st : Option Nat × Option Nat) :
    scan_separators (':' :: ':' :: (w ++ t)) off st =
      scan_separators t (off + 2 + w.length) (st.2, some off) := by
  cases w with
  | nil => exact absurd rfl hne
  | cons a w' =>
    have ha : a ≠ ':' := hw a (List.mem_cons_self _ _)
    rw [scan_separators, if_pos ⟨rfl, rfl⟩]
    rw [List.cons_append, scan_separators, if_neg (fun h => ha h.2)]
    rw [← List.cons_append, scan_separators_ident (a :: w') hw t (off + 1 + 1) _]

theorem get_smallest_context_of_scan (s : String) (h3 : ¬ s.data.length < 3) :
    get_smallest_context s =
      match (scan_separators s.data 0 (none, none)).1 with
      | some second_to_last_index => String.mk (s.data.drop (second_to_last_index + 2))
      | none => s := by
  unfold get_smallest_context
  dsimp only
  rw [if_neg h3, List.range_eq_range']
  have := scan_separators_eq_loop s.data s.data [] (none, none) rfl
  simp only [List.length_nil] at this
  rw [this]

/-- C23 fails from two components on: the whole context is returned for two components and
the last two components for three. -/
theorem get_smallest_context_keeps_two_components :
    get_smallest_context "Outer::Inner" = "Outer::Inner" ∧
    get_smallest_context "ns::Outer::Inner" = "Outer::Inner" := by
  decide

/-- C23 as amended: for non-empty identifiers without a colon, `get_smallest_context`
returns a single identifier unchanged, returns a context of two identifiers unchanged, and
for a context of three or more (any prefix `p`, then `::a::b`) returns the last two
components `a::b`. -/
theorem get_smallest_context_returns_last_two (p a b : String)
    (ha : a ≠ "") (hb : b ≠ "") (hca : ∀ c ∈ a.data, c ≠ ':') (hcb : ∀ c ∈ b.data, c ≠ ':') :
    get_smallest_context a = a ∧
    get_smallest_context (a ++ "::" ++ b) = a ++ "::" ++ b ∧
    get_smallest_context (p ++ "::" ++ a ++ "::" ++ b) = a ++ "::" ++ b := by
  have hna : a.data ≠ [] := fun h => ha (String.ext h)
  have hnb : b.data ≠ [] := fun h => hb (String.ext h)
  have hla : 0 < a.data.length := List.length_pos.2 hna
  have hlb : 0 < b.data.length := List.length_pos.2 hnb
  refine ⟨?_, ?_, ?_⟩
  · by_cases h3 : a.data.length < 3
    · unfold get_smallest_context
      dsimp only
      rw [if_pos h3]
    · rw [get_smallest_context_of_scan a h3]
      have := scan_separators_ident a.data hca [] 0 (none, none)
      simp only [List.append_nil] at this
      rw [this]
      simp [scan_separators]
  · have hd : (a ++ "::" ++ b).data = a.data ++ ':' :: ':' :: (b.data ++ []) := by
      simp [String.data_append]
    have h3 : ¬ (a ++ "::" ++ b).data.length < 3 := by
      rw [hd]; simp only [List.length_append, List.length_cons]; omega
    rw [get_smallest_context_of_scan _ h3, hd, scan_separators_ident a.data hca,
      scan_separators_component b.data hnb hcb]
    simp [scan_separators]
  · have hd : (p ++ "::" ++ a ++ "::" ++ b).data =
        p.data ++ ':' :: ':' :: (a.data ++ ':' :: ':' :: (b.data ++ [])) := by
      simp [String.data_append]
    have h3 : ¬ (p ++ "::" ++ a ++ "::" ++ b).data.length < 3 := by
      rw [hd]; simp only [List.length_append, List.length_cons]; omega
    rw [get_smallest_context_of_scan _ h3]
    obtain ⟨st', hst⟩ := scan_separators_prefix p.data
      (a.data ++ ':' :: ':' :: (b.data ++ [])) 0 (none, none)
    have hfin : scan_separators (p ++ "::" ++ a ++ "::" ++ b).data 0 (none, none) =
        (some (p.data.length), some (p.data.length + 2 + a.data.length)) := by
      rw [hd, hst, scan_separators_component a.data hna hca,
        scan_separators_component b.data hnb hcb]
      simp [scan_separators]
    rw [hfin]
    simp only
    apply String.ext
    rw [hd]
    have e : p.data ++ ':' :: ':' :: (a.data ++ ':' :: ':' :: (b.data ++ [])) =
        (p.data ++ [':', ':']) ++ (a.data ++ ':' :: ':' :: (b.data ++ [])) := by simp
    show List.drop (p.data.length + 2) _ = _
    rw [e, List.drop_left' (by simp)]
    simp [String.data_append]

/-- Instance of C23 as amended: `Outer`, `Outer::Inner` and `ns::Outer::Inner`. -/
theorem get_smallest_context_returns_last_two_witness :
    get_smallest_context "Outer" = "Outer" ∧
    get_smallest_context ("Outer" ++ "::" ++ "Inner") = "Outer" ++ "::" ++ "Inner" ∧
    get_smallest_context ("ns" ++ "::" ++ "Outer" ++ "::" ++ "Inner") =
      "Outer" ++ "::" ++ "Inner" :=
  get_smallest_context_returns_last_two "ns" "Outer" "Inner" (by decide) (by decide)
    (by decide) (by decide)

theorem intercalate_go_snoc (sep f : String) :
    ∀ (fs : List String) (acc : String),
      String.intercalate.go acc sep (fs ++ [f]) = String.intercalate.go acc sep fs ++ sep ++ f := by
  intro fs
  induction fs with
  | nil => intro acc; simp [String.intercalate.go]
  | cons a fs ih => intro acc; simp [String.intercalate.go, ih]

/-- Visiting a spine with the pretty-printing walker puts the rendered chain in front of
what is already collected. -/
theorem pretty_print_walker_spine (x : String) (fs : List String) (c : Cursor)
    (h : Spine x fs c) :
    ∀ (parent : Cursor) (s : String),
      visit_node pretty_print_memberRefExpr_walker parent c s =
        some (false, String.intercalate.go x "::" fs ++ s) := by
  induction h with
  | base c hk hs hch =>
    intro parent s
    rw [visit_node_eq]
    simp [pretty_print_memberRefExpr_walker, hk, hs, hch, visit_list_nil, String.intercalate.go]
  | member c inner fs hk hch _ ih =>
    intro parent s
    rw [visit_node_eq]
    simp [pretty_print_memberRefExpr_walker, hk, hch, visit_list_cons, ih, visit_list_nil,
      intercalate_go_snoc, String.append_assoc]
  | wrapped c inner fs hk hch _ ih =>
    intro parent s
    rw [visit_node_eq]
    simp [pretty_print_memberRefExpr_walker, hk, hch, visit_list_cons, ih, visit_list_nil]

/-- C24: for a member-access chain `x.f1. ... .fn` whose outermost cursor `c` (the
`MemberRefExpr` of `fn`) has as only child the spine of `x.f1. ... .f(n-1)`, with unexposed
wrappers anywhere in between, `pretty_print_memberRefExpr` returns `x::f1:: ... ::fn`. The
kind of `c` itself is not looked at. -/
theorem pretty_print_memberRefExpr_renders_chain (x : String) (fs : List String)
    (c inner : Cursor) (hch : c.children = [inner]) (hs : Spine x fs inner) :
    pretty_print_memberRefExpr c =
      some (String.intercalate "::" (x :: (fs ++ [c.data.spelling]))) := by
  unfold pretty_print_memberRefExpr clang_visitChildren
  rw [hch, visit_list_cons, pretty_print_walker_spine x fs inner hs]
  simp [visit_list_nil, String.intercalate, intercalate_go_snoc, String.append_assoc]

/-- C25, evaluated where it fails: in
`void cycle() { mavlink_msg_t m; if (m.frame == MAV_FRAME_GLOBAL) { } switch (0) { } }`
the selector `0` has no child cursor, so `check_mavlink` is not called for the switch and
`in_mav_constraint` still holds what the `if` left: the frame-switch line is printed. The
same function without the `if` prints no frame-switch line. -/
theorem literal_switch_after_frame_if_prints_frame_switch_line :
    sample_literal_switch.children.map (fun c => (c.kind, c.children.length)) =
      [(CXCursorKind.IntegerLiteral, 0), (CXCursorKind.CompoundStmt, 0)] ∧
    (ast_walker sample_headers (fun _ => none) sample_fn_stale_switch sample_fn_stale_switch
        sample_ctx).map (fun r => r.2.cout) = some [frame_switch_line] ∧
    (ast_walker sample_headers (fun _ => none) sample_fn_literal_switch sample_fn_literal_switch
        sample_ctx).map (fun r => r.2.cout) = some [bug_line "cycle"] := by
  decide!

/-- C27, evaluated where it fails: for `gain * meters_value` with `gain` untyped, the
traversal for the left operand (`ctaw_childno = 1`) finds nothing at `gain`, is not stopped
there and returns the type of `meters_value`; the left operand alone yields no type. The
store `y = gain * meters_value;` is typed with the dimension of square metres and the
declaration `auto x = gain * meters_value;` binds `x` to it. -/
theorem product_left_operand_typed_from_right_operand :
    (visit_list (type_check_rhs sample_headers) sample_product_untyped_left
        (sample_product_untyped_left.children.take 1)
        (none, { sample_method_ctx with ctaw_childno := 1 })).map (fun r => r.2.1) = some none ∧
    (clang_visitChildren (type_check_rhs sample_headers) sample_product_untyped_left
        (none, { sample_method_ctx with ctaw_childno := 1 })).map (fun r => r.2.1) =
      some (some sample_meter) ∧
    (clang_visitChildren (type_check_rhs sample_headers) sample_product_untyped_left
        (none, { sample_method_ctx with ctaw_childno := 0 })).map (fun r => r.2.1) =
      some (some sample_meter) ∧
    (store_rhs_type sample_headers sample_product_untyped_left_store sample_method_ctx).map
        (fun r => r.1.map (fun t => t.dimension)) =
      some (some (some ⟨[2, 0, 0, 0, 0, 0, 0], 1, 1⟩)) ∧
    (check_tainted_decl sample_headers sample_product_untyped_left_decl sample_method_ctx).map
        (fun c => (get_var_typeinfo "x" c.var_types).map (fun t => t.dimension)) =
      some (some (some ⟨[2, 0, 0, 0, 0, 0, 0], 1, 1⟩)) := by
  decide!

/-- C28, evaluated where it fails: the predicate of
`void relay() { mavlink_msg_t m; if (cfg.mode == m.frame) { } }` is a `==` whose right
operand is the frame-field access `m.frame`; `check_mavlink` stops at `cfg`, the first
`DeclRefExpr` below a `MemberRefExpr`, and `had_mav_constraint` stays false: the walk ends
with the flags `(had_taint, had_fn_definition, had_mav_constraint) = (true, true, false)`
and the BUG line is printed. -/
theorem frame_field_on_right_of_member_access_is_missed :
    (get_binary_operator sample_frame_test_right = some "==" ∧
      sample_frame_test_right.children.drop 1 = [sample_frame_access] ∧
      walk_flags sample_headers sample_fn_frame_on_right sample_ctx = some (true, true, false) ∧
      (ast_walker sample_headers (fun _ => none) sample_fn_frame_on_right sample_fn_frame_on_right
          sample_ctx).map (fun r => r.2.cout) = some [bug_line "relay"]) ∧
    FrameAccess sample_ctx.types_to_frame_field sample_frame_access :=
  ⟨⟨by decide!, rfl, by decide!, by decide!⟩,
    FrameAccess.wrapped _ _ _ (by decide!) rfl
      (FrameAccess.direct _ _ _ (by decide!) rfl (by decide!) (by decide!))⟩

/-- C29, evaluated where it fails: in `void take(const mavlink_msg_t &p) { alt = p.x; }`
the parameter handling binds `p::x` (unit 0), but the store path names the access
`::p::x` (`get_member_access_str`: semantic context, `::`, object, `::`, field), finds no
entry and leaves the right-hand side untyped, so the store binds nothing. The declaration
`double a = p.x;` in the same scope names the access `p::x`
(`pretty_print_memberRefExpr`) and binds `a` to the entry. -/
theorem field_store_rhs_is_not_typed_by_scope_entry :
    (get_var_typeinfo "p::x" sample_after_parm_p.var_types).map (fun t => t.units) = some [0] ∧
    sample_field_access.children.map (fun c => get_member_access_str sample_after_parm_p c) =
      [some "::p::x"] ∧
    sample_field_access.children.map pretty_print_memberRefExpr = [some "p::x"] ∧
    (store_rhs_type sample_headers sample_field_store sample_after_parm_p).map (fun r => r.1) =
      some none ∧
    (check_tainted_store sample_headers sample_field_store sample_after_parm_p).map
        (fun c => (c.var_types, c.cout)) =
      some (sample_after_parm_p.var_types, sample_after_parm_p.cout) ∧
    (check_tainted_decl sample_headers sample_field_decl sample_after_parm_p).map
        (fun c => get_var_typeinfo "a" c.var_types) =
      some (get_var_typeinfo "p::x" sample_after_parm_p.var_types) := by
  decide!

/-- Instance of C24: `m.pos.x` is rendered `m::pos::x`. -/
theorem pretty_print_memberRefExpr_renders_chain_witness :
    pretty_print_memberRefExpr sample_chain = some "m::pos::x" :=
  (pretty_print_memberRefExpr_renders_chain "m" ["pos"] sample_chain sample_chain_cast rfl
    (Spine.wrapped sample_chain_cast sample_chain_pos ["pos"] rfl rfl
      (Spine.member sample_chain_pos sample_chain_object [] rfl rfl
        (Spine.base sample_chain_object rfl rfl rfl)))).trans (by decide)

/-! ## Unit identifiers -/

theorem unit_ids_extended_refl (m : StdMap String Int) (n : Int) : unit_ids_extended m n m n :=
  ⟨le_refl _, fun _ _ h => h, fun _ _ h => Or.inl h⟩

theorem unit_ids_extended_trans {m : StdMap String Int} {n : Int} {m1 : StdMap String Int}
    {n1 : Int} {m2 : StdMap String Int} {n2 : Int}
    (h1 : unit_ids_extended m n m1 n1) (h2 : unit_ids_extended m1 n1 m2 n2) :
    unit_ids_extended m n m2 n2 := by
  obtain ⟨a1, b1, c1⟩ := h1
  obtain ⟨a2, b2, c2⟩ := h2
  refine ⟨le_trans a1 a2, fun k v h => b2 k v (b1 k v h), fun k v h => ?_⟩
  rcases c2 k v h with h | h
  · rcases c1 k v h with h | h
    · exact Or.inl h
    · exact Or.inr ⟨h.1, by omega⟩
  · exact Or.inr ⟨by omega, h.2⟩

/-- One unit name: the map stays dense, is only extended, and holds the name afterwards. -/
theorem vars_to_typeinfo_unit_dense (sd : String → Option Dimension)
    (st st1 : TypeInfo × StdMap String Int × Int) (u : String)
    (hd : unit_ids_dense st.2.1 st.2.2) (h0 : 0 ≤ st.2.2)
    (h : vars_to_typeinfo_unit sd st u = some st1) :
    unit_ids_dense st1.2.1 st1.2.2 ∧ unit_ids_extended st.2.1 st.2.2 st1.2.1 st1.2.2 ∧
      (∃ v, map_find u st1.2.1 = some v) ∧ st1.2.2 ≤ st.2.2 + 1 := by
  obtain ⟨ti, m, n⟩ := st
  obtain ⟨hinj, himg, hsur⟩ := hd
  unfold vars_to_typeinfo_unit at h
  dsimp only at h h0 hinj himg hsur ⊢
  cases hq : map_find u m with
  | some id =>
    rw [hq] at h
    simp only [Option.some.injEq] at h
    subst h
    exact ⟨⟨hinj, himg, hsur⟩, unit_ids_extended_refl _ _, ⟨id, hq⟩, by dsimp only; omega⟩
  | none =>
    rw [hq] at h
    dsimp only at h
    split at h
    · simp at h
    · simp only [Option.some.injEq] at h
      subst h
      dsimp only
      have hfind : ∀ k, map_find k (map_set u n m) = if k = u then some n else map_find k m :=
        fun k => map_find_map_set k u n m
      have hn : ∀ k, map_find k m ≠ some n := fun k hk => by
        have := (himg k n hk).2
        omega
      refine ⟨⟨?_, ?_, ?_⟩, ⟨by omega, ?_, ?_⟩, ⟨n, by rw [hfind, if_pos rfl]⟩, le_refl _⟩
      · intro k1 k2 v h1 h2
        rw [hfind] at h1 h2
        by_cases e1 : k1 = u
        · by_cases e2 : k2 = u
          · rw [e1, e2]
          · rw [if_pos e1] at h1
            rw [if_neg e2] at h2
            simp only [Option.some.injEq] at h1
            subst h1
            exact absurd h2 (hn k2)
        · by_cases e2 : k2 = u
          · rw [if_neg e1] at h1
            rw [if_pos e2] at h2
            simp only [Option.some.injEq] at h2
            subst h2
            exact absurd h1 (hn k1)
          · rw [if_neg e1] at h1
            rw [if_neg e2] at h2
            exact hinj k1 k2 v h1 h2
      · intro k v hk
        rw [hfind] at hk
        by_cases e : k = u
        · rw [if_pos e] at hk
          simp only [Option.some.injEq] at hk
          subst hk
          exact ⟨h0, by omega⟩
        · rw [if_neg e] at hk
          have := himg k v hk
          exact ⟨this.1, by omega⟩
      · intro v h0 hv
        by_cases e : v = n
        · exact ⟨u, by rw [hfind, if_pos rfl, e]⟩
        · obtain ⟨k, hk⟩ := hsur v h0 (by omega)
          refine ⟨k, ?_⟩
          rw [hfind, if_neg ?_]
          · exact hk
          · intro ek
            rw [ek, hq] at hk
            simp at hk
      · intro k v hk
        rw [hfind, if_neg ?_]
        · exact hk
        · intro ek
          rw [ek, hq] at hk
          simp at hk
      · intro k v hk
        rw [hfind] at hk
        by_cases e : k = u
        · rw [if_pos e] at hk
          simp only [Option.some.injEq] at hk
          subst hk
          exact Or.inr ⟨le_refl _, by omega⟩
        · rw [if_neg e] at hk
          exact Or.inl hk

theorem vars_to_typeinfo_unit_returns (sd : String → Option Dimension)
    (st : TypeInfo × StdMap String Int × Int) (u : String) (h : st.2.2 < 2147483647) :
    ∃ st1, vars_to_typeinfo_unit sd st u = some st1 := by
  unfold vars_to_typeinfo_unit
  cases hq : map_find u st.2.1 with
  | some id => exact ⟨_, rfl⟩
  | none =>
    dsimp only
    rw [if_neg (by omega)]
    exact ⟨_, rfl⟩

/-- The loop over the unit names of one entry. -/
theorem vars_to_typeinfo_units_dense (sd : String → Option Dimension) :
    ∀ (us : List String) (st : TypeInfo × StdMap String Int × Int),
      unit_ids_dense st.2.1 st.2.2 → 0 ≤ st.2.2 → st.2.2 + us.length ≤ 2147483647 →
      ∃ st1, vars_to_typeinfo_units sd us st = some st1 ∧
        unit_ids_dense st1.2.1 st1.2.2 ∧ unit_ids_extended st.2.1 st.2.2 st1.2.1 st1.2.2 ∧
        (∀ u ∈ us, ∃ v, map_find u st1.2.1 = some v) ∧ st1.2.2 ≤ st.2.2 + us.length := by
  intro us
  induction us with
  | nil =>
    intro st hd _ _
    exact ⟨st, rfl, hd, unit_ids_extended_refl _ _, by simp, by simp⟩
  | cons u rest ih =>
    intro st hd h0 hroom
    simp only [List.length_cons, Nat.cast_add, Nat.cast_one] at hroom
    obtain ⟨sa, ha⟩ := vars_to_typeinfo_unit_returns sd st u (by omega)
    obtain ⟨da, ea, fa, la⟩ := vars_to_typeinfo_unit_dense sd st sa u hd h0 ha
    obtain ⟨sb, hb, db, eb, fb, lb⟩ := ih sa da (le_trans h0 ea.1) (by omega)
    refine ⟨sb, ?_, db, unit_ids_extended_trans ea eb, ?_, ?_⟩
    · rw [vars_to_typeinfo_units, ha]
      exact hb
    · intro x hx
      rcases List.mem_cons.1 hx with hx | hx
      · obtain ⟨v, hv⟩ := fa
        exact ⟨v, eb.2.1 _ _ (hx ▸ hv)⟩
      · exact fb x hx
    · simp only [List.length_cons, Nat.cast_add, Nat.cast_one]
      omega

/-- The loop over the entries. -/
theorem vars_to_typeinfo_loop_dense (hdr : Headers) (fr : MAVFrame)
    (sd : String → Option Dimension) :
    ∀ (vars : List VariableEntry) (st : StdMap String TypeInfo × StdMap String Int × Int),
      unit_ids_dense st.2.1 st.2.2 → 0 ≤ st.2.2 →
      st.2.2 + unit_name_count vars ≤ 2147483647 →
      ∃ st1, vars_to_typeinfo_loop hdr fr sd vars st = some st1 ∧
        unit_ids_dense st1.2.1 st1.2.2 ∧ unit_ids_extended st.2.1 st.2.2 st1.2.1 st1.2.2 ∧
        (∀ ve ∈ vars, ∀ u ∈ ve.semantic_info.units, ∃ v, map_find u st1.2.1 = some v) := by
  intro vars
  induction vars with
  | nil =>
    intro st hd _ _
    exact ⟨st, rfl, hd, unit_ids_extended_refl _ _, by simp⟩
  | cons ve rest ih =>
    intro st hd h0 hroom
    have hc : unit_name_count (ve :: rest) =
        ve.semantic_info.units.length + unit_name_count rest := by
      simp [unit_name_count]
    rw [hc] at hroom
    simp only [Nat.cast_add] at hroom
    obtain ⟨sa, ha, da, ea, fa, la⟩ := vars_to_typeinfo_units_dense sd ve.semantic_info.units
      (vars_to_typeinfo_frames hdr fr ve.semantic_info.coordinate_frames TypeInfo.empty,
        st.2.1, st.2.2) hd h0 (by dsimp only; omega)
    obtain ⟨ti, m1, n1⟩ := sa
    dsimp only at da ea fa la
    obtain ⟨sb, hb, db, eb, fb⟩ := ih
      (map_set ve.variable_name
        { ti with source := ti.source ++ [⟨TypeSourceKind.SOURCE_INTRINSIC, -1, ""⟩] } st.1,
        m1, n1) da (le_trans h0 ea.1) (by dsimp only; omega)
    dsimp only at db eb fb
    refine ⟨sb, ?_, db, unit_ids_extended_trans ea eb, ?_⟩
    · rw [vars_to_typeinfo_loop, vars_to_typeinfo_entry]
      dsimp only
      rw [ha]
      exact hb
    · intro x hx u hu
      rcases List.mem_cons.1 hx with hx | hx
      · subst hx
        obtain ⟨v, hv⟩ := fa u hu
        exact ⟨v, eb.2.1 _ _ hv⟩
      · exact fb x hx u hu

/-- C21: called with a `unit_to_id` that is injective with image exactly `[0, type_id)`
(`type_id` a count, with room for the new names below the largest `int`),
`vars_to_typeinfo` returns, `unit_to_id` is again injective with image exactly
`[0, type_id1)` for the updated counter, every name already in the map keeps its ID, and
every unit name of the entries that was unknown has an ID from `type_id` on, which no name
had before. -/
theorem vars_to_typeinfo_keeps_unit_ids_dense (hdr : Headers) (fr : MAVFrame)
    (string_to_dimension : String → Option Dimension) (vars : List VariableEntry)
    (unit_to_id : StdMap String Int) (type_id : Int)
    (hdense : unit_ids_dense unit_to_id type_id) (h0 : 0 ≤ type_id)
    (hroom : type_id + unit_name_count vars ≤ 2147483647) :
    ∃ results unit_to_id1 type_id1,
      vars_to_typeinfo hdr fr string_to_dimension vars unit_to_id type_id =
        some (results, unit_to_id1, type_id1) ∧
      unit_ids_dense unit_to_id1 type_id1 ∧ type_id ≤ type_id1 ∧
      (∀ k v, map_find k unit_to_id = some v → map_find k unit_to_id1 = some v) ∧
      (∀ ve ∈ vars, ∀ u ∈ ve.semantic_info.units, map_find u unit_to_id = none →
        ∃ v, map_find u unit_to_id1 = some v ∧ type_id ≤ v ∧ v < type_id1 ∧
          ∀ k, map_find k unit_to_id ≠ some v) := by
  obtain ⟨st1, h, d1, e1, f1⟩ := vars_to_typeinfo_loop_dense hdr fr string_to_dimension vars
    ([], unit_to_id, type_id) hdense h0 hroom
  obtain ⟨results, m1, n1⟩ := st1
  dsimp only at d1 e1 f1
  refine ⟨results, m1, n1, h, d1, e1.1, e1.2.1, ?_⟩
  intro ve hve u hu hnone
  obtain ⟨v, hv⟩ := f1 ve hve u hu
  rcases e1.2.2 u v hv with hold | hnew
  · rw [hnone] at hold
    simp at hold
  · refine ⟨v, hv, hnew.1, hnew.2, fun k hk => ?_⟩
    have := (hdense.2.1 k v hk).2
    omega

/-! ## Ranges of frames and units -/

theorem mem_map_set {κ α : Type} [DecidableEq κ] [KeyOrd κ] (k : κ) (v : α) (p : κ × α) :
    ∀ m : StdMap κ α, p ∈ map_set k v m → p = (k, v) ∨ p ∈ m := by
  intro m
  induction m with
  | nil => intro h; simp [map_set] at h; exact Or.inl h
  | cons q rest ih =>
    obtain ⟨k0, v0⟩ := q
    intro h
    unfold map_set at h
    by_cases h1 : k = k0
    · rw [if_pos h1] at h
      rcases List.mem_cons.1 h with h | h
      · exact Or.inl (by rw [h, h1])
      · exact Or.inr (List.mem_cons_of_mem _ h)
    · rw [if_neg h1] at h
      by_cases h2 : KeyOrd.lt k k0 = true
      · rw [if_pos h2] at h
        rcases List.mem_cons.1 h with h | h
        · exact Or.inl h
        · exact Or.inr h
      · rw [if_neg h2] at h
        rcases List.mem_cons.1 h with h | h
        · exact Or.inr (by rw [h]; exact List.mem_cons_self _ _)
        · rcases ih h with h | h
          · exact Or.inl h
          · exact Or.inr (List.mem_cons_of_mem _ h)

theorem mem_of_map_find {κ α : Type} [DecidableEq κ] (k : κ) (v : α) :
    ∀ m : StdMap κ α, map_find k m = some v → (k, v) ∈ m := by
  intro m
  induction m with
  | nil => intro h; simp [map_find] at h
  | cons q rest ih =>
    obtain ⟨k0, v0⟩ := q
    intro h
    unfold map_find at h
    by_cases h1 : k = k0
    · rw [if_pos h1] at h
      simp only [Option.some.injEq] at h
      rw [h1, h]
      exact List.mem_cons_self _ _
    · rw [if_neg h1] at h
      exact List.mem_cons_of_mem _ (ih h)

theorem mem_insert_range_into (first last i : Int) (s : StdSet Int) :
    i ∈ insert_range first last s ↔ i ∈ s ∨ (first ≤ i ∧ i < last) := by
  have h := mem_insert_range first last i
  unfold insert_range at h ⊢
  rw [mem_set_insert_all] at h ⊢
  simp only [List.not_mem_nil, false_or] at h
  rw [h]

theorem in_range_mono (hdr : Headers) {n n1 : Int} (h : n ≤ n1) (ti : TypeInfo)
    (hr : ti.in_range hdr n) : ti.in_range hdr n1 :=
  ⟨hr.1, fun u hu => ⟨(hr.2 u hu).1, lt_of_lt_of_le (hr.2 u hu).2 h⟩⟩

theorem get_var_typeinfo_in_range (hdr : Headers) (n : Int) (varname : String)
    (var_types : List Scope) (t : TypeInfo) (hs : scopes_in_range hdr n var_types)
    (h : get_var_typeinfo varname var_types = some t) : t.in_range hdr n := by
  unfold get_var_typeinfo at h
  obtain ⟨m, hm, hf⟩ := List.exists_of_findSome?_eq_some h
  exact hs m (List.mem_reverse.1 hm) _ (mem_of_map_find _ _ _ hf)

theorem merge_typeinfo_in_range (hdr : Headers) (n : Int) (dst src : TypeInfo)
    (hd : dst.in_range hdr n) (hs : src.in_range hdr n) :
    (merge_typeinfo dst src).in_range hdr n := by
  unfold merge_typeinfo TypeInfo.in_range
  dsimp only
  constructor
  · intro f hf
    rcases (mem_set_insert_all f _ _).1 hf with h | h
    · exact hd.1 f h
    · exact hs.1 f h
  · intro u hu
    rcases (mem_set_insert_all u _ _).1 hu with h | h
    · exact hd.2 u h
    · exact hs.2 u h

theorem unify_scopes_in_range (hdr : Headers) (n : Int) :
    ∀ (latest old : StdMap String TypeInfo), scope_in_range hdr n old →
      scope_in_range hdr n latest → scope_in_range hdr n (unify_scopes old latest) := by
  intro latest
  unfold unify_scopes
  induction latest with
  | nil => intro old ho _; exact ho
  | cons q rest ih =>
    intro old ho hl
    rw [List.foldl_cons]
    apply ih
    · cases hq : map_find q.1 old with
      | none => simp only [hq]; exact ho
      | some v =>
        simp only [hq]
        intro p hp
        rcases mem_map_set _ _ _ _ hp with h | h
        · rw [h]
          exact merge_typeinfo_in_range hdr n _ _ (ho _ (mem_of_map_find _ _ _ hq))
            (hl q (List.mem_cons_self _ _))
        · exact ho p h
    · exact fun p hp => hl p (List.mem_cons_of_mem _ hp)

theorem add_inner_vars_in_range (hdr : Headers) (n : Int) (hG : 0 ≤ hdr.MAV_FRAME_GLOBAL)
    (t name : String) (table : StdMap String (StdMap String Int)) (source : TypeSource)
    (tinfo : Scope) (htab : ∀ e ∈ table, ∀ q ∈ e.2, 0 ≤ q.2 ∧ q.2 < n)
    (hs : scope_in_range hdr n tinfo) :
    scope_in_range hdr n (add_inner_vars hdr t name table source tinfo) := by
  unfold add_inner_vars
  cases hq : map_find t table with
  | none => exact hs
  | some fields =>
    dsimp only
    have hf : ∀ q ∈ fields, 0 ≤ q.2 ∧ q.2 < n := htab _ (mem_of_map_find _ _ _ hq)
    clear hq
    induction fields generalizing tinfo with
    | nil => exact hs
    | cons q rest ih =>
      rw [List.foldl_cons]
      apply ih
      · intro p hp
        rcases mem_map_set _ _ _ _ hp with h | h
        · rw [h]
          have hold : (map_at_default TypeInfo.empty (name ++ "::" ++ q.1) tinfo).in_range hdr n := by
            unfold map_at_default
            cases hm : map_find (name ++ "::" ++ q.1) tinfo with
            | none => exact ⟨by simp [TypeInfo.empty], by simp [TypeInfo.empty]⟩
            | some v => exact hs _ (mem_of_map_find _ _ _ hm)
          constructor
          · intro f hf1
            rcases (mem_insert_range_into _ _ _ _).1 hf1 with h1 | h1
            · exact hold.1 f h1
            · exact ⟨by omega, by omega⟩
          · intro u hu
            rcases (mem_set_insert _ _ _).1 hu with h1 | h1
            · rw [h1]; exact hf q (List.mem_cons_self _ _)
            · exact hold.2 u h1
        · exact hs p h
      · exact fun x hx => hf x (List.mem_cons_of_mem _ hx)

theorem mem_set_in_back (name : String) (ti : TypeInfo) :
    ∀ (l : List Scope) (m : Scope), m ∈ set_in_back name ti l →
      m ∈ l ∨ ∃ m0 ∈ l, m = map_set name ti m0 := by
  intro l
  induction l with
  | nil => intro m h; simp [set_in_back] at h
  | cons a rest ih =>
    intro m h
    cases rest with
    | nil =>
      simp only [set_in_back, List.mem_singleton] at h
      exact Or.inr ⟨a, List.mem_cons_self _ _, h⟩
    | cons b rest1 =>
      have e : set_in_back name ti (a :: b :: rest1) = a :: set_in_back name ti (b :: rest1) := rfl
      rw [e] at h
      rcases List.mem_cons.1 h with h | h
      · exact Or.inl (by rw [h]; exact List.mem_cons_self _ _)
      · rcases ih m h with h1 | ⟨m0, hm0, h1⟩
        · exact Or.inl (List.mem_cons_of_mem _ h1)
        · exact Or.inr ⟨m0, List.mem_cons_of_mem _ hm0, h1⟩

theorem set_in_back_in_range (hdr : Headers) (n : Int) (name : String) (ti : TypeInfo)
    (l : List Scope) (ht : ti.in_range hdr n) (hs : scopes_in_range hdr n l) :
    scopes_in_range hdr n (set_in_back name ti l) := by
  intro m hm
  rcases mem_set_in_back name ti l m hm with h | ⟨m0, hm0, h⟩
  · exact hs m h
  · rw [h]
    intro p hp
    rcases mem_map_set _ _ _ _ hp with h1 | h1
    · rw [h1]; exact ht
    · exact hs m0 hm0 p h1

theorem universal_in_range (hdr : Headers) (n first : Int) (h0 : 0 ≤ first) (source : List TypeSource)
    (d : Option Dimension) :
    ({ frames := insert_range first hdr.MAV_FRAME_NONE [], units := insert_range 0 n []
       source := source, dimension := d } : TypeInfo).in_range hdr n := by
  constructor
  · intro f hf
    have := (mem_insert_range _ _ _).1 hf
    exact ⟨by omega, by omega⟩
  · intro u hu
    exact (mem_insert_range _ _ _).1 hu

theorem add_unknown_param_in_range (hdr : Headers) (name : String) (ctx : ASTContext)
    (source : TypeSource) (hs : scopes_in_range hdr ctx.num_units ctx.var_types) :
    scopes_in_range hdr ctx.num_units (add_unknown_param hdr name ctx source).var_types := by
  unfold add_unknown_param
  dsimp only
  split
  · exact set_in_back_in_range hdr _ name _ _
      (universal_in_range hdr ctx.num_units 0 (le_refl _) _ _) hs
  · exact hs

theorem product_typeinfo_in_range (hdr : Headers) (n : Int) (lhs_p rhs_p : Option TypeInfo) ti
    (hl : ∀ t, lhs_p = some t → t.in_range hdr n) (hr : ∀ t, rhs_p = some t → t.in_range hdr n)
    (h : product_typeinfo hdr lhs_p rhs_p = some ti) : ti.in_range hdr n := by
  unfold product_typeinfo at h
  repeat' split at h
  all_goals first
    | (simp at h; done)
    | (simp only [Option.some.injEq] at h
       subst h
       have h1 := hl _ rfl
       have h2 := hr _ rfl
       constructor
       · intro f hf
         rcases (mem_set_insert_all f _ _).1 hf with h | h
         · rcases (mem_set_insert_all f _ _).1 h with h | h
           · simp at h
           · exact h1.1 f h
         · exact h2.1 f h
       · intro u hu
         rcases (mem_set_insert_all u _ _).1 hu with h | h
         · rcases (mem_set_insert_all u _ _).1 h with h | h
           · simp at h
           · exact h1.2 u h
         · exact h2.2 u h)

theorem type_check_rhs_step_in_range (hdr : Headers) (n : Int) (hG : 0 ≤ hdr.MAV_FRAME_GLOBAL)
    (self : Option TypeInfo × ASTContext → Option (Bool × (Option TypeInfo × ASTContext)))
    (c parent : Cursor) (p : Option TypeInfo × ASTContext) r
    (hself : ∀ s1 r1, self s1 = some r1 → typer_in_range hdr n s1 → typer_in_range hdr n r1.2)
    (h : type_check_rhs hdr self c parent p = some r) (hi : typer_in_range hdr n p) :
    typer_in_range hdr n r.2 := by
  obtain ⟨hs, hf, hn, ht⟩ := hi
  unfold type_check_rhs at h
  dsimp only at h
  by_cases h0 : p.2.ctaw_childno = 0
  · rw [if_pos h0] at h
    simp only [Option.some.injEq] at h
    subst h
    exact ⟨hs, hf, hn, ht⟩
  rw [if_neg h0] at h
  by_cases h1 : c.kind = CXCursorKind.DeclRefExpr
  · rw [if_pos h1] at h
    split at h
    · simp only [Option.some.injEq] at h
      subst h
      refine ⟨?_, ?_, ?_, ?_⟩
      · dsimp only; split <;> exact hs
      · dsimp only; split <;> exact hf
      · dsimp only; split <;> exact hn
      · intro t e
        simp only [Option.some.injEq] at e
        subst e
        rw [hn]
        exact universal_in_range hdr n _ hG _ _
    · split at h
      · split at h
        · rename_i ti hq
          simp only [Option.some.injEq] at h
          subst h
          refine ⟨hs, hf, hn, fun t e => ?_⟩
          simp only [Option.some.injEq] at e
          subst e
          exact get_var_typeinfo_in_range hdr n _ _ _ hs hq
        · simp only [Option.some.injEq] at h
          subst h
          exact ⟨hs, hf, hn, ht⟩
      · simp only [Option.some.injEq] at h
        subst h
        exact ⟨hs, hf, hn, ht⟩
  rw [if_neg h1] at h
  by_cases h2 : c.kind = CXCursorKind.CallExpr
  · rw [if_pos h2] at h
    split at h
    · simp only [Option.some.injEq] at h
      subst h
      exact ⟨hs, hf, hn, ht⟩
    · rename_i ti hq
      simp only [Option.some.injEq] at h
      subst h
      refine ⟨hs, hf, hn, fun t e => ?_⟩
      simp only [Option.some.injEq] at e
      subst e
      exact hf _ (mem_of_map_find _ _ _ hq)
  rw [if_neg h2] at h
  by_cases h3 : c.kind = CXCursorKind.BinaryOperator
  · rw [if_pos h3] at h
    split at h
    · simp at h
    · split at h
      · split at h
        · simp at h
        · rename_i b1 lhs_p ctx1 hq1
          have i1 := hself _ _ hq1 ⟨hs, hf, hn, by simp⟩
          split at h
          · simp at h
          · rename_i b2 rhs_p ctx2 hq2
            have i2 := hself _ _ hq2 ⟨i1.1, i1.2.1, i1.2.2.1, by simp⟩
            split at h
            · rename_i ti hp
              simp only [Option.some.injEq] at h
              subst h
              refine ⟨i2.1, i2.2.1, i2.2.2.1, fun t e => ?_⟩
              simp only [Option.some.injEq] at e
              subst e
              exact product_typeinfo_in_range hdr n _ _ _ i1.2.2.2 i2.2.2.2 hp
            · simp only [Option.some.injEq] at h
              subst h
              exact ⟨i2.1, i2.2.1, i2.2.2.1, ht⟩
      · simp only [Option.some.injEq] at h
        subst h
        exact ⟨hs, hf, hn, ht⟩
  rw [if_neg h3] at h
  by_cases h4 : c.kind = CXCursorKind.IntegerLiteral
  · rw [if_pos h4] at h
    simp only [Option.some.injEq] at h
    subst h
    refine ⟨hs, hf, hn, fun t e => ?_⟩
    simp only [Option.some.injEq] at e
    subst e
    exact ⟨by simp [literal_typeinfo], by simp [literal_typeinfo]⟩
  rw [if_neg h4] at h
  simp only [Option.some.injEq] at h
  subst h
  exact ⟨hs, hf, hn, ht⟩

/-- The expression typer yields TypeInfo values in range when the scopes and the
function-return table hold such values only. -/
theorem type_check_rhs_in_range (hdr : Headers) (n : Int) (hG : 0 ≤ hdr.MAV_FRAME_GLOBAL)
    (c : Cursor) (p : Option TypeInfo × ASTContext) r
    (h : clang_visitChildren (type_check_rhs hdr) c p = some r) :
    typer_in_range hdr n p → typer_in_range hdr n r.2 :=
  clang_visitChildren_rel (type_check_rhs hdr)
    (fun a b => typer_in_range hdr n a → typer_in_range hdr n b)
    (fun _ h => h) (fun _ _ _ h1 h2 h => h2 (h1 h))
    (fun self c parent s r hs h => type_check_rhs_step_in_range hdr n hG self c parent s r
      (fun s1 r1 e => hs s1 r1 e) h) c p r h

theorem add_universal_in_range (hdr : Headers) (n : Int) (ti : TypeInfo)
    (h : ti.in_range hdr n) : (add_universal hdr n ti).in_range hdr n := by
  unfold add_universal
  constructor
  · intro f hf
    rcases (mem_insert_range_into _ _ _ _).1 hf with h1 | h1
    · exact h.1 f h1
    · exact ⟨h1.1, le_of_lt h1.2⟩
  · intro u hu
    rcases (mem_insert_range_into _ _ _ _).1 hu with h1 | h1
    · exact h.2 u h1
    · exact h1

theorem type_cursor_in_range (hdr : Headers) (c : Cursor) (ctx : ASTContext) (t : TypeInfo)
    (hs : scopes_in_range hdr ctx.num_units ctx.var_types)
    (h : type_cursor hdr c ctx = some t) : t.in_range hdr ctx.num_units := by
  unfold type_cursor at h
  simp only [Option.map_eq_some'] at h
  obtain ⟨r, hr, rfl⟩ := h
  refine clang_visitChildren_rel (type_cursor_walker hdr ctx)
    (fun a b => a.in_range hdr ctx.num_units → b.in_range hdr ctx.num_units)
    (fun _ h => h) (fun _ _ _ h1 h2 h => h2 (h1 h)) ?_ c TypeInfo.empty r hr
    ⟨by simp [TypeInfo.empty], by simp [TypeInfo.empty]⟩
  intro self c parent first r _ h hi
  unfold type_cursor_walker at h
  repeat' split at h
  all_goals first
    | (simp at h; done)
    | (simp only [Option.some.injEq] at h; subst h; exact hi)
    | (simp only [Option.some.injEq] at h; subst h; exact add_universal_in_range hdr _ _ hi)
    | (rename_i hq
       simp only [Option.some.injEq] at h; subst h
       exact get_var_typeinfo_in_range hdr _ _ _ _ hs hq)

theorem map_find_fold_map_set {κ α : Type} [DecidableEq κ] [KeyOrd κ] (k : κ) (v : α) :
    ∀ (entries : List (κ × α)) (m : StdMap κ α),
      map_find k (entries.foldl (fun m p => map_set p.1 p.2 m) m) = some v →
      (k, v) ∈ entries ∨ map_find k m = some v := by
  intro entries
  induction entries with
  | nil => intro m h; exact Or.inr h
  | cons e rest ih =>
    intro m h
    rw [List.foldl_cons] at h
    rcases ih _ h with h1 | h1
    · exact Or.inl (List.mem_cons_of_mem _ h1)
    · rw [map_find_map_set] at h1
      by_cases hk : k = e.1
      · rw [if_pos hk] at h1
        simp only [Option.some.injEq] at h1
        exact Or.inl (by rw [hk, ← h1]; exact List.mem_cons_self _ _)
      · rw [if_neg hk] at h1
        exact Or.inr h1

theorem vars_to_typeinfo_frames_in_range (hdr : Headers) (fr : MAVFrame) (n : Int)
    (hfr : ∀ p ∈ frame_to_field_entries hdr fr, 0 ≤ p.2 ∧ p.2 ≤ hdr.MAV_FRAME_NONE) :
    ∀ (names : List String) (ti : TypeInfo), ti.in_range hdr n →
      (vars_to_typeinfo_frames hdr fr names ti).in_range hdr n := by
  have hnone : 0 ≤ hdr.MAV_FRAME_NONE :=
    (hfr ("MAV_FRAME_NONE", hdr.MAV_FRAME_NONE) (by simp [frame_to_field_entries])).1
  intro names
  unfold vars_to_typeinfo_frames
  induction names with
  | nil => intro ti h; exact h
  | cons name rest ih =>
    intro ti h
    rw [List.foldl_cons]
    apply ih
    cases hq : map_find name (frame_to_field hdr fr) with
    | none =>
      refine ⟨fun f hf => ?_, h.2⟩
      rcases (mem_set_insert _ _ _).1 hf with h1 | h1
      · rw [h1]; exact ⟨hnone, le_refl _⟩
      · exact h.1 f h1
    | some v =>
      refine ⟨fun f hf => ?_, h.2⟩
      rcases (mem_set_insert _ _ _).1 hf with h1 | h1
      · rw [h1]
        unfold frame_to_field at hq
        rcases map_find_fold_map_set name v _ _ hq with h2 | h2
        · exact hfr _ h2
        · simp [map_find] at h2
      · exact h.1 f h1

theorem vars_to_typeinfo_unit_in_range (hdr : Headers) (sd : String → Option Dimension)
    (st st1 : TypeInfo × StdMap String Int × Int) (u : String)
    (hd : unit_ids_dense st.2.1 st.2.2) (h0 : 0 ≤ st.2.2)
    (hr : st.1.in_range hdr st.2.2)
    (h : vars_to_typeinfo_unit sd st u = some st1) : st1.1.in_range hdr st1.2.2 := by
  obtain ⟨ti, m, n⟩ := st
  unfold vars_to_typeinfo_unit at h
  dsimp only at h h0 hd hr ⊢
  cases hq : map_find u m with
  | some id =>
    rw [hq] at h
    simp only [Option.some.injEq] at h
    subst h
    refine ⟨hr.1, fun x hx => ?_⟩
    rcases (mem_set_insert _ _ _).1 hx with h1 | h1
    · rw [h1]; exact hd.2.1 u id hq
    · exact hr.2 x h1
  | none =>
    rw [hq] at h
    dsimp only at h
    split at h
    · simp at h
    · simp only [Option.some.injEq] at h
      subst h
      refine ⟨hr.1, fun x hx => ?_⟩
      dsimp only
      rcases (mem_set_insert _ _ _).1 hx with h1 | h1
      · rw [h1]; exact ⟨h0, by omega⟩
      · have := hr.2 x h1
        exact ⟨this.1, by omega⟩

theorem vars_to_typeinfo_units_in_range (hdr : Headers) (sd : String → Option Dimension) :
    ∀ (us : List String) (st st1 : TypeInfo × StdMap String Int × Int),
      unit_ids_dense st.2.1 st.2.2 → 0 ≤ st.2.2 → st.1.in_range hdr st.2.2 →
      vars_to_typeinfo_units sd us st = some st1 →
      unit_ids_dense st1.2.1 st1.2.2 ∧ st.2.2 ≤ st1.2.2 ∧ st1.1.in_range hdr st1.2.2 := by
  intro us
  induction us with
  | nil =>
    intro st st1 hd h0 hr h
    simp only [vars_to_typeinfo_units, Option.some.injEq] at h
    subst h
    exact ⟨hd, le_refl _, hr⟩
  | cons u rest ih =>
    intro st st1 hd h0 hr h
    rw [vars_to_typeinfo_units] at h
    cases hq : vars_to_typeinfo_unit sd st u with
    | none => simp [hq] at h
    | some sa =>
      rw [hq] at h
      dsimp only at h
      obtain ⟨da, ea, _, _⟩ := vars_to_typeinfo_unit_dense sd st sa u hd h0 hq
      have ra := vars_to_typeinfo_unit_in_range hdr sd st sa u hd h0 hr hq
      obtain ⟨db, lb, rb⟩ := ih sa st1 da (le_trans h0 ea.1) ra h
      exact ⟨db, le_trans ea.1 lb, rb⟩

theorem vars_to_typeinfo_loop_in_range (hdr : Headers) (fr : MAVFrame)
    (sd : String → Option Dimension)
    (hfr : ∀ p ∈ frame_to_field_entries hdr fr, 0 ≤ p.2 ∧ p.2 ≤ hdr.MAV_FRAME_NONE) :
    ∀ (vars : List VariableEntry) (st st1 : StdMap String TypeInfo × StdMap String Int × Int),
      unit_ids_dense st.2.1 st.2.2 → 0 ≤ st.2.2 → scope_in_range hdr st.2.2 st.1 →
      vars_to_typeinfo_loop hdr fr sd vars st = some st1 →
      scope_in_range hdr st1.2.2 st1.1 := by
  intro vars
  induction vars with
  | nil =>
    intro st st1 _ _ hr h
    simp only [vars_to_typeinfo_loop, Option.some.injEq] at h
    subst h
    exact hr
  | cons ve rest ih =>
    intro st st1 hd h0 hr h
    rw [vars_to_typeinfo_loop] at h
    cases hq : vars_to_typeinfo_entry hdr fr sd ve st with
    | none => simp [hq] at h
    | some sa =>
      rw [hq] at h
      dsimp only at h
      unfold vars_to_typeinfo_entry at hq
      dsimp only at hq
      split at hq
      · simp at hq
      · rename_i ti m1 n1 hu
        simp only [Option.some.injEq] at hq
        subst hq
        obtain ⟨d1, l1, r1⟩ := vars_to_typeinfo_units_in_range hdr sd _ _ _ hd h0
          (vars_to_typeinfo_frames_in_range hdr fr st.2.2 hfr _ _
            ⟨by simp [TypeInfo.empty], by simp [TypeInfo.empty]⟩) hu
        dsimp only at d1 l1 r1
        refine ih _ st1 d1 (le_trans h0 l1) ?_ h
        intro p hp
        rcases mem_map_set _ _ _ _ hp with h1 | h1
        · rw [h1]; exact ⟨r1.1, r1.2⟩
        · exact in_range_mono hdr l1 _ (hr p h1)

/-- C22: in a context whose scopes and function-return table hold TypeInfo values in range
and whose message-spec table of units mentions IDs in `[0, num_units)` only (frame
enumerators being non-negative with `MAV_FRAME_NONE` the largest), every TypeInfo
constructed by `vars_to_typeinfo`, `add_inner_vars`, `add_unknown_param`, the expression
typer `type_check_rhs` (parameter, literal, product, variable and call cases),
`type_cursor`, `merge_typeinfo` and `unify_scopes` has its frames in
`[0, MAV_FRAME_NONE]` and its units in `[0, num_units)`. -/
theorem constructed_typeinfo_in_range (hdr : Headers) (ctx : ASTContext)
    (hG : 0 ≤ hdr.MAV_FRAME_GLOBAL)
    (hscopes : scopes_in_range hdr ctx.num_units ctx.var_types)
    (hret : scope_in_range hdr ctx.num_units ctx.function_names_to_return_unit)
    (hfields : ∀ e ∈ ctx.type_to_field_to_unit, ∀ q ∈ e.2, 0 ≤ q.2 ∧ q.2 < ctx.num_units) :
    (∀ fr string_to_dimension vars unit_to_id type_id results unit_to_id1 type_id1,
      (∀ p ∈ frame_to_field_entries hdr fr, 0 ≤ p.2 ∧ p.2 ≤ hdr.MAV_FRAME_NONE) →
      unit_ids_dense unit_to_id type_id → 0 ≤ type_id →
      vars_to_typeinfo hdr fr string_to_dimension vars unit_to_id type_id =
        some (results, unit_to_id1, type_id1) →
      scope_in_range hdr type_id1 results) ∧
    (∀ t name source tinfo, scope_in_range hdr ctx.num_units tinfo →
      scope_in_range hdr ctx.num_units
        (add_inner_vars hdr t name ctx.type_to_field_to_unit source tinfo)) ∧
    (∀ name source,
      scopes_in_range hdr ctx.num_units (add_unknown_param hdr name ctx source).var_types) ∧
    (∀ c r, clang_visitChildren (type_check_rhs hdr) c (none, ctx) = some r →
      ∀ t, r.2.1 = some t → t.in_range hdr ctx.num_units) ∧
    (∀ c t, type_cursor hdr c ctx = some t → t.in_range hdr ctx.num_units) ∧
    (∀ dst src, dst.in_range hdr ctx.num_units → src.in_range hdr ctx.num_units →
      (merge_typeinfo dst src).in_range hdr ctx.num_units) ∧
    (∀ old latest, scope_in_range hdr ctx.num_units old →
      scope_in_range hdr ctx.num_units latest →
      scope_in_range hdr ctx.num_units (unify_scopes old latest)) := by
  refine ⟨?_, ?_, ?_, ?_, ?_, ?_, ?_⟩
  · intro fr sd vars m n results m1 n1 hfr hd h0 h
    exact vars_to_typeinfo_loop_in_range hdr fr sd hfr vars ([], m, n) (results, m1, n1) hd h0
      (by intro p hp; simp at hp) h
  · intro t name source tinfo hs
    exact add_inner_vars_in_range hdr _ hG t name _ source tinfo hfields hs
  · intro name source
    exact add_unknown_param_in_range hdr name ctx source hscopes
  · intro c r h
    exact (type_check_rhs_in_range hdr ctx.num_units hG c (none, ctx) r h
      ⟨hscopes, hret, rfl, by simp⟩).2.2.2
  · intro c t h
    exact type_cursor_in_range hdr c ctx t hscopes h
  · intro dst src hd hs
    exact merge_typeinfo_in_range hdr _ dst src hd hs
  · intro old latest ho hl
    exact unify_scopes_in_range hdr _ latest old ho hl

theorem sample_unit_to_id_dense : unit_ids_dense sample_unit_to_id 2 := by
  have hk : ∀ k v, map_find k sample_unit_to_id = some v →
      (k = "centimeter" ∧ v = 1) ∨ (k = "meter" ∧ v = 0) := by
    intro k v h
    have hf : map_find k sample_unit_to_id =
        if k = "centimeter" then some 1 else if k = "meter" then some 0 else none := rfl
    rw [hf] at h
    by_cases e1 : k = "centimeter"
    · rw [if_pos e1] at h
      simp only [Option.some.injEq] at h
      exact Or.inl ⟨e1, h.symm⟩
    · rw [if_neg e1] at h
      by_cases e2 : k = "meter"
      · rw [if_pos e2] at h
        simp only [Option.some.injEq] at h
        exact Or.inr ⟨e2, h.symm⟩
      · rw [if_neg e2] at h
        simp at h
  refine ⟨?_, ?_, ?_⟩
  · intro k1 k2 v h1 h2
    rcases hk k1 v h1 with ⟨a1, b1⟩ | ⟨a1, b1⟩ <;> rcases hk k2 v h2 with ⟨a2, b2⟩ | ⟨a2, b2⟩
    · rw [a1, a2]
    · omega
    · omega
    · rw [a1, a2]
  · intro k v h
    rcases hk k v h with ⟨_, b⟩ | ⟨_, b⟩ <;> omega
  · intro v h0 h2
    have : v = 0 ∨ v = 1 := by omega
    rcases this with e | e
    · exact ⟨"meter", by rw [e]; rfl⟩
    · exact ⟨"centimeter", by rw [e]; rfl⟩

/-- Instance of C21: two known units and the new unit `knot`, which gets the ID 2. -/
theorem vars_to_typeinfo_keeps_unit_ids_dense_witness :
    ∃ results unit_to_id1 type_id1,
      vars_to_typeinfo sample_frame_headers sample_frames (fun _ => none) sample_vars
          sample_unit_to_id 2 = some (results, unit_to_id1, type_id1) ∧
      unit_ids_dense unit_to_id1 type_id1 ∧ 2 ≤ type_id1 ∧
      (∀ k v, map_find k sample_unit_to_id = some v → map_find k unit_to_id1 = some v) ∧
      (∀ ve ∈ sample_vars, ∀ u ∈ ve.semantic_info.units, map_find u sample_unit_to_id = none →
        ∃ v, map_find u unit_to_id1 = some v ∧ 2 ≤ v ∧ v < type_id1 ∧
          ∀ k, map_find k sample_unit_to_id ≠ some v) :=
  vars_to_typeinfo_keeps_unit_ids_dense sample_frame_headers sample_frames (fun _ => none)
    sample_vars sample_unit_to_id 2 sample_unit_to_id_dense (by decide) (by decide)

/-- Instance of C22 in the context of a method whose scope holds a variable in metres:
the prior types built from `sample_vars`, the fields of a message variable, an untyped
parameter, a merge and the typed product `meters_value * 100`. -/
theorem constructed_typeinfo_in_range_witness :
    (∀ results unit_to_id1 type_id1,
      vars_to_typeinfo sample_frame_headers sample_frames (fun _ => none) sample_vars
          sample_unit_to_id 2 = some (results, unit_to_id1, type_id1) →
      scope_in_range sample_frame_headers type_id1 results) ∧
    scope_in_range sample_frame_headers 2
      (add_inner_vars sample_frame_headers "mavlink_msg_t" "m"
        sample_method_ctx.type_to_field_to_unit ⟨TypeSourceKind.SOURCE_INTRINSIC, 0, ""⟩
        [("m::x", sample_centimeter)]) ∧
    scopes_in_range sample_frame_headers 2
      (add_unknown_param sample_frame_headers "v" sample_method_ctx
        ⟨TypeSourceKind.SOURCE_PARAM, 0, ""⟩).var_types ∧
    (merge_typeinfo sample_meter sample_centimeter).in_range sample_frame_headers 2 := by
  have hm : sample_meter.in_range sample_frame_headers 2 := by
    constructor <;> decide
  have hc : sample_centimeter.in_range sample_frame_headers 2 := by
    constructor <;> decide
  have h := constructed_typeinfo_in_range sample_frame_headers sample_method_ctx (by decide)
    (by
      intro m hm1 p hp
      simp only [sample_method_ctx, List.mem_singleton] at hm1
      subst hm1
      simp only [List.mem_singleton] at hp
      subst hp
      exact hm)
    (by intro p hp; simp [sample_method_ctx, sample_ctx] at hp)
    (by decide)
  refine ⟨fun results m1 n1 e => h.1 _ _ _ _ _ _ _ _ (by decide) sample_unit_to_id_dense
    (by decide) e, h.2.1 _ _ _ _ ?_, h.2.2.1 _ _, h.2.2.2.2.2.1 _ _ hm hc⟩
  intro p hp
  simp only [List.mem_singleton] at hp
  subst hp
  exact hc

/-! ## Summaries of other functions and the flags of the walk -/

theorem side_keep_refl (a : ASTContext) : SideKeep a a := ⟨rfl, rfl⟩

theorem side_keep_trans {a b c : ASTContext} (h1 : SideKeep a b) (h2 : SideKeep b c) :
    SideKeep a c :=
  ⟨h2.1.trans h1.1, h2.2.trans h1.2⟩

theorem side_keep_of_typer_frame {a b : ASTContext} (h : b.typer_frame = a.typer_frame) :
    SideKeep a b := by
  have h1 := congrArg ASTContext.summary_view h
  have h2 := congrArg ASTContext.flag_view h
  exact ⟨h1, h2⟩

theorem side_keep_of_store_frame {a b : ASTContext} (h : b.store_frame = a.store_frame) :
    SideKeep a b := by
  have h1 := congrArg ASTContext.summary_view h
  have h2 := congrArg ASTContext.flag_view h
  exact ⟨h1, h2⟩

theorem side_keep_of_mav_frame {a b : ASTContext} (h : b.mav_frame = a.mav_frame) :
    SideKeep a b := by
  have h1 := congrArg ASTContext.summary_view h
  have h2 := congrArg ASTContext.flag_view h
  exact ⟨h1, h2⟩

theorem walk_if_condition_side (cursor : Cursor) (ctx : ASTContext) r
    (h : walk_if_condition cursor ctx = some r) : SideKeep ctx r.2 := by
  unfold walk_if_condition at h
  dsimp only at h
  repeat' split at h
  all_goals first
    | (simp at h; done)
    | (simp only [Option.some.injEq] at h; subst h; exact ⟨rfl, rfl⟩)
    | (simp only [Option.map_eq_some'] at h
       obtain ⟨a, ha, rfl⟩ := h
       have hk := side_keep_of_mav_frame (check_mavlink_rel _ _ _ ha).1
       exact ⟨hk.1, hk.2⟩)

theorem walk_switch_selector_side (cursor : Cursor) (ctx : ASTContext) r
    (h : walk_switch_selector cursor ctx = some r) : SideKeep ctx r.2 := by
  unfold walk_switch_selector at h
  simp only [Option.map_eq_some'] at h
  obtain ⟨a, ha, rfl⟩ := h
  have hk := side_keep_of_mav_frame (check_mavlink_rel _ _ _ ha).1
  exact ⟨hk.1, hk.2⟩

theorem close_scope_side (ctx : ASTContext) r (h : close_scope ctx = some r) :
    SideKeep ctx r.2 := by
  unfold close_scope at h
  repeat' split at h
  all_goals first
    | (simp at h; done)
    | (simp only [Option.some.injEq] at h; subst h; exact ⟨rfl, rfl⟩)

theorem close_switch_scope_side (ctx : ASTContext) r (h : close_switch_scope ctx = some r) :
    SideKeep ctx r.2 := by
  unfold close_switch_scope at h
  repeat' split at h
  all_goals first
    | (simp at h; done)
    | (simp only [Option.some.injEq] at h; subst h; exact ⟨rfl, rfl⟩)

theorem print_frame_switch_side (ctx : ASTContext) : SideKeep ctx (print_frame_switch ctx) := by
  unfold print_frame_switch
  split <;> exact ⟨rfl, rfl⟩

theorem walk_break_stmt_side (ctx : ASTContext) r (h : walk_break_stmt ctx = some r) :
    SideKeep ctx r.2 := by
  unfold walk_break_stmt at h
  split at h
  · simp at h
  · simp only [Option.some.injEq] at h; subst h; exact ⟨rfl, rfl⟩

theorem check_tainted_store_side (hdr : Headers) (c : Cursor) (ctx ctx1 : ASTContext)
    (h : check_tainted_store hdr c ctx = some ctx1) : SideKeep ctx ctx1 :=
  side_keep_of_store_frame (check_tainted_store_rel hdr c ctx ctx1 h).1

theorem walk_binary_operator_side (hdr : Headers) (cursor : Cursor) (ctx : ASTContext) r
    (h : walk_binary_operator hdr cursor ctx = some r) : SideKeep ctx r.2 := by
  unfold walk_binary_operator at h
  split at h
  · simp at h
  · split at h
    · dsimp only at h
      simp only [Option.map_eq_some'] at h
      obtain ⟨a, ha, rfl⟩ := h
      refine side_keep_trans ?_ (check_tainted_store_side hdr _ _ _ ha)
      split <;> exact ⟨rfl, rfl⟩
    · simp only [Option.some.injEq] at h; subst h; exact ⟨rfl, rfl⟩

theorem record_call_side (spelling : String) (call_info : List TypeInfo) (ctx : ASTContext) :
    SideKeep ctx (record_call spelling call_info ctx) := by
  refine ⟨?_, rfl⟩
  unfold record_call ASTContext.summary_view
  dsimp only
  refine Prod.ext rfl (funext fun k => ?_)
  dsimp only
  by_cases hk : k = ctx.current_fn
  · rw [if_pos hk, if_pos hk]
  · rw [if_neg hk, if_neg hk, map_find_map_set, if_neg hk]

theorem walk_call_expr_side (hdr : Headers) (cursor : Cursor) (ctx : ASTContext) r
    (h : walk_call_expr hdr cursor ctx = some r) : SideKeep ctx r.2 := by
  unfold walk_call_expr at h
  dsimp only at h
  split at h
  · simp only [Option.map_eq_some'] at h
    obtain ⟨a, ha, rfl⟩ := h
    exact check_tainted_store_side hdr _ _ _ ha
  · split at h
    · split at h
      · simp at h
      · simp only [Option.some.injEq] at h; subst h
        exact record_call_side _ _ _
    · simp only [Option.some.injEq] at h; subst h; exact side_keep_refl _

theorem walk_parm_decl_side (hdr : Headers) (cursor : Cursor) (ctx : ASTContext) r
    (h : walk_parm_decl hdr cursor ctx = some r) : SideKeep ctx r.2 := by
  unfold walk_parm_decl at h
  dsimp only at h
  split at h
  · simp at h
  · rename_i ctx1 hq
    simp only [Option.some.injEq] at h; subst h
    split at hq
    · unfold add_intrinsic_param at hq
      dsimp only at hq
      split at hq
      · simp at hq
      · simp only [Option.some.injEq] at hq; subst hq; exact ⟨rfl, rfl⟩
    · simp only [Option.some.injEq] at hq; subst hq
      unfold add_plain_param add_unknown_param
      dsimp only
      split <;> exact ⟨rfl, rfl⟩

theorem mark_var_decl_side (cursor : Cursor) (ctx : ASTContext) :
    (mark_var_decl cursor ctx).summary_view = ctx.summary_view ∧
    (mark_var_decl cursor ctx).had_taint =
      (ctx.had_taint ||
        (map_find (get_object_typename cursor.data.type) ctx.types_to_frame_field).isSome) ∧
    (mark_var_decl cursor ctx).had_fn_definition = ctx.had_fn_definition ∧
    (mark_var_decl cursor ctx).seen_definitions = ctx.seen_definitions ∧
    (mark_var_decl cursor ctx).current_usr = ctx.current_usr ∧
    (mark_var_decl cursor ctx).types_to_frame_field = ctx.types_to_frame_field := by
  unfold mark_var_decl is_mav_type
  dsimp only
  cases h1 : (map_find (get_object_typename cursor.data.type) ctx.types_to_frame_field).isSome <;>
    cases h2 : (map_find (get_object_typename cursor.data.type) ctx.type_to_field_to_unit).isSome <;>
    simp [ASTContext.summary_view]

theorem walk_var_decl_side (hdr : Headers) (cursor : Cursor) (ctx : ASTContext) r
    (h : walk_var_decl hdr cursor ctx = some r) :
    r.2.summary_view = ctx.summary_view ∧
    r.2.had_taint =
      (ctx.had_taint ||
        (map_find (get_object_typename cursor.data.type) ctx.types_to_frame_field).isSome) ∧
    r.2.had_fn_definition = ctx.had_fn_definition ∧
    r.2.seen_definitions = ctx.seen_definitions ∧
    r.2.current_usr = ctx.current_usr ∧
    r.2.types_to_frame_field = ctx.types_to_frame_field := by
  unfold walk_var_decl at h
  split at h
  · simp at h
  · rename_i ctx1 hq
    simp only [Option.some.injEq] at h; subst h
    have hf := side_keep_of_typer_frame (check_tainted_decl_frame hdr _ _ _ hq)
    have e2 := hf.2
    unfold ASTContext.flag_view at e2
    simp only [Prod.mk.injEq] at e2
    obtain ⟨m1, m2, m3, m4, m5, m6⟩ := mark_var_decl_side cursor ctx1
    exact ⟨m1.trans hf.1, by rw [m2, e2.1, e2.2.2.2.2], m3.trans e2.2.1, m4.trans e2.2.2.1,
      m5.trans e2.2.2.2.1, m6.trans e2.2.2.2.2⟩

theorem walk_compound_stmt_side (ctx : ASTContext) :
    (walk_compound_stmt ctx).summary_view = ctx.summary_view ∧
    (walk_compound_stmt ctx).had_taint = ctx.had_taint ∧
    (walk_compound_stmt ctx).current_usr = ctx.current_usr ∧
    (walk_compound_stmt ctx).types_to_frame_field = ctx.types_to_frame_field := by
  unfold walk_compound_stmt
  dsimp only
  repeat' split
  all_goals exact ⟨rfl, rfl, rfl, rfl⟩

theorem function_ast_walker_summary (hdr : Headers)
    (self : ASTContext → Option (Bool × ASTContext)) (cursor parent : Cursor) (ctx : ASTContext) r
    (hself : ∀ s1 r1, self s1 = some r1 → r1.2.summary_view = s1.summary_view)
    (h : function_ast_walker hdr self cursor parent ctx = some r) :
    r.2.summary_view = ctx.summary_view := by
  unfold function_ast_walker at h
  by_cases h1 : ctx.constraint = ConstraintType.IFCONDITION
  · rw [if_pos h1] at h
    exact (walk_if_condition_side _ _ _ h).1
  rw [if_neg h1] at h
  by_cases h2 : ctx.constraint = ConstraintType.SWITCHSTMT
  · rw [if_pos h2] at h
    exact (walk_switch_selector_side _ _ _ h).1
  rw [if_neg h2] at h
  unfold walk_statement at h
  by_cases h3 : cursor.kind = CXCursorKind.IfStmt
  · rw [if_pos h3] at h
    unfold walk_if_stmt at h
    dsimp only at h
    split at h
    · simp at h
    · rename_i b1 ctxa hq
      exact ((close_scope_side _ _ h).1.trans (hself _ _ hq))
  rw [if_neg h3] at h
  by_cases h4 : cursor.kind = CXCursorKind.ForStmt ∨ cursor.kind = CXCursorKind.WhileStmt
  · rw [if_pos h4] at h
    unfold walk_loop_stmt at h
    dsimp only at h
    split at h
    · simp at h
    · rename_i b1 ctxa hq
      exact ((close_scope_side _ _ h).1.trans (hself _ _ hq))
  rw [if_neg h4] at h
  by_cases h5 : cursor.kind = CXCursorKind.BreakStmt
  · rw [if_pos h5] at h
    exact (walk_break_stmt_side _ _ h).1
  rw [if_neg h5] at h
  by_cases h6 : cursor.kind = CXCursorKind.SwitchStmt
  · rw [if_pos h6] at h
    unfold walk_switch_stmt at h
    split at h
    · simp at h
    · rename_i b1 ctxa hq
      dsimp only at h
      split at h
      · simp at h
      · rename_i b2 ctxb hq2
        have e1 := hself _ _ hq
        have e2 := (print_frame_switch_side ctxa).1
        have e3 := hself _ _ hq2
        exact (close_switch_scope_side _ _ h).1.trans (e3.trans (e2.trans e1))
  rw [if_neg h6] at h
  by_cases h7 : cursor.kind = CXCursorKind.VarDecl
  · rw [if_pos h7] at h
    exact (walk_var_decl_side _ _ _ _ h).1
  rw [if_neg h7] at h
  by_cases h8 : cursor.kind = CXCursorKind.BinaryOperator
  · rw [if_pos h8] at h
    exact (walk_binary_operator_side _ _ _ _ h).1
  rw [if_neg h8] at h
  by_cases h9 : cursor.kind = CXCursorKind.CallExpr
  · rw [if_pos h9] at h
    exact (walk_call_expr_side _ _ _ _ h).1
  rw [if_neg h9] at h
  by_cases h10 : cursor.kind = CXCursorKind.ParmDecl
  · rw [if_pos h10] at h
    exact (walk_parm_decl_side _ _ _ _ h).1
  rw [if_neg h10] at h
  by_cases h11 : cursor.kind = CXCursorKind.CompoundStmt
  · rw [if_pos h11] at h
    simp only [Option.some.injEq] at h; subst h; exact (walk_compound_stmt_side _).1
  rw [if_neg h11] at h
  simp only [Option.some.injEq] at h; subst h; rfl

/-- A traversal of the function walker writes no summary but the one of the current
function. -/
theorem function_walk_summary (hdr : Headers) (cs : List Cursor) (parent : Cursor)
    (ctx : ASTContext) r (h : visit_list (function_ast_walker hdr) parent cs ctx = some r) :
    r.2.summary_view = ctx.summary_view :=
  visit_list_rel (function_ast_walker hdr) (fun a b => b.summary_view = a.summary_view)
    (fun _ => rfl) (fun _ _ _ h1 h2 => h2.trans h1)
    (fun self c parent s r hs h => function_ast_walker_summary hdr self c parent s r hs h)
    cs parent ctx r h

theorem summary_view_find {a b : ASTContext} (h : b.summary_view = a.summary_view) (k : String)
    (hk : k ≠ a.current_fn) : map_find k b.fn_summary = map_find k a.fn_summary := by
  have h1 : b.current_fn = a.current_fn := congrArg Prod.fst h
  have h2 := congrFun (congrArg Prod.snd h) k
  unfold ASTContext.summary_view at h2
  dsimp only at h2
  rw [if_neg (by rw [h1]; exact hk), if_neg hk] at h2
  exact h2

theorem ast_walker_enter_summary (cursor : Cursor) (ctx : ASTContext) :
    (ast_walker_enter cursor ctx).fn_summary = ctx.fn_summary ∧
      (ast_walker_enter cursor ctx).current_fn = get_cursor_spelling cursor := by
  unfold ast_walker_enter
  dsimp only
  repeat' split
  all_goals exact ⟨rfl, rfl⟩

theorem ast_walker_exit_summary (cursor : Cursor) (n : Nat) (ctx ctx1 : ASTContext)
    (h : ast_walker_exit cursor n ctx = some ctx1) (k : String)
    (hk : k ≠ get_cursor_spelling cursor) :
    map_find k ctx1.fn_summary = map_find k ctx.fn_summary := by
  unfold ast_walker_exit at h
  dsimp only at h
  repeat' split at h
  all_goals first
    | (simp at h; done)
    | (simp only [Option.some.injEq] at h; subst h; rfl)
    | (simp only [Option.some.injEq] at h; subst h
       dsimp only
       rw [map_find_map_set, if_neg hk])

/-- C26 as amended: the walk of a function leaves the summary entry of every function
with another name as it is, so publishing the summary of the second of two functions with
different names does not overwrite `num_params`, `param_to_typesource_kind` or
`store_to_typeinfo` (nor any other field) recorded for the first. -/
theorem ast_walker_keeps_summaries_of_other_names (hdr : Headers)
    (self : ASTContext → Option (Bool × ASTContext)) (cursor parent : Cursor) (ctx : ASTContext) r
    (first : String) (hne : get_cursor_spelling cursor ≠ first)
    (h : ast_walker hdr self cursor parent ctx = some r) :
    map_find first r.2.fn_summary = map_find first ctx.fn_summary := by
  by_cases hk : cursor.kind = CXCursorKind.FunctionDecl ∨ cursor.kind = CXCursorKind.CXXMethod
  · cases hs : set_contains cursor.data.usr ctx.seen_definitions with
    | true =>
      unfold ast_walker at h
      rw [if_pos hk] at h
      dsimp only at h
      rw [hs] at h
      simp only [if_true, Option.some.injEq] at h
      subst h
      rfl
    | false =>
      obtain ⟨walked, hw, hex, _⟩ := ast_walker_walked hdr self cursor parent ctx r hk hs h
      have hv := function_walk_summary hdr _ _ _ _ hw
      obtain ⟨e1, e2⟩ := ast_walker_enter_summary cursor ctx
      have hne' : first ≠ get_cursor_spelling cursor := fun e => hne e.symm
      rw [ast_walker_exit_summary cursor _ _ _ hex first hne',
        summary_view_find hv first (by rw [e2]; exact hne'), e1]
  · unfold ast_walker at h
    rw [if_neg hk] at h
    simp only [Option.some.injEq] at h
    subst h
    rfl

/-- C26 fails for two functions with different USRs and the same name: after the walk of
`Class::set(int, double)` the entry `set` holds two parameters and the store to
`Class::altitude_cm`; the walk of the overload `Class::set()` publishes under the same
key and the entry holds no parameter and no store. -/
theorem overload_overwrites_summary_of_same_name :
    sample_fn_set.data.usr ≠ sample_fn_set_overload.data.usr ∧
    get_cursor_spelling sample_fn_set = get_cursor_spelling sample_fn_set_overload ∧
    (map_find "set" sample_after_set.fn_summary).map
        (fun s => (s.num_params, s.param_to_typesource_kind, map_keys s.store_to_typeinfo)) =
      some (2, [(0, TypeSourceKind.SOURCE_UNKNOWN), (1, TypeSourceKind.SOURCE_UNKNOWN)],
        ["Class::altitude_cm"]) ∧
    (ast_walker sample_headers (fun _ => none) sample_fn_set_overload sample_fn_set_overload
        sample_after_set).map
        (fun r => (map_find "set" r.2.fn_summary).map
          (fun s => (s.num_params, s.param_to_typesource_kind, map_keys s.store_to_typeinfo))) =
      some (some (0, [], [])) := by
  decide!

/-- Instance of C26 as amended: the walk of `g` after the walk of `Class::set` leaves the
entry `set` as it is. -/
theorem ast_walker_keeps_summaries_of_other_names_witness :
    (ast_walker sample_headers (fun _ => none) sample_fn_tainted sample_fn_tainted
        sample_after_set).map (fun r => map_find "set" r.2.fn_summary) =
      some (map_find "set" sample_after_set.fn_summary) := by
  have h : ast_walker sample_headers (fun _ => none) sample_fn_tainted sample_fn_tainted
        sample_after_set =
      some (CXChildVisitResult.Continue,
        match ast_walker sample_headers (fun _ => none) sample_fn_tainted sample_fn_tainted
            sample_after_set with
        | some r => r.2
        | none => sample_ctx) := by decide!
  have e := ast_walker_keeps_summaries_of_other_names sample_headers (fun _ => none)
    sample_fn_tainted sample_fn_tainted sample_after_set _ "set" (by decide) h
  rw [h]
  exact congrArg some e

/-- For a cursor that is no if, loop or switch statement the dispatch of the walker does
not traverse: it returns `Recurse` after a plain step, whatever traversal it is given. -/
theorem walk_statement_simple (hdr : Headers) (self : ASTContext → Option (Bool × ASTContext))
    (c : Cursor) (ctx : ASTContext) r
    (h3 : c.kind ≠ CXCursorKind.IfStmt)
    (h4 : ¬ (c.kind = CXCursorKind.ForStmt ∨ c.kind = CXCursorKind.WhileStmt))
    (h6 : c.kind ≠ CXCursorKind.SwitchStmt)
    (h : walk_statement hdr self c ctx = some r) :
    r.1 = CXChildVisitResult.Recurse ∧ PlainStep ctx r.2 ∧
      walk_statement hdr (fun _ => none) c ctx = some r := by
  have e : walk_statement hdr (fun _ => none) c ctx = walk_statement hdr self c ctx := by
    unfold walk_statement
    rw [if_neg h3, if_neg h4, if_neg h3, if_neg h4]
    by_cases h5 : c.kind = CXCursorKind.BreakStmt
    · rw [if_pos h5, if_pos h5]
    · rw [if_neg h5, if_neg h5, if_neg h6, if_neg h6]
  refine ⟨?_, ?_, e.trans h⟩
  all_goals
    unfold walk_statement at h
    rw [if_neg h3, if_neg h4] at h
    by_cases h5 : c.kind = CXCursorKind.BreakStmt
    · rw [if_pos h5] at h
      first | exact (walk_break_stmt_plain _ _ h).1 | exact (walk_break_stmt_plain _ _ h).2
    rw [if_neg h5, if_neg h6] at h
    by_cases h7 : c.kind = CXCursorKind.VarDecl
    · rw [if_pos h7] at h
      first | exact (walk_var_decl_plain _ _ _ _ h).1 | exact (walk_var_decl_plain _ _ _ _ h).2
    rw [if_neg h7] at h
    by_cases h8 : c.kind = CXCursorKind.BinaryOperator
    · rw [if_pos h8] at h
      first
        | exact (walk_binary_operator_plain _ _ _ _ h).1
        | exact (walk_binary_operator_plain _ _ _ _ h).2
    rw [if_neg h8] at h
    by_cases h9 : c.kind = CXCursorKind.CallExpr
    · rw [if_pos h9] at h
      first | exact (walk_call_expr_plain _ _ _ _ h).1 | exact (walk_call_expr_plain _ _ _ _ h).2
    rw [if_neg h9] at h
    by_cases h10 : c.kind = CXCursorKind.ParmDecl
    · rw [if_pos h10] at h
      first | exact (walk_parm_decl_plain _ _ _ _ h).1 | exact (walk_parm_decl_plain _ _ _ _ h).2
    rw [if_neg h10] at h
    by_cases h11 : c.kind = CXCursorKind.CompoundStmt
    · rw [if_pos h11] at h
      simp only [Option.some.injEq] at h
      subst h
      first | rfl | exact walk_compound_stmt_plain ctx
    rw [if_neg h11] at h
    simp only [Option.some.injEq] at h
    subst h
    first | rfl | exact plain_step_refl _

/-- What a visit of one cursor does when `constraint` is `UNCONSTRAINED`, by the
computations it is made of. -/
theorem visit_node_statement_eqs (hdr : Headers) (parent c : Cursor) (ctx : ASTContext) res
    (hU : ctx.constraint = ConstraintType.UNCONSTRAINED)
    (h : visit_node (function_ast_walker hdr) parent c ctx = some res) :
    (c.kind = CXCursorKind.IfStmt ∧ res.1 = false ∧ ∃ b1 ctx1,
        visit_list (function_ast_walker hdr) c c.children
          { ctx with constraint := ConstraintType.IFCONDITION, var_types := ctx.var_types ++ [[]] } =
          some (b1, ctx1) ∧ close_scope ctx1 = some (CXChildVisitResult.Continue, res.2)) ∨
    ((c.kind = CXCursorKind.ForStmt ∨ c.kind = CXCursorKind.WhileStmt) ∧ res.1 = false ∧
      ∃ b1 ctx1,
        visit_list (function_ast_walker hdr) c c.children
          { ctx with var_types := ctx.var_types ++ [[]] } = some (b1, ctx1) ∧
        close_scope ctx1 = some (CXChildVisitResult.Continue, res.2)) ∨
    (c.kind = CXCursorKind.SwitchStmt ∧ res.1 = false ∧ ∃ b1 ctx1 b2 ctx2,
        visit_list (function_ast_walker hdr) c c.children
          { ctx with constraint := ConstraintType.SWITCHSTMT } = some (b1, ctx1) ∧
        visit_list (function_ast_walker hdr) c c.children
          { print_frame_switch ctx1 with var_types := (print_frame_switch ctx1).var_types ++ [[]] } =
          some (b2, ctx2) ∧
        close_switch_scope ctx2 = some (CXChildVisitResult.Continue, res.2)) ∨
    (c.kind ≠ CXCursorKind.IfStmt ∧
      ¬ (c.kind = CXCursorKind.ForStmt ∨ c.kind = CXCursorKind.WhileStmt) ∧
      c.kind ≠ CXCursorKind.SwitchStmt ∧ ∃ ctx1,
        walk_statement hdr (fun _ => none) c ctx = some (CXChildVisitResult.Recurse, ctx1) ∧
        PlainStep ctx ctx1 ∧
        visit_list (function_ast_walker hdr) c c.children ctx1 = some res) := by
  rw [visit_node_eq, function_ast_walker_statement hdr _ _ _ _ hU] at h
  cases hw : walk_statement hdr (fun s' => visit_list (function_ast_walker hdr) c c.children s') c ctx with
  | none => simp [hw] at h
  | some r =>
    obtain ⟨a, ctx1⟩ := r
    rw [hw] at h
    by_cases h3 : c.kind = CXCursorKind.IfStmt
    · unfold walk_statement at hw
      rw [if_pos h3] at hw
      unfold walk_if_stmt at hw
      dsimp only at hw
      split at hw
      · simp at hw
      · rename_i b1 ctxa hq
        have hf := close_scope_facts _ _ hw
        have ha : a = CXChildVisitResult.Continue := hf.1
        subst ha
        simp only [Option.some.injEq] at h
        subst h
        exact Or.inl ⟨h3, rfl, b1, ctxa, hq, hw⟩
    by_cases h4 : c.kind = CXCursorKind.ForStmt ∨ c.kind = CXCursorKind.WhileStmt
    · unfold walk_statement at hw
      rw [if_neg h3, if_pos h4] at hw
      unfold walk_loop_stmt at hw
      dsimp only at hw
      split at hw
      · simp at hw
      · rename_i b1 ctxa hq
        have hf := close_scope_facts _ _ hw
        have ha : a = CXChildVisitResult.Continue := hf.1
        subst ha
        simp only [Option.some.injEq] at h
        subst h
        exact Or.inr (Or.inl ⟨h4, rfl, b1, ctxa, hq, hw⟩)
    by_cases h6 : c.kind = CXCursorKind.SwitchStmt
    · unfold walk_statement at hw
      rw [if_neg h3, if_neg h4, if_neg (by rw [h6]; decide), if_pos h6] at hw
      unfold walk_switch_stmt at hw
      split at hw
      · simp at hw
      · rename_i b1 ctxa hq
        dsimp only at hw
        split at hw
        · simp at hw
        · rename_i b2 ctxb hq2
          have hf := close_switch_scope_facts _ _ hw
          have ha : a = CXChildVisitResult.Continue := hf.1
          subst ha
          simp only [Option.some.injEq] at h
          subst h
          exact Or.inr (Or.inr (Or.inl ⟨h6, rfl, b1, ctxa, b2, ctxb, hq, hq2, hw⟩))
    obtain ⟨ha, hp, he⟩ := walk_statement_simple hdr _ c ctx _ h3 h4 h6 hw
    have ha' : a = CXChildVisitResult.Recurse := ha
    subst ha'
    exact Or.inr (Or.inr (Or.inr ⟨h3, h4, h6, ctx1, he, hp, h⟩))

theorem in_walk_events_nil (E : Cursor → Prop) : ¬ ∃ T, E T ∧ InWalk T [] := by
  rintro ⟨T, _, h⟩
  exact in_walk_ne_nil h rfl

theorem in_walk_events_cons (E : Cursor → Prop) (c : Cursor) (cs : List Cursor) :
    (∃ T, E T ∧ InWalk T (c :: cs)) ↔ (∃ T, E T ∧ InWalk T [c]) ∨ ∃ T, E T ∧ InWalk T cs := by
  constructor
  · rintro ⟨T, hE, h⟩
    cases h with
    | here => exact Or.inl ⟨_, hE, InWalk.here []⟩
    | later _ _ h1 => exact Or.inr ⟨T, hE, h1⟩
    | inside _ _ hk h1 => exact Or.inl ⟨T, hE, InWalk.inside c [] hk h1⟩
    | inside_if _ p rest _ hk hc h1 => exact Or.inl ⟨T, hE, InWalk.inside_if c p rest [] hk hc h1⟩
  · rintro (⟨T, hE, h⟩ | ⟨T, hE, h⟩)
    · cases h with
      | here => exact ⟨_, hE, InWalk.here cs⟩
      | later _ _ h1 => exact absurd rfl (in_walk_ne_nil h1)
      | inside _ _ hk h1 => exact ⟨T, hE, InWalk.inside c cs hk h1⟩
      | inside_if _ p rest _ hk hc h1 => exact ⟨T, hE, InWalk.inside_if c p rest cs hk hc h1⟩
    · exact ⟨T, hE, InWalk.later c cs h⟩

theorem in_walk_events_if (E : Cursor → Prop) (c p : Cursor) (rest : List Cursor)
    (hk : c.kind = CXCursorKind.IfStmt) (hch : c.children = p :: rest) (hEc : ¬ E c) :
    (∃ T, E T ∧ InWalk T [c]) ↔ ∃ T, E T ∧ InWalk T rest := by
  constructor
  · rintro ⟨T, hE, h⟩
    cases h with
    | here => exact absurd hE hEc
    | later _ _ h1 => exact absurd rfl (in_walk_ne_nil h1)
    | inside _ _ hk1 _ => exact absurd hk hk1
    | inside_if _ p1 rest1 _ _ hc h1 =>
      rw [hch] at hc
      simp only [List.cons.injEq] at hc
      rw [hc.2]
      exact ⟨T, hE, h1⟩
  · rintro ⟨T, hE, h⟩
    exact ⟨T, hE, InWalk.inside_if c p rest [] hk hch h⟩

theorem in_walk_events_other (E : Cursor → Prop) (c : Cursor)
    (hk : c.kind ≠ CXCursorKind.IfStmt) :
    (∃ T, E T ∧ InWalk T [c]) ↔ E c ∨ ∃ T, E T ∧ InWalk T c.children := by
  constructor
  · rintro ⟨T, hE, h⟩
    cases h with
    | here => exact Or.inl hE
    | later _ _ h1 => exact absurd rfl (in_walk_ne_nil h1)
    | inside _ _ _ h1 => exact Or.inr ⟨T, hE, h1⟩
    | inside_if _ p1 rest1 _ hk1 _ _ => exact absurd hk1 hk
  · rintro (hE | ⟨T, hE, h⟩)
    · exact ⟨c, hE, InWalk.here []⟩
    · exact ⟨T, hE, InWalk.inside c [] hk h⟩

/-- A flag `G` that, under the invariant `J`, is set exactly by the visits of the cursors
`E` and touched by nothing else, is set at the end of a traversal exactly when it was set
before or a cursor `E` is contained in the walked trees. -/
theorem walk_flag_events (hdr : Headers) (G J : ASTContext → Prop) (E : Cursor → Prop)
    (hkeep : ∀ a b : ASTContext, b.flag_view = a.flag_view → (J a → J b) ∧ (G b ↔ G a))
    (hstmt : ∀ (c : Cursor) (a b : ASTContext), c.kind ≠ CXCursorKind.IfStmt →
      ¬ (c.kind = CXCursorKind.ForStmt ∨ c.kind = CXCursorKind.WhileStmt) →
      c.kind ≠ CXCursorKind.SwitchStmt →
      walk_statement hdr (fun _ => none) c a = some (CXChildVisitResult.Recurse, b) →
      J a → J b ∧ (G b ↔ G a ∨ E c))
    (hE : ∀ c, E c → c.kind ≠ CXCursorKind.IfStmt ∧
      ¬ (c.kind = CXCursorKind.ForStmt ∨ c.kind = CXCursorKind.WhileStmt) ∧
      c.kind ≠ CXCursorKind.SwitchStmt) :
    (∀ c : Cursor, c.control_wf = true → ∀ parent ctx res,
      ctx.constraint = ConstraintType.UNCONSTRAINED →
      visit_node (function_ast_walker hdr) parent c ctx = some res → J ctx →
      J res.2 ∧ (G res.2 ↔ G ctx ∨ ∃ T, E T ∧ InWalk T [c])) ∧
    (∀ cs : List Cursor, control_wf_list cs = true →
      (∀ parent ctx res, ctx.constraint = ConstraintType.UNCONSTRAINED →
        visit_list (function_ast_walker hdr) parent cs ctx = some res → J ctx →
        J res.2 ∧ (G res.2 ↔ G ctx ∨ ∃ T, E T ∧ InWalk T cs)) ∧
      (∀ parent ctx res p rest, cs = p :: rest →
        ctx.constraint = ConstraintType.IFCONDITION →
        visit_list (function_ast_walker hdr) parent cs ctx = some res → J ctx →
        J res.2 ∧ (G res.2 ↔ G ctx ∨ ∃ T, E T ∧ InWalk T rest))) := by
  refine cursor_induction _ _ ?_ ?_ ?_
  · intro d ch args ih hwf parent ctx res hU h hJ
    obtain ⟨hwch, hne⟩ := control_wf_mk d ch args hwf
    obtain ⟨ih1, ih2⟩ := ih hwch
    have hchildren : (Cursor.mk d ch args).children = ch := rfl
    have hkind : (Cursor.mk d ch args).kind = d.kind := rfl
    rcases visit_node_statement_eqs hdr parent _ ctx res hU h with
      ⟨hk, _, b1, ctx1, hv, hc⟩ | ⟨hk, _, b1, ctx1, hv, hc⟩ |
      ⟨hk, _, b1, ctx1, b2, ctx2, hv1, hv2, hc⟩ | ⟨h3, h4, h6, ctx1, hw, hp, hv⟩
    · rw [hchildren] at hv
      obtain ⟨p, rest, hcc⟩ := List.exists_cons_of_ne_nil (hne (Or.inl (hkind ▸ hk)))
      have k0 := hkeep ctx
        { ctx with constraint := ConstraintType.IFCONDITION,
                   var_types := ctx.var_types ++ [[]] } rfl
      obtain ⟨j1, g1⟩ := ih2 _ _ _ p rest hcc rfl hv (k0.1 hJ)
      have k2 := hkeep ctx1 res.2 (close_scope_side _ _ hc).2
      refine ⟨k2.1 j1, ?_⟩
      rw [k2.2, g1, k0.2,
        in_walk_events_if E _ p rest hk (hchildren.trans hcc) (fun he => (hE _ he).1 hk)]
    · rw [hchildren] at hv
      have k0 := hkeep ctx { ctx with var_types := ctx.var_types ++ [[]] } rfl
      obtain ⟨j1, g1⟩ := ih1 _ _ _ (by exact hU) hv (k0.1 hJ)
      have k2 := hkeep ctx1 res.2 (close_scope_side _ _ hc).2
      refine ⟨k2.1 j1, ?_⟩
      have hnif : (Cursor.mk d ch args).kind ≠ CXCursorKind.IfStmt := by
        rcases hk with hk | hk <;> rw [hk] <;> decide
      rw [k2.2, g1, k0.2, in_walk_events_other E _ hnif, hchildren]
      constructor
      · rintro (h1 | h1)
        · exact Or.inl h1
        · exact Or.inr (Or.inr h1)
      · rintro (h1 | h1 | h1)
        · exact Or.inl h1
        · exact absurd hk (hE _ h1).2.1
        · exact Or.inr h1
    · rw [hchildren] at hv1 hv2
      obtain ⟨c0, cs0, hcc⟩ := List.exists_cons_of_ne_nil (hne (Or.inr (hkind ▸ hk)))
      have hv1' := hv1
      rw [hcc] at hv1'
      have hs := visit_list_switch_selector hdr _ c0 cs0 _ _ rfl hv1'
      have hc1 : ctx1.constraint = ConstraintType.UNCONSTRAINED :=
        (walk_switch_selector_facts _ _ _ hs.2).2.1
      have hpc : (print_frame_switch ctx1).constraint = ConstraintType.UNCONSTRAINED := by
        unfold print_frame_switch; split <;> exact hc1
      have s1 := walk_switch_selector_side _ _ _ hs.2
      have k0 := hkeep ctx ctx1 s1.2
      have k1 := hkeep ctx1
        { print_frame_switch ctx1 with
          var_types := (print_frame_switch ctx1).var_types ++ [[]] }
        (print_frame_switch_side ctx1).2
      obtain ⟨j1, g1⟩ := ih1 _ _ _ (by exact hpc) hv2 (k1.1 (k0.1 hJ))
      have k2 := hkeep ctx2 res.2 (close_switch_scope_side _ _ hc).2
      refine ⟨k2.1 j1, ?_⟩
      have hnif : (Cursor.mk d ch args).kind ≠ CXCursorKind.IfStmt := by rw [hk]; decide
      rw [k2.2, g1, k1.2, k0.2, in_walk_events_other E _ hnif, hchildren]
      constructor
      · rintro (h1 | h1)
        · exact Or.inl h1
        · exact Or.inr (Or.inr h1)
      · rintro (h1 | h1 | h1)
        · exact Or.inl h1
        · exact absurd hk (hE _ h1).2.2
        · exact Or.inr h1
    · rw [hchildren] at hv
      obtain ⟨j0, g0⟩ := hstmt _ ctx ctx1 h3 h4 h6 hw hJ
      obtain ⟨j1, g1⟩ := ih1 _ _ _ (hp.2.1.trans hU) hv j0
      refine ⟨j1, ?_⟩
      rw [g1, g0, in_walk_events_other E _ h3, hchildren, or_assoc]
  · intro _
    refine ⟨fun parent ctx res _ h hJ => ?_, fun parent ctx res p rest e => ?_⟩
    · rw [visit_list_nil] at h
      simp only [Option.some.injEq] at h
      subst h
      exact ⟨hJ, by simp [in_walk_events_nil E]⟩
    · simp at e
  · intro c cs ihc ihcs hwf
    obtain ⟨hwc, hwcs⟩ := control_wf_list_cons c cs hwf
    obtain ⟨ih1, _⟩ := ihcs hwcs
    refine ⟨fun parent ctx res hU h hJ => ?_, fun parent ctx res p rest e hI h hJ => ?_⟩
    · cases hn : visit_node (function_ast_walker hdr) parent c ctx with
      | none => rw [visit_list_cons, hn] at h; simp at h
      | some r1 =>
        obtain ⟨b, s1⟩ := r1
        have hf := (walk_keeps_unconstrained hdr).1 c hwc parent ctx _ hU hn
        have hb : b = false := hf.1
        subst hb
        rw [visit_list_cons, hn] at h
        simp only at h
        obtain ⟨j0, g0⟩ := ihc hwc parent ctx _ hU hn hJ
        obtain ⟨j1, g1⟩ := ih1 parent s1 res hf.2 h j0
        refine ⟨j1, ?_⟩
        rw [g1, g0, in_walk_events_cons E c cs, or_assoc]
    · simp only [List.cons.injEq] at e
      obtain ⟨e1, e2⟩ := e
      subst e1
      subst e2
      cases hn : visit_node (function_ast_walker hdr) parent c ctx with
      | none => rw [visit_list_cons, hn] at h; simp at h
      | some r1 =>
        obtain ⟨b, s1⟩ := r1
        have hf := visit_node_if_condition hdr parent c ctx _ hI hn
        have hb : b = false := hf.1
        subst hb
        rw [visit_list_cons, hn] at h
        simp only at h
        have hs1 := (walk_if_condition_facts _ _ _ hf.2).2.1
        have k0 := hkeep ctx s1 (walk_if_condition_side _ _ _ hf.2).2
        obtain ⟨j1, g1⟩ := ih1 parent s1 res hs1 h (k0.1 hJ)
        refine ⟨j1, ?_⟩
        rw [g1, k0.2]

/-- What one statement that is no if, loop or switch statement does to the flags. -/
theorem walk_statement_flags (hdr : Headers) (self : ASTContext → Option (Bool × ASTContext))
    (c : Cursor) (ctx : ASTContext) r
    (h3 : c.kind ≠ CXCursorKind.IfStmt)
    (h4 : ¬ (c.kind = CXCursorKind.ForStmt ∨ c.kind = CXCursorKind.WhileStmt))
    (h6 : c.kind ≠ CXCursorKind.SwitchStmt)
    (h : walk_statement hdr self c ctx = some r) :
    (c.kind = CXCursorKind.VarDecl →
      r.2.had_taint =
        (ctx.had_taint ||
          (map_find (get_object_typename c.data.type) ctx.types_to_frame_field).isSome) ∧
      r.2.had_fn_definition = ctx.had_fn_definition ∧
      r.2.seen_definitions = ctx.seen_definitions ∧
      r.2.current_usr = ctx.current_usr ∧
      r.2.types_to_frame_field = ctx.types_to_frame_field) ∧
    (c.kind = CXCursorKind.CompoundStmt → r.2 = walk_compound_stmt ctx) ∧
    (c.kind ≠ CXCursorKind.VarDecl → c.kind ≠ CXCursorKind.CompoundStmt →
      r.2.flag_view = ctx.flag_view) := by
  unfold walk_statement at h
  rw [if_neg h3, if_neg h4] at h
  by_cases h5 : c.kind = CXCursorKind.BreakStmt
  · rw [if_pos h5] at h
    exact ⟨fun e => absurd (h5.symm.trans e) (by decide),
      fun e => absurd (h5.symm.trans e) (by decide), fun _ _ => (walk_break_stmt_side _ _ h).2⟩
  rw [if_neg h5, if_neg h6] at h
  by_cases h7 : c.kind = CXCursorKind.VarDecl
  · rw [if_pos h7] at h
    exact ⟨fun _ => (walk_var_decl_side _ _ _ _ h).2,
      fun e => absurd (h7.symm.trans e) (by decide), fun e _ => absurd h7 e⟩
  rw [if_neg h7] at h
  by_cases h8 : c.kind = CXCursorKind.BinaryOperator
  · rw [if_pos h8] at h
    exact ⟨fun e => absurd e h7, fun e => absurd (h8.symm.trans e) (by decide),
      fun _ _ => (walk_binary_operator_side _ _ _ _ h).2⟩
  rw [if_neg h8] at h
  by_cases h9 : c.kind = CXCursorKind.CallExpr
  · rw [if_pos h9] at h
    exact ⟨fun e => absurd e h7, fun e => absurd (h9.symm.trans e) (by decide),
      fun _ _ => (walk_call_expr_side _ _ _ _ h).2⟩
  rw [if_neg h9] at h
  by_cases h10 : c.kind = CXCursorKind.ParmDecl
  · rw [if_pos h10] at h
    exact ⟨fun e => absurd e h7, fun e => absurd (h10.symm.trans e) (by decide),
      fun _ _ => (walk_parm_decl_side _ _ _ _ h).2⟩
  rw [if_neg h10] at h
  by_cases h11 : c.kind = CXCursorKind.CompoundStmt
  · rw [if_pos h11] at h
    simp only [Option.some.injEq] at h
    subst h
    exact ⟨fun e => absurd e h7, fun _ => rfl, fun _ e => absurd h11 e⟩
  rw [if_neg h11] at h
  simp only [Option.some.injEq] at h
  subst h
  exact ⟨fun e => absurd e h7, fun e => absurd e h11, fun _ _ => rfl⟩

/-- At the end of a traversal `had_taint` is set exactly when it was set before or a
`VarDecl` of a type of the frame-field table is among the walked statements. -/
theorem walk_had_taint_iff (hdr : Headers) (tbl : StdMap String String) (cs : List Cursor)
    (hwf : control_wf_list cs = true) (parent : Cursor) (ctx : ASTContext) res
    (hU : ctx.constraint = ConstraintType.UNCONSTRAINED)
    (htbl : ctx.types_to_frame_field = tbl)
    (h : visit_list (function_ast_walker hdr) parent cs ctx = some res) :
    res.2.had_taint = true ↔
      ctx.had_taint = true ∨ ∃ T, is_frame_var_decl tbl T ∧ InWalk T cs := by
  refine (((walk_flag_events hdr (fun a => a.had_taint = true)
    (fun a => a.types_to_frame_field = tbl) (is_frame_var_decl tbl) ?_ ?_ ?_).2 cs hwf).1
    parent ctx res hU h htbl).2
  · intro a b e
    unfold ASTContext.flag_view at e
    simp only [Prod.mk.injEq] at e
    exact ⟨fun ha => e.2.2.2.2.trans ha, by dsimp only; rw [e.1]⟩
  · intro c a b h3 h4 h6 hw ha
    obtain ⟨f1, f2, f3⟩ := walk_statement_flags hdr _ c a _ h3 h4 h6 hw
    dsimp only at f1 f2 f3 ha ⊢
    by_cases hv : c.kind = CXCursorKind.VarDecl
    · obtain ⟨t1, _, _, _, t5⟩ := f1 hv
      refine ⟨t5.trans ha, ?_⟩
      rw [t1, ha]
      unfold is_frame_var_decl
      simp [hv]
    · have hne : ¬ is_frame_var_decl tbl c := fun e => hv e.1
      by_cases hc : c.kind = CXCursorKind.CompoundStmt
      · rw [f2 hc]
        obtain ⟨_, s2, _, s4⟩ := walk_compound_stmt_side a
        exact ⟨s4.trans ha, by rw [s2]; simp [hne]⟩
      · have e := f3 hv hc
        unfold ASTContext.flag_view at e
        simp only [Prod.mk.injEq] at e
        exact ⟨e.2.2.2.2.trans ha, by rw [e.1]; simp [hne]⟩
  · intro c e
    refine ⟨?_, ?_, ?_⟩
    · rw [e.1]; decide
    · rw [e.1]; decide
    · rw [e.1]; decide

theorem walk_compound_stmt_defines (ctx : ASTContext)
    (h : ctx.had_fn_definition = true ∨ ctx.current_usr ∉ ctx.seen_definitions) :
    (walk_compound_stmt ctx).had_fn_definition = true := by
  unfold walk_compound_stmt
  cases hd : ctx.had_fn_definition with
  | true => simp [hd]
  | false =>
    rcases h with h | h
    · rw [hd] at h; simp at h
    · have hs : set_contains ctx.current_usr ctx.seen_definitions = false := by
        cases hq : set_contains ctx.current_usr ctx.seen_definitions with
        | false => rfl
        | true => exact absurd (set_contains_iff.1 hq) h
      simp [hs, hd]

/-- At the end of a traversal that started with the USR of the function not in
`seen_definitions` (or with `had_fn_definition` set), `had_fn_definition` is set exactly
when it was set before or a `CompoundStmt` is among the walked statements. -/
theorem walk_had_fn_definition_iff (hdr : Headers) (usr : String) (cs : List Cursor)
    (hwf : control_wf_list cs = true) (parent : Cursor) (ctx : ASTContext) res
    (hU : ctx.constraint = ConstraintType.UNCONSTRAINED)
    (husr : ctx.current_usr = usr)
    (hnew : ctx.had_fn_definition = true ∨ usr ∉ ctx.seen_definitions)
    (h : visit_list (function_ast_walker hdr) parent cs ctx = some res) :
    res.2.had_fn_definition = true ↔
      ctx.had_fn_definition = true ∨ ∃ C, C.kind = CXCursorKind.CompoundStmt ∧ InWalk C cs := by
  refine (((walk_flag_events hdr (fun a => a.had_fn_definition = true)
    (fun a => a.current_usr = usr ∧ (a.had_fn_definition = true ∨ usr ∉ a.seen_definitions))
    (fun C => C.kind = CXCursorKind.CompoundStmt) ?_ ?_ ?_).2 cs hwf).1
    parent ctx res hU h ⟨husr, hnew⟩).2
  · intro a b e
    unfold ASTContext.flag_view at e
    simp only [Prod.mk.injEq] at e
    exact ⟨fun ha => ⟨e.2.2.2.1.trans ha.1, by rw [e.2.1, e.2.2.1]; exact ha.2⟩,
      by dsimp only; rw [e.2.1]⟩
  · intro c a b h3 h4 h6 hw ha
    obtain ⟨f1, f2, f3⟩ := walk_statement_flags hdr _ c a _ h3 h4 h6 hw
    dsimp only at f1 f2 f3 ha ⊢
    by_cases hc : c.kind = CXCursorKind.CompoundStmt
    · have hb := f2 hc
      have hd := walk_compound_stmt_defines a (by rw [ha.1]; exact ha.2)
      rw [← hb] at hd
      have hu : b.current_usr = a.current_usr := by rw [hb]; exact (walk_compound_stmt_side a).2.2.1
      exact ⟨⟨hu.trans ha.1, Or.inl hd⟩, by simp [hd, hc]⟩
    · by_cases hv : c.kind = CXCursorKind.VarDecl
      · obtain ⟨_, t2, t3, t4, _⟩ := f1 hv
        exact ⟨⟨t4.trans ha.1, by rw [t2, t3]; exact ha.2⟩, by rw [t2]; simp [hc]⟩
      · have e := f3 hv hc
        unfold ASTContext.flag_view at e
        simp only [Prod.mk.injEq] at e
        exact ⟨⟨e.2.2.2.1.trans ha.1, by rw [e.2.1, e.2.2.1]; exact ha.2⟩,
          by rw [e.2.1]; simp [hc]⟩
  · intro c e
    have e' : c.kind = CXCursorKind.CompoundStmt := e
    refine ⟨?_, ?_, ?_⟩
    · rw [e']; decide
    · rw [e']; decide
    · rw [e']; decide

/-- C30: for a function definition not walked before, `ast_walker` writes the line
`BUG: unconstrained MAV frame used in: <name>` exactly when the walked statements contain
a `VarDecl` whose stripped type name is a key of the frame-field table and a
`CompoundStmt` (the first one reached finds the USR not yet in `seen_definitions`), and
the walk ends with `had_mav_constraint` false (`check_mavlink` recognised no frame-field
access); it writes no BUG line more than once. -/
theorem ast_walker_bug_line_iff (hdr : Headers) (self : ASTContext → Option (Bool × ASTContext))
    (fn parent : Cursor) (ctx : ASTContext) r
    (hk : fn.kind = CXCursorKind.FunctionDecl ∨ fn.kind = CXCursorKind.CXXMethod)
    (hseen : set_contains fn.data.usr ctx.seen_definitions = false)
    (hU : ctx.constraint = ConstraintType.UNCONSTRAINED)
    (hwf : fn.control_wf = true)
    (h : ast_walker hdr self fn parent ctx = some r) :
    ∃ l, r.2.cout = ctx.cout ++ l ∧ (∀ name, l.count (bug_line name) ≤ 1) ∧
      (l.count (bug_line fn.data.spelling) = 1 ↔
        (∃ T, is_frame_var_decl ctx.types_to_frame_field T ∧ InWalk T fn.children) ∧
        (∃ C, C.kind = CXCursorKind.CompoundStmt ∧ InWalk C fn.children) ∧
        (walk_flags hdr fn ctx).map (fun f => f.2.2) = some false) := by
  obtain ⟨walked, hw, _, _⟩ := ast_walker_walked hdr self fn parent ctx r hk hseen h
  obtain ⟨l0, hl0, hc⟩ := ast_walker_cout hdr self fn parent ctx r walked hk hseen hw h
  obtain ⟨e1, _, e3, e4, e5, e6, e7, _⟩ := ast_walker_enter_rel fn ctx
  have hwch := control_wf_children fn hwf
  have ht := walk_had_taint_iff hdr ctx.types_to_frame_field fn.children hwch fn
    (ast_walker_enter fn ctx) walked (e6.trans hU) e7 hw
  have hnot : fn.data.usr ∉ (ast_walker_enter fn ctx).seen_definitions := by
    rw [e5]
    intro hm
    have := set_contains_iff.2 hm
    rw [hseen] at this
    exact absurd this (by decide)
  have hd := walk_had_fn_definition_iff hdr fn.data.usr fn.children hwch fn
    (ast_walker_enter fn ctx) walked (e6.trans hU) e4 (Or.inr hnot) hw
  rw [e3] at ht
  rw [e1] at hd
  simp only [Bool.false_eq_true, false_or] at ht hd
  have hflags : (walk_flags hdr fn ctx).map (fun f => f.2.2) = some walked.2.had_mav_constraint := by
    unfold walk_flags
    rw [hw]
    rfl
  have hz : ∀ name, l0.count (bug_line name) = 0 := fun name =>
    count_eq_zero_of_forall_ne _ l0 (fun x hx => hl0 x hx name)
  refine ⟨l0 ++ (if walked.2.had_taint = true ∧ walked.2.had_fn_definition = true ∧
      walked.2.had_mav_constraint = false then [bug_line fn.data.spelling] else []),
    by rw [hc, List.append_assoc], fun name => ?_, ?_⟩
  · rw [List.count_append, hz, Nat.zero_add]
    split
    · exact (List.count_le_length _ _).trans (by simp)
    · simp
  · rw [List.count_append, hz, Nat.zero_add, hflags, ← ht, ← hd]
    split
    · rename_i hcond
      simp [hcond.1, hcond.2.1, hcond.2.2]
    · rename_i hcond
      simp only [List.count_nil, Option.some.injEq]
      constructor
      · intro hx; exact absurd hx (by decide)
      · intro hx; exact absurd hx hcond

/-- Instance of C30: `void g() { mavlink_msg_t m; }`. -/
theorem ast_walker_bug_line_iff_witness :
    ∃ l, (ast_walker sample_headers (fun _ => none) sample_fn_tainted sample_fn_tainted
          sample_ctx).map (fun r => r.2.cout) = some (sample_ctx.cout ++ l) ∧
      (∀ name, l.count (bug_line name) ≤ 1) ∧
      (l.count (bug_line sample_fn_tainted.data.spelling) = 1 ↔
        (∃ T, is_frame_var_decl sample_ctx.types_to_frame_field T ∧
          InWalk T sample_fn_tainted.children) ∧
        (∃ C, C.kind = CXCursorKind.CompoundStmt ∧ InWalk C sample_fn_tainted.children) ∧
        (walk_flags sample_headers sample_fn_tainted sample_ctx).map (fun f => f.2.2) =
          some false) := by
  have h : ast_walker sample_headers (fun _ => none) sample_fn_tainted sample_fn_tainted sample_ctx =
      some (CXChildVisitResult.Continue,
        match ast_walker sample_headers (fun _ => none) sample_fn_tainted sample_fn_tainted
            sample_ctx with
        | some r => r.2
        | none => sample_ctx) := by decide!
  obtain ⟨l, h1, h2, h3⟩ := ast_walker_bug_line_iff sample_headers (fun _ => none)
    sample_fn_tainted sample_fn_tainted sample_ctx _ (by decide!) (by decide!) (by decide!)
    (by decide!) h
  exact ⟨l, by rw [h]; simpa using h1, h2, h3⟩

/-! ## Products below implicit casts -/

/-- The typer stops at a reference to a variable that is no parameter and that a scope
binds, with the type the innermost such scope gives it. -/
theorem type_check_rhs_local_ref (hdr : Headers) (v : String) (T : TypeInfo) (c : Cursor)
    (href : VarRef v c) :
    ∀ (parent : Cursor) (first : Option TypeInfo) (ctx : ASTContext),
      ctx.ctaw_childno ≠ 0 → set_contains v ctx.current_fn_params = false →
      v.isEmpty = false → get_var_typeinfo v ctx.var_types = some T →
      visit_node (type_check_rhs hdr) parent c (first, ctx) = some (true, (some T, ctx)) := by
  induction href with
  | direct c hk hs =>
    intro parent first ctx hn hnp hv hT
    have hne : ctx.var_types.isEmpty = false := by
      cases hvt : ctx.var_types with
      | nil => rw [hvt] at hT; simp [get_var_typeinfo_nil] at hT
      | cons a b => rfl
    rw [visit_node_eq]
    unfold type_check_rhs
    dsimp only
    rw [if_neg hn, if_pos hk, hs]
    simp [hnp, hv, hne, hT]
  | wrapped w inner rest hk hc _ ih =>
    intro parent first ctx hn hnp hv hT
    rw [visit_node_eq, type_check_rhs_unexposed hdr _ w parent (first, ctx) hn hk]
    simp only
    rw [hc, visit_list_cons, ih w first ctx hn hnp hv hT]

/-- The typer stops at an integer literal with the type of the literal. -/
theorem type_check_rhs_literal (hdr : Headers) (lit c : Cursor)
    (hk : lit.kind = CXCursorKind.IntegerLiteral) (href : BelowCasts lit c) :
    ∀ (parent : Cursor) (first : Option TypeInfo) (ctx : ASTContext),
      ctx.ctaw_childno ≠ 0 →
      visit_node (type_check_rhs hdr) parent c (first, ctx) =
        some (true, (some (literal_typeinfo lit), ctx)) := by
  induction href with
  | direct =>
    intro parent first ctx hn
    rw [visit_node_eq]
    unfold type_check_rhs
    dsimp only
    rw [if_neg hn, if_neg (by rw [hk]; decide), if_neg (by rw [hk]; decide),
      if_neg (by rw [hk]; decide), if_pos hk]
  | wrapped w inner rest hw hc _ ih =>
    intro parent first ctx hn
    rw [visit_node_eq, type_check_rhs_unexposed hdr _ w parent (first, ctx) hn hw]
    simp only
    rw [hc, visit_list_cons, ih w first ctx hn]

/-- The declaration walker on the product `v * n` of a typed local and an integer literal:
the declared name is bound to the scaled type. -/
theorem check_tainted_decl_walker_product (hdr : Headers)
    (self : ASTContext → Option (Bool × ASTContext)) (parent : Cursor) (ctx : ASTContext)
    (prod lhs rhs lit : Cursor) (T : TypeInfo) (D : Dimension) (x v : String)
    (hb : prod.kind = CXCursorKind.BinaryOperator) (hpc : prod.children = [lhs, rhs])
    (hop : get_binary_operator prod = some "*")
    (hl : VarRef v lhs) (hnp : set_contains v ctx.current_fn_params = false)
    (hv : v.isEmpty = false) (hT : get_var_typeinfo v ctx.var_types = some T)
    (hD : T.dimension = some D)
    (hfs : T.frames.Sorted (· < ·)) (hus : T.units.Sorted (· < ·))
    (hn : lit.kind = CXCursorKind.IntegerLiteral) (hr : BelowCasts lit rhs)
    (hx : get_initialization_decl prod = some ⟨CXCursorKind.VarDecl, x⟩) :
    check_tainted_decl_walker hdr self prod parent ctx =
      some (CXChildVisitResult.Break,
        { ctx with
          var_types :=
            set_in_back x (scaled_typeinfo hdr T D lit.data.eval_as_int) ctx.var_types }) := by
  have hne : ctx.var_types.isEmpty = false := by
    cases hvt : ctx.var_types with
    | nil => rw [hvt] at hT; simp [get_var_typeinfo_nil] at hT
    | cons a b => rfl
  have h1 : clang_visitChildren (type_check_rhs hdr) prod
      (none, { ctx with ctaw_childno := 1 }) =
      some (true, (some T, { ctx with ctaw_childno := 1 })) := by
    unfold clang_visitChildren
    rw [hpc, visit_list_cons,
      type_check_rhs_local_ref hdr v T lhs hl prod none
        ({ ctx with ctaw_childno := 1 } : ASTContext) (show (1 : Int) ≠ 0 by decide) hnp hv hT]
  have h2 : clang_visitChildren (type_check_rhs hdr) prod
      (none, { ctx with ctaw_childno := 0 }) =
      some (true, (some (literal_typeinfo lit), { ctx with ctaw_childno := 1 })) := by
    unfold clang_visitChildren
    rw [hpc, visit_list_cons, visit_node_eq,
      type_check_rhs_skips_first hdr _ lhs prod _ rfl]
    simp only
    rw [visit_list_cons,
      type_check_rhs_literal hdr lit rhs hn hr prod none
        ({ ctx with ctaw_childno := 1 } : ASTContext) (show (1 : Int) ≠ 0 by decide)]
  have hp : product_typeinfo hdr (some T) (some (literal_typeinfo lit)) =
      some (scaled_typeinfo hdr T D lit.data.eval_as_int) := by
    simp [product_typeinfo, hD, literal_typeinfo, scaled_typeinfo,
      set_insert_all_nil_of_sorted _ hfs, set_insert_all_nil_of_sorted _ hus,
      set_insert_all_nil_right]
  unfold check_tainted_decl_walker
  rw [if_neg (by rw [hb]; decide), if_neg (by rw [hb]; decide), if_neg (by rw [hb]; decide),
    if_pos hb, hop]
  simp only [if_true]
  rw [h1]
  simp only
  rw [h2]
  simp only
  rw [hp]
  simp [check_tainted_decl_walker_bind, hne, hx, CursorRef.spelling_or_null,
    show ("" : String).isEmpty = true from rfl]

/-- The same below the implicit casts around the product. -/
theorem check_tainted_decl_walker_init (hdr : Headers) (ctx : ASTContext)
    (init prod lhs rhs lit : Cursor) (T : TypeInfo) (D : Dimension) (x v : String)
    (hi : BelowCasts prod init)
    (hb : prod.kind = CXCursorKind.BinaryOperator) (hpc : prod.children = [lhs, rhs])
    (hop : get_binary_operator prod = some "*")
    (hl : VarRef v lhs) (hnp : set_contains v ctx.current_fn_params = false)
    (hv : v.isEmpty = false) (hT : get_var_typeinfo v ctx.var_types = some T)
    (hD : T.dimension = some D)
    (hfs : T.frames.Sorted (· < ·)) (hus : T.units.Sorted (· < ·))
    (hn : lit.kind = CXCursorKind.IntegerLiteral) (hr : BelowCasts lit rhs)
    (hx : get_initialization_decl prod = some ⟨CXCursorKind.VarDecl, x⟩) :
    ∀ par, visit_node (check_tainted_decl_walker hdr) par init ctx =
      some (true, { ctx with
        var_types :=
          set_in_back x (scaled_typeinfo hdr T D lit.data.eval_as_int) ctx.var_types }) := by
  induction hi with
  | direct =>
    intro par
    rw [visit_node_eq, check_tainted_decl_walker_product hdr _ par ctx prod lhs rhs lit T D x v
      hb hpc hop hl hnp hv hT hD hfs hus hn hr hx]
  | wrapped w inner rest hw hc _ ih =>
    intro par
    have hstep : ∀ s, check_tainted_decl_walker hdr s w par ctx =
        some (CXChildVisitResult.Recurse, ctx) := by
      intro s
      unfold check_tainted_decl_walker
      rw [if_neg (by rw [hw]; decide), if_neg (by rw [hw]; decide),
        if_neg (by rw [hw]; decide), if_neg (by rw [hw]; decide),
        if_neg (by rw [hw]; decide)]
    rw [visit_node_eq, hstep]
    simp only
    rw [hc, visit_list_cons, ih]

/-- C6: for a declaration `x = v * n` whose declared type is not a framed message type,
with `v` a non-parameter variable bound in scope to `T` of dimension `D` and `n` an integer
literal of value `lit.eval_as_int`, the walker binds `x` in the innermost scope to the
TypeInfo with the frames and units of `T`, no source and dimension `D` times the scalar
`n/1` with all-zero exponents. The read of `v`, the literal and the product itself may each
lie below unexposed cursors (the implicit casts clang puts around them). The sets of `T`
are strictly increasing, as every `std::set`; the product cursor reaches the declaration of
`x` through its semantic parents. -/
theorem var_decl_binds_product_with_literal (hdr : Headers)
    (self : ASTContext → Option (Bool × ASTContext))
    (parent : Cursor) (ctx : ASTContext)
    (decl init prod lhs rhs lit : Cursor) (T : TypeInfo) (D : Dimension) (x v : String)
    (hd : decl.kind = CXCursorKind.VarDecl) (hdc : decl.children = [init])
    (hi : BelowCasts prod init)
    (hU : ctx.constraint = ConstraintType.UNCONSTRAINED)
    (hty : map_find (get_object_typename decl.data.type) ctx.types_to_frame_field = none)
    (hb : prod.kind = CXCursorKind.BinaryOperator) (hpc : prod.children = [lhs, rhs])
    (hop : get_binary_operator prod = some "*")
    (hl : VarRef v lhs) (hnp : set_contains v ctx.current_fn_params = false)
    (hv : v.isEmpty = false) (hT : get_var_typeinfo v ctx.var_types = some T)
    (hD : T.dimension = some D)
    (hfs : T.frames.Sorted (· < ·)) (hus : T.units.Sorted (· < ·))
    (hn : lit.kind = CXCursorKind.IntegerLiteral) (hr : BelowCasts lit rhs)
    (hx : get_initialization_decl prod = some ⟨CXCursorKind.VarDecl, x⟩) :
    ∃ ctx', function_ast_walker hdr self decl parent ctx =
        some (CXChildVisitResult.Recurse, ctx') ∧
      ctx'.var_types =
        set_in_back x (scaled_typeinfo hdr T D lit.data.eval_as_int) ctx.var_types ∧
      ∃ back, ctx'.var_types.getLast? = some back ∧
        map_find x back = some (scaled_typeinfo hdr T D lit.data.eval_as_int) := by
  have hne : ctx.var_types.isEmpty = false := by
    cases hvt : ctx.var_types with
    | nil => rw [hvt] at hT; simp [get_var_typeinfo_nil] at hT
    | cons a b => rfl
  have hinit := check_tainted_decl_walker_init hdr ctx init prod lhs rhs lit T D x v hi hb hpc
    hop hl hnp hv hT hD hfs hus hn hr hx
  have hdecl : check_tainted_decl hdr decl ctx =
      some { ctx with
        var_types :=
          set_in_back x (scaled_typeinfo hdr T D lit.data.eval_as_int) ctx.var_types } := by
    unfold check_tainted_decl clang_visitChildren
    dsimp only
    rw [hty, hdc, visit_list_cons, hinit]
    simp
  refine ⟨mark_var_decl decl
    { ctx with
      var_types :=
        set_in_back x (scaled_typeinfo hdr T D lit.data.eval_as_int) ctx.var_types }, ?_,
    mark_var_decl_var_types _ _, ?_⟩
  · simp [function_ast_walker, walk_statement, hU, hd, walk_var_decl, hdecl]
  · rw [mark_var_decl_var_types]
    exact getLast?_set_in_back _ _ _ (by intro h0; simp [h0] at hne)

/-- Instance of C6: `auto x = meters_value * 100;` in the sample method, with the implicit
casts clang puts around the read of `meters_value` and around `100`. -/
theorem var_decl_binds_product_with_literal_witness :
    ∃ ctx', function_ast_walker sample_headers (fun _ => none) sample_product_decl
        sample_product_decl sample_method_ctx = some (CXChildVisitResult.Recurse, ctx') ∧
      ctx'.var_types =
        [[("meters_value", sample_meter),
          ("x", { frames := [0, 1], units := [0], source := []
                  dimension := some ⟨[1, 0, 0, 0, 0, 0, 0], 100, 1⟩ })]] := by
  obtain ⟨ctx', h1, h2, _⟩ := var_decl_binds_product_with_literal sample_headers
    (fun _ => none) sample_product_decl sample_method_ctx sample_product_decl
    sample_cast_product sample_cast_product sample_read_meters_value sample_cast_hundred
    sample_hundred sample_meter ⟨[1, 0, 0, 0, 0, 0, 0], 1, 1⟩ "x" "meters_value"
    (by decide!) rfl BelowCasts.direct (by decide!) (by decide!) (by decide!) rfl (by decide!)
    (VarRef.wrapped _ _ _ (by decide!) rfl (VarRef.direct _ (by decide!) (by decide!)))
    (by decide!) (by decide!) (by decide!) (by decide!) (by decide!) (by decide!) (by decide!)
    (BelowCasts.wrapped _ _ _ (by decide!) rfl BelowCasts.direct) (by decide!)
  exact ⟨ctx', h1, h2.trans (by decide!)⟩

/-! ## Member accesses through a pointer -/

end SA4U
